import Mathlib

/-!
# Connection-audit log extractors (PostgreSQL and MySQL)

A shallow embedding of `parseConnectionLog`, `sendSlackNotification` and `handler` of
`postgresql-connect-audit/main.go` and `mysql-connect-audit/main.go`, with the parts of the Go
standard library they call (`regexp`, `strings`, `time`).

Modelling conventions:
* a Go string is a Lean `String`, read as its sequence of Unicode code points (the log line is
  taken to be valid UTF-8);
* `regexp` is a backtracking matcher over the constructs the patterns use; Go documents its
  leftmost-first matching as the match a backtracking search finds first;
* `time.Now()` is the parameter `now`; the location that `time.LoadLocation("Asia/Tokyo")`
  returns is the parameter `jst` (the zone database is not part of the repository, and the load
  is taken to succeed); `asiaTokyo` is the location with the offsets the zone database records
  for that zone;
* a nil `*ConnectionInfo` is `none`;
* the environment, the clock, `json.Marshal` and `http.Post` are the fields of a `Runtime`
  over a state of the outside world, which `sendSlackNotification` and `handler` pass along;
  a returned `error` is `some`, and the `log.Printf` lines of `handler` are the list of sends
  it returns;
* the batch given to `handler` is the result of `event.AWSLogs.Parse()`: an error, or the
  messages of the log events in order.
-/

namespace GoLambda

/-! ## `regexp` -/

/-- The fragment of RE2 syntax used by the patterns: the empty pattern, `^`, a one-character
class, a greedy `*` over a class, concatenation, alternation and a numbered capture group. -/
inductive Regex where
  | empty : Regex
  | bol : Regex
  | cls : (Char → Bool) → Regex
  | star : (Char → Bool) → Regex
  | cat : Regex → Regex → Regex
  | alt : Regex → Regex → Regex
  | cap : Nat → Regex → Regex

/-- Capture registers: the text last captured by each group. -/
abbrev Caps := Nat → List Char

/-- Greedy repetition of a class: consume as many characters as possible, then give characters
back one at a time until the continuation succeeds. -/
def starK {α : Type} (p : Char → Bool) :
    Nat → List Char → (Nat → List Char → Option α) → Option α
  | pos, [], k => k pos []
  | pos, a :: s, k =>
    if p a then
      match starK p (pos + 1) s k with
      | some r => some r
      | none => k pos (a :: s)
    else k pos (a :: s)

/-- Backtracking matcher in continuation-passing style. `pos` is the offset of the remaining
input `s` in the searched text; the first alternative that lets the continuation succeed wins. -/
def matchK : Regex → Nat → List Char → Caps →
    (Nat → List Char → Caps → Option Caps) → Option Caps
  | .empty, pos, s, c, k => k pos s c
  | .bol, pos, s, c, k => if pos = 0 then k pos s c else none
  | .cls p, pos, s, c, k =>
    match s with
    | [] => none
    | a :: t => if p a then k (pos + 1) t c else none
  | .star p, pos, s, c, k => starK p pos s (fun pos1 s1 => k pos1 s1 c)
  | .cat a b, pos, s, c, k =>
    matchK a pos s c (fun pos1 s1 c1 => matchK b pos1 s1 c1 k)
  | .alt a b, pos, s, c, k =>
    match matchK a pos s c k with
    | some r => some r
    | none => matchK b pos s c k
  | .cap i r, pos, s, c, k =>
    matchK r pos s c
      (fun pos1 s1 c1 => k pos1 s1 (Function.update c1 i (s.take (pos1 - pos))))

/-- Number of capture groups of a pattern (`NumSubexp`). -/
def Regex.numSubexp : Regex → Nat
  | .cat a b => max a.numSubexp b.numSubexp
  | .alt a b => max a.numSubexp b.numSubexp
  | .cap i r => max i r.numSubexp
  | _ => 0

/-- Match attempt starting exactly at offset `pos`; group 0 is the whole match. -/
def matchAt (r : Regex) (pos : Nat) (s : List Char) : Option Caps :=
  matchK (.cap 0 r) pos s (fun _ => []) (fun _ _ c => some c)

/-- Unanchored search: the leftmost offset at which a match attempt succeeds. -/
def search (r : Regex) : Nat → List Char → Option Caps
  | pos, [] => matchAt r pos []
  | pos, a :: s =>
    match matchAt r pos (a :: s) with
    | some c => some c
    | none => search r (pos + 1) s

/-- `(*Regexp).FindStringSubmatch`: the empty slice when nothing matched, otherwise the whole
match followed by the text of each group. -/
def FindStringSubmatch (r : Regex) (s : String) : List String :=
  match search r 0 s.data with
  | none => []
  | some c => (List.range (r.numSubexp + 1)).map (fun i => String.mk (c i))

/-- `(*Regexp).MatchString`. -/
def MatchString (r : Regex) (s : String) : Bool :=
  (search r 0 s.data).isSome

/-- Perl class `\s` of RE2: tab, newline, form feed, carriage return, space. -/
def reSpace (c : Char) : Bool :=
  c.toNat = 9 || c.toNat = 10 || c.toNat = 12 || c.toNat = 13 || c.toNat = 32

/-- Perl class `\d` of RE2: `[0-9]`. -/
def reDigit (c : Char) : Bool := decide (48 ≤ c.toNat) && decide (c.toNat ≤ 57)

/-- Perl class `\w` of RE2: `[0-9A-Za-z_]`. -/
def reWord (c : Char) : Bool :=
  reDigit c || (decide (65 ≤ c.toNat) && decide (c.toNat ≤ 90))
    || (decide (97 ≤ c.toNat) && decide (c.toNat ≤ 122)) || c.toNat = 95

/-- Negated one-character class `[^a]`. -/
def reNot (a : Char) (c : Char) : Bool := !(c = a)

/-- A literal run of characters. -/
def Regex.lit : List Char → Regex
  | [] => .empty
  | a :: t => .cat (.cls (fun c => c = a)) (Regex.lit t)

/-- Greedy `+` over a class: one character of the class, then `*`. -/
def Regex.plus (p : Char → Bool) : Regex := .cat (.cls p) (.star p)

/-- Counted repetition `r{n}`. -/
def Regex.times (r : Regex) : Nat → Regex
  | 0 => .empty
  | n + 1 => .cat r (Regex.times r n)

/-- Concatenation of a list of patterns. -/
def Regex.seq : List Regex → Regex
  | [] => .empty
  | r :: rs => .cat r (Regex.seq rs)

/-! ## `strings` -/

/-- `strings.Contains` on code-point sequences. -/
def containsList : List Char → List Char → Bool
  | [], sub => sub.isEmpty
  | a :: t, sub => sub.isPrefixOf (a :: t) || containsList t sub

/-- `strings.Contains`. -/
def Contains (s substr : String) : Bool := containsList s.data substr.data

/-- `unicode.IsSpace`. -/
def isSpace (c : Char) : Bool :=
  (decide (9 ≤ c.toNat) && decide (c.toNat ≤ 13)) || c.toNat = 32 || c.toNat = 0x85
    || c.toNat = 0xA0 || c.toNat = 0x1680
    || (decide (0x2000 ≤ c.toNat) && decide (c.toNat ≤ 0x200A))
    || c.toNat = 0x2028 || c.toNat = 0x2029 || c.toNat = 0x202F || c.toNat = 0x205F
    || c.toNat = 0x3000

/-- `strings.TrimSpace` on code-point sequences: drop leading, then trailing, white space. -/
def trimSpaceList (s : List Char) : List Char :=
  ((s.dropWhile isSpace).reverse.dropWhile isSpace).reverse

/-- `strings.TrimSpace`. -/
def TrimSpace (s : String) : String := String.mk (trimSpaceList s.data)

/-! ## `time` -/

/-- A `time.Time`: an instant (seconds and nanoseconds since the Unix epoch) together with the
offset east of UTC, in seconds, of the location it is expressed in. -/
structure Time where
  sec : Int
  nsec : Nat
  offset : Int
deriving DecidableEq, Repr

/-- A `*time.Location`: the offset east of UTC, in seconds, in force at each instant. -/
structure Location where
  offsetAt : Int → Int

/-- `Time.In`: the same instant, expressed in another location. -/
def Time.In (t : Time) (loc : Location) : Time :=
  { t with offset := loc.offsetAt t.sec }

def isLeap (y : Nat) : Bool := y % 4 = 0 && (y % 100 != 0 || y % 400 = 0)

/-- Days in month `m` of year `y`. -/
def daysIn (m y : Nat) : Nat :=
  if m = 2 then (if isLeap y then 29 else 28)
  else if m = 4 ∨ m = 6 ∨ m = 9 ∨ m = 11 then 30 else 31

/-- Days from 0000-01-01 to the first day of year `y` (proleptic Gregorian calendar). -/
def daysBeforeYear (y : Nat) : Nat :=
  365 * y + (y + 3) / 4 - (y + 99) / 100 + (y + 399) / 400

/-- Days from the first day of the year to the first day of month `m`. -/
def daysBeforeMonth (m y : Nat) : Nat :=
  [0, 31, 59, 90, 120, 151, 181, 212, 243, 273, 304, 334].getD (m - 1) 0
    + (if isLeap y ∧ 2 < m then 1 else 0)

/-- `time.Date(year, month, day, hour, min, sec, nsec, time.UTC)` for an in-range date. -/
def Date (year month day hour min sec nsec : Nat) : Time :=
  { sec := ((daysBeforeYear year + daysBeforeMonth month year + (day - 1) : Nat) - 719528 : Int)
      * 86400 + ((hour * 3600 + min * 60 + sec : Nat) : Int)
    nsec := nsec
    offset := 0 }

/-- The elements of a layout string, as `time.Parse` splits it. -/
inductive Std where
  | longYear : Std
  | zeroMonth : Std
  | zeroDay : Std
  | hour : Std
  | zeroMinute : Std
  | zeroSecond : Std
  | fracSecond0 : Nat → Std
  | text : List Char → Std

/-- The fields `time.Parse` has read so far. -/
structure Parsed where
  year : Nat := 0
  month : Nat := 1
  day : Nat := 1
  hour : Nat := 0
  min : Nat := 0
  sec : Nat := 0
  nsec : Nat := 0

def digitVal (c : Char) : Nat := c.toNat - 48

/-- Value of a run of decimal digits; `none` when a character is not a digit. -/
def digitsVal : List Char → Nat → Option Nat
  | [], acc => some acc
  | c :: t, acc => if reDigit c then digitsVal t (acc * 10 + digitVal c) else none

/-- `getnum`: one or two digits (`fixed` demands two). -/
def getnum (value : List Char) (fixed : Bool) : Option (Nat × List Char) :=
  match value with
  | a :: b :: t =>
    if reDigit a then
      if reDigit b then some (digitVal a * 10 + digitVal b, t)
      else if fixed then none else some (digitVal a, b :: t)
    else none
  | [a] => if reDigit a && !fixed then some (digitVal a, []) else none
  | [] => none

/-- `skip`: remove a literal layout text from the value; a run of spaces of the layout stands
for any run of spaces of the value. `afterSpace` records that the layout character just
handled was a space, whose run has already been cut from both sides. -/
def skipAux : List Char → Bool → List Char → Option (List Char)
  | [], _, value => some value
  | p :: ps, afterSpace, value =>
    if p = ' ' then
      if afterSpace then skipAux ps true value
      else
        match value with
        | v :: _ =>
          if v = ' ' then skipAux ps true (value.dropWhile (fun c => c = ' ')) else none
        | [] => skipAux ps true []
    else
      match value with
      | v :: vs => if v = p then skipAux ps false vs else none
      | [] => none

def skip (value pre : List Char) : Option (List Char) := skipAux pre false value

/-- `atoi`: an optional sign, then decimal digits only. -/
def atoi : List Char → Option Int
  | [] => some 0
  | c :: t =>
    if c = '-' then (digitsVal t 0).map (fun n => -(n : Int))
    else if c = '+' then (digitsVal t 0).map (fun n => (n : Int))
    else (digitsVal (c :: t) 0).map (fun n => (n : Int))

/-- `parseNanoseconds value nbytes`: a period or comma, then the digits up to byte `nbytes`,
scaled to nanoseconds. -/
def parseNanoseconds (value : List Char) (nbytes : Nat) : Option Nat :=
  match value with
  | [] => none
  | c :: t =>
    if c = '.' ∨ c = ',' then
      let n := min nbytes 10
      match atoi (t.take (n - 1)) with
      | some ns => if ns < 0 then none else some (ns.toNat * 10 ^ (10 - n))
      | none => none
    else none

/-- One layout element of `time.Parse` applied to the rest of the value. `fracNext` tells
whether the next element of the layout is a fractional second. -/
def parseStd (std : Std) (fracNext : Bool) (f : Parsed) (value : List Char) :
    Option (Parsed × List Char) :=
  match std with
  | .text p => (skip value p).map (fun v => (f, v))
  | .longYear =>
    if value.length < 4 then none
    else (digitsVal (value.take 4) 0).map (fun y => ({ f with year := y }, value.drop 4))
  | .zeroMonth =>
    match getnum value true with
    | some (m, v) => if m = 0 ∨ 12 < m then none else some ({ f with month := m }, v)
    | none => none
  | .zeroDay => (getnum value true).map (fun r => ({ f with day := r.1 }, r.2))
  | .hour =>
    match getnum value false with
    | some (h, v) => if 24 ≤ h then none else some ({ f with hour := h }, v)
    | none => none
  | .zeroMinute =>
    match getnum value true with
    | some (m, v) => if 60 ≤ m then none else some ({ f with min := m }, v)
    | none => none
  | .zeroSecond =>
    match getnum value true with
    | some (x, v) =>
      if 60 ≤ x then none
      else
        match v with
        | c :: d :: t =>
          if (c = '.' ∨ c = ',') ∧ reDigit d = true ∧ fracNext = false then
            let n := 2 + (t.takeWhile reDigit).length
            (parseNanoseconds v n).map (fun ns => ({ f with sec := x, nsec := ns }, v.drop n))
          else some ({ f with sec := x }, v)
        | _ => some ({ f with sec := x }, v)
    | none => none
  | .fracSecond0 d =>
    if value.length < 1 + d then none
    else (parseNanoseconds value (1 + d)).map (fun ns => ({ f with nsec := ns }, value.drop (1 + d)))

/-- Whether the next non-literal element of a layout is a fractional second. -/
def fracNext : List Std → Bool
  | .text _ :: rest => fracNext rest
  | .fracSecond0 _ :: _ => true
  | _ => false

def parseLayout : List Std → Parsed → List Char → Option Parsed
  | [], f, value => if value.isEmpty then some f else none
  | std :: rest, f, value =>
    match parseStd std (fracNext rest) f value with
    | some (f1, v1) => parseLayout rest f1 v1
    | none => none

/-- `time.Parse` for a layout without zone: the fields are read in layout order, the day is
checked against the month, and the result is a UTC time; `none` is a parse error. -/
def Parse (layout : List Std) (value : String) : Option Time :=
  match parseLayout layout {} value.data with
  | some f =>
    if f.day < 1 ∨ daysIn f.month f.year < f.day then none
    else some (Date f.year f.month f.day f.hour f.min f.sec f.nsec)
  | none => none

/-- The layout `"2006-01-02 15:04:05"`. -/
def layoutDateTime : List Std :=
  [.longYear, .text ['-'], .zeroMonth, .text ['-'], .zeroDay, .text [' '], .hour, .text [':'],
   .zeroMinute, .text [':'], .zeroSecond]

/-- The layout `"2006-01-02T15:04:05.000000Z"`. -/
def layoutMicroZ : List Std :=
  [.longYear, .text ['-'], .zeroMonth, .text ['-'], .zeroDay, .text ['T'], .hour, .text [':'],
   .zeroMinute, .text [':'], .zeroSecond, .fracSecond0 6, .text ['Z']]

/-! ## Data model -/

/-- `ConnectionInfo` (データベース接続情報). -/
structure ConnectionInfo where
  Timestamp : Time
  UserName : String
  DatabaseName : String
  ClientIP : String
  LogMessage : String
deriving DecidableEq, Repr

/-- The date part shared by all patterns: `\d{4}-\d{2}-\d{2}`. -/
def reDate : List Regex :=
  [.times (.cls reDigit) 4, .lit ['-'], .times (.cls reDigit) 2, .lit ['-'],
   .times (.cls reDigit) 2]

/-- The time-of-day part shared by all patterns: `\d{2}:\d{2}:\d{2}`. -/
def reClock : List Regex :=
  [.times (.cls reDigit) 2, .lit [':'], .times (.cls reDigit) 2, .lit [':'],
   .times (.cls reDigit) 2]

/-! ## PostgreSQL: `postgresql-connect-audit/main.go` -/

namespace PostgreSQL

/-- The gate pattern `connection\s+(received|authorized)`. -/
def connectionPattern : Regex :=
  .seq [.lit "connection".data, .plus reSpace,
        .cap 1 (.alt (.lit "received".data) (.lit "authorized".data))]

def systemUsers : List String := ["rdsadmin", "rdshm"]

/-- The capture `(\d{4}-\d{2}-\d{2}\s+\d{2}:\d{2}:\d{2})`. -/
def reTimestamp : Regex := .cap 1 (.seq (reDate ++ [.plus reSpace] ++ reClock))

/-- The part `\s+UTC:([^:]+):\s*([^@]+)@([^:]+):` that follows the timestamp in both patterns. -/
def rePrefix : List Regex :=
  [.plus reSpace, .lit "UTC:".data, .cap 2 (.plus (reNot ':')), .lit [':'], .star reSpace,
   .cap 3 (.plus (reNot '@')), .lit ['@'], .cap 4 (.plus (reNot ':')), .lit [':']]

/-- The structured pattern
`(\d{4}-\d{2}-\d{2}\s+\d{2}:\d{2}:\d{2})\s+UTC:([^:]+):\s*([^@]+)@([^:]+):\[(\d+)\]:LOG:\s+connection\s+(authorized|received):\s+user=(\w+)\s+database=(\w+)`. -/
def logPattern : Regex :=
  .seq ([reTimestamp] ++ rePrefix ++
    [.lit ['['], .cap 5 (.plus reDigit), .lit "]:LOG:".data, .plus reSpace,
     .lit "connection".data, .plus reSpace,
     .cap 6 (.alt (.lit "authorized".data) (.lit "received".data)), .lit [':'], .plus reSpace,
     .lit "user=".data, .cap 7 (.plus reWord), .plus reSpace, .lit "database=".data,
     .cap 8 (.plus reWord)])

/-- The fallback pattern
`(\d{4}-\d{2}-\d{2}\s+\d{2}:\d{2}:\d{2})\s+UTC:([^:]+):\s*([^@]+)@([^:]+):`. -/
def simplePattern : Regex := .seq ([reTimestamp] ++ rePrefix)

/-- The pattern `^([^(]+)` applied to the captured address. -/
def ipPattern : Regex := .seq [.bol, .cap 1 (.plus (reNot '('))]

/-- `parseConnectionLog` (ログメッセージから接続情報を解析). -/
def parseConnectionLog (now : Time) (jst : Location) (message : String) :
    Option ConnectionInfo :=
  if !MatchString connectionPattern message then none
  else if systemUsers.any (fun sysUser =>
      Contains message ("identity=\"" ++ sysUser ++ "\"")
        || Contains message ("user=" ++ sysUser)
        || Contains message (sysUser ++ "@")) then none
  else
    let matched := FindStringSubmatch logPattern message
    if matched.length < 9 then
      let simpleMatches := FindStringSubmatch simplePattern message
      if simpleMatches.length ≥ 5 then
        let timestamp :=
          match Parse layoutDateTime (simpleMatches.getD 1 "") with
          | none => now
          | some t => t.In jst
        let clientIP := FindStringSubmatch ipPattern (simpleMatches.getD 2 "")
        let ip := if clientIP.length > 1 then clientIP.getD 1 "" else "不明"
        some { Timestamp := timestamp
               UserName := TrimSpace (simpleMatches.getD 3 "")
               DatabaseName := TrimSpace (simpleMatches.getD 4 "")
               ClientIP := ip
               LogMessage := message }
      else none
    else
      let timestamp :=
        match Parse layoutDateTime (matched.getD 1 "") with
        | none => now
        | some t => t.In jst
      let clientIPRaw := matched.getD 2 ""
      let clientIP := FindStringSubmatch ipPattern clientIPRaw
      let ip := if clientIP.length > 1 then clientIP.getD 1 "" else "不明"
      some { Timestamp := timestamp
             UserName := TrimSpace (matched.getD 7 "")
             DatabaseName := TrimSpace (matched.getD 8 "")
             ClientIP := ip
             LogMessage := message }

end PostgreSQL

/-! ## MySQL: `mysql-connect-audit/main.go` -/

namespace MySQL

/-- The gate pattern `Connect`. -/
def connectPattern : Regex := .lit "Connect".data

def systemUsers : List String := ["rdsadmin", "mysql.session", "mysql.sys", "root"]

/-- The part `(\d{4}-\d{2}-\d{2}T\d{2}:\d{2}:\d{2}\.\d+Z)\s+\d+\s+Connect\s+([^@]+)@([^\s]+)\s+on`
shared by the three patterns. -/
def reHead : List Regex :=
  [.cap 1 (.seq (reDate ++ [.lit ['T']] ++ reClock ++ [.lit ['.'], .plus reDigit, .lit ['Z']])),
   .plus reSpace, .plus reDigit, .plus reSpace, .lit "Connect".data, .plus reSpace,
   .cap 2 (.plus (reNot '@')), .lit ['@'], .cap 3 (.plus (fun c => !reSpace c)),
   .plus reSpace, .lit "on".data]

/-- Pattern 1, `...\s+on\s+(\w+)\s+using`. -/
def withDbPattern : Regex :=
  .seq (reHead ++ [.plus reSpace, .cap 4 (.plus reWord), .plus reSpace, .lit "using".data])

/-- Pattern 2, `...\s+on\s+\s+using`. -/
def withoutDbPattern : Regex :=
  .seq (reHead ++ [.plus reSpace, .plus reSpace, .lit "using".data])

/-- Pattern 3, `...\s+on\s+([^\s]*)\s*using`. -/
def flexiblePattern : Regex :=
  .seq (reHead ++ [.plus reSpace, .cap 4 (.star (fun c => !reSpace c)), .star reSpace,
    .lit "using".data])

/-- `parseConnectionLog` (MySQLログメッセージから接続情報を解析). -/
def parseConnectionLog (now : Time) (message : String) : Option ConnectionInfo :=
  if !MatchString connectPattern message then none
  else if systemUsers.any (fun sysUser => Contains message (sysUser ++ "@")) then none
  else
    let matched := FindStringSubmatch withDbPattern message
    if matched.length ≥ 5 then
      let timestamp :=
        match Parse layoutMicroZ (matched.getD 1 "") with
        | none => now
        | some t => t
      some { Timestamp := timestamp
             UserName := TrimSpace (matched.getD 2 "")
             DatabaseName := TrimSpace (matched.getD 4 "")
             ClientIP := TrimSpace (matched.getD 3 "")
             LogMessage := message }
    else
      let noDbMatches := FindStringSubmatch withoutDbPattern message
      if noDbMatches.length ≥ 4 then
        let timestamp :=
          match Parse layoutMicroZ (noDbMatches.getD 1 "") with
          | none => now
          | some t => t
        some { Timestamp := timestamp
               UserName := TrimSpace (noDbMatches.getD 2 "")
               DatabaseName := "指定なし"
               ClientIP := TrimSpace (noDbMatches.getD 3 "")
               LogMessage := message }
      else
        let flexMatches := FindStringSubmatch flexiblePattern message
        if flexMatches.length ≥ 5 then
          let timestamp :=
            match Parse layoutMicroZ (flexMatches.getD 1 "") with
            | none => now
            | some t => t
          let dbName := TrimSpace (flexMatches.getD 4 "")
          let dbName := if dbName = "" then "指定なし" else dbName
          some { Timestamp := timestamp
                 UserName := TrimSpace (flexMatches.getD 2 "")
                 DatabaseName := dbName
                 ClientIP := TrimSpace (flexMatches.getD 3 "")
                 LogMessage := message }
        else none

end MySQL

/-! ## What a match is -/

/-- Declarative reading of a pattern with its groups: `Derives r pos w c c1` says that `w`, found
at offset `pos`, is matched by `r`, taking the capture registers from `c` to `c1`. -/
def Derives : Regex → Nat → List Char → Caps → Caps → Prop
  | .empty, _, w, c, c1 => w = [] ∧ c1 = c
  | .bol, pos, w, c, c1 => pos = 0 ∧ w = [] ∧ c1 = c
  | .cls p, _, w, c, c1 => ∃ a, w = [a] ∧ p a = true ∧ c1 = c
  | .star p, _, w, c, c1 => (∀ a ∈ w, p a = true) ∧ c1 = c
  | .cat a b, pos, w, c, c1 =>
    ∃ w1 w2 c2, w = w1 ++ w2 ∧ Derives a pos w1 c c2 ∧ Derives b (pos + w1.length) w2 c2 c1
  | .alt a b, pos, w, c, c1 => Derives a pos w c c1 ∨ Derives b pos w c c1
  | .cap i r, pos, w, c, c1 => ∃ c2, Derives r pos w c c2 ∧ c1 = Function.update c2 i w

/-- The language of a pattern at offset `pos`, groups forgotten. -/
def Lang : Regex → Nat → List Char → Prop
  | .empty, _, w => w = []
  | .bol, pos, w => pos = 0 ∧ w = []
  | .cls p, _, w => ∃ a, w = [a] ∧ p a = true
  | .star p, _, w => ∀ a ∈ w, p a = true
  | .cat a b, pos, w => ∃ w1 w2, w = w1 ++ w2 ∧ Lang a pos w1 ∧ Lang b (pos + w1.length) w2
  | .alt a b, pos, w => Lang a pos w ∨ Lang b pos w
  | .cap _ r, pos, w => Lang r pos w

/-- Group indices occurring in a pattern. -/
def Regex.groups : Regex → List Nat
  | .cat a b => a.groups ++ b.groups
  | .alt a b => a.groups ++ b.groups
  | .cap i r => i :: r.groups
  | _ => []

/-- The sub-pattern whose match ends up in group `i`, when that group lies on the spine of
concatenations (so that it takes part in every match). -/
def Regex.sub : Regex → Nat → Option Regex
  | .cat a b, i => if i ∈ b.groups then b.sub i else a.sub i
  | .cap j r, i => if j = i then some r else r.sub i
  | _, _ => none

/-! ## Vocabulary of the statements -/

/-- The text `sub` occurs somewhere in `s`. -/
def Occurs (sub s : String) : Prop := sub.data <:+: s.data

/-- A definite value for `time.Now()`, used to evaluate the extractors on sample lines. -/
def epoch : Time := { sec := 0, nsec := 0, offset := 0 }

/-- A location nine hours east of UTC at every instant. -/
def fixedJST : Location := { offsetAt := fun _ => 32400 }

/-- The zone `Asia/Tokyo` as the time zone database records it, which is what
`time.LoadLocation("Asia/Tokyo")` reads: local mean time, 9:18:59 east of UTC, until
1887-12-31 15:00 UTC; Japan Standard Time, +09:00, since; and Japan Daylight Time, +10:00,
in the summers of 1948 to 1951 (from 15:00 UTC on 1948-05-01, 1949-04-02, 1950-05-06 and
1951-05-05 until 15:00 UTC on 1948-09-11, 1949-09-10, 1950-09-09 and 1951-09-08). The
argument is the instant in seconds since 1970-01-01 00:00 UTC. -/
def asiaTokyo : Location :=
  { offsetAt := fun s =>
      if s < -2587712400 then 33539
      else if -683802000 ≤ s ∧ s < -672310800 then 36000
      else if -654771600 ≤ s ∧ s < -640861200 then 36000
      else if -620298000 ≤ s ∧ s < -609411600 then 36000
      else if -588848400 ≤ s ∧ s < -577962000 then 36000
      else 32400 }

namespace PostgreSQL

/-- The six system-account markers: `identity="X"`, `user=X` and `X@` for each system user. -/
def markers : List String :=
  ["identity=\"rdsadmin\"", "user=rdsadmin", "rdsadmin@",
   "identity=\"rdshm\"", "user=rdshm", "rdshm@"]

/-- The text has an occurrence of `connection`, one or more characters of `\s`, then
`received` or `authorized`. -/
def HasConnectionPhrase (message : String) : Prop :=
  ∃ u ws kw v : List Char, message.data = u ++ ("connection".data ++ (ws ++ (kw ++ v)))
    ∧ ws ≠ [] ∧ (∀ a ∈ ws, reSpace a = true)
    ∧ (kw = "received".data ∨ kw = "authorized".data)

/-- The address with its port annotation cut off: the text before the first `(`. -/
def cutPort (addr : String) : String := String.mk (addr.data.takeWhile (reNot '('))

end PostgreSQL

namespace MySQL

/-- The four system-account markers `X@`. -/
def markers : List String := ["rdsadmin@", "mysql.session@", "mysql.sys@", "root@"]

end MySQL

/-! ## Sample lines -/

namespace PostgreSQL

/-- The scenario line of the specification and of `TestParseConnectionLog`. -/
def scenarioLine : String :=
  "2025-08-31 06:31:53 UTC:10.0.128.64(35340):yuta@postgres:[2599]:LOG:  connection authorized: user=yuta database=postgres application_name=psql SSL enabled"

/-- A structured line whose address field is only a port annotation. -/
def portOnlyLine : String :=
  "2025-08-31 06:31:53 UTC:(35340):yuta@postgres:[2599]:LOG:  connection authorized: user=yuta database=postgres"

/-- The non-connection line of `TestParseConnectionLog`. -/
def otherLine : String := "2024-01-01 12:00:00 UTC: some other log message"

/-- A structured line of user `yuta` whose client-supplied application name holds a marker. -/
def markerLine : String :=
  "2025-08-31 06:31:53 UTC:10.0.128.64(35340):yuta@postgres:[2599]:LOG:  connection authorized: user=yuta database=postgres application_name=rdsadmin@host"

/-- The fallback line of `TestParseConnectionLog`. -/
def fallbackLine : String :=
  "2024-01-01 12:00:00 UTC:10.0.1.50(54321):admin@postgres:[54321]:LOG: connection authorized"

/-- A line that passes the gate and has none of the two structures. -/
def bareLine : String := "connection authorized"

/-- A fallback line whose address field is only a port annotation. -/
def fallbackPortOnlyLine : String :=
  "2024-01-01 12:00:00 UTC:(54321):admin@postgres:[54321]:LOG: connection authorized"

/-- A fallback line whose database field is a single space. -/
def blankDbLine : String :=
  "2024-01-01 12:00:00 UTC:10.0.1.50(54321):admin@ :[54321]:LOG: connection authorized"

end PostgreSQL

namespace MySQL

/-- The database-present line of the specification and of `TestParseConnectionLog`. -/
def withDbLine : String :=
  "2025-09-07T06:41:11.701820Z\t  252 Connect\ttest28@10.0.139.222 on appdb using TCP/IP"

/-- The database-absent line of the specification and of `TestParseConnectionLog`. -/
def withoutDbLine : String :=
  "2025-09-07T06:40:32.160890Z\t  249 Connect\ttest28@10.0.139.222 on  using TCP/IP"

/-- A database-present line whose address ends with a vertical tab. -/
def withDbTabLine : String :=
  "2025-09-07T06:41:11.701820Z\t  252 Connect\ttest28@10.0.139.222\x0b on appdb using TCP/IP"

/-- A database-absent line whose address ends with a vertical tab. -/
def withoutDbTabLine : String :=
  "2025-09-07T06:40:32.160890Z\t  249 Connect\ttest28@10.0.139.222\x0b on  using TCP/IP"

/-- The non-connection line of `TestParseConnectionLog`. -/
def queryLine : String := "2024-01-01T12:00:00.123456Z\t    1 Query\tSELECT * FROM users"

/-- The system-account line of `TestParseConnectionLog`. -/
def rdsadminLine : String :=
  "2024-01-01T12:00:00.123456Z\t    1 Connect\trdsadmin@localhost on mysql using TCP/IP"

/-- A connection line of the account `root`, written with a space before the `@`. -/
def rootLine : String :=
  "2024-01-01T12:00:00.123456Z\t    1 Connect\troot @localhost on mysql using TCP/IP"

/-- A connection line whose database field holds a vertical tab. -/
def tabDbLine : String :=
  "2024-01-01T12:00:00.123456Z\t    1 Connect\tbob@10.0.0.1 on a\x0bb using TCP/IP"

/-- A connection line whose user field, before the `@`, is a single space. -/
def blankUserLine : String :=
  "2024-01-01T12:00:00.123456Z\t    1 Connect\t @localhost on mysql using TCP/IP"

/-- The captures of the first pattern of the cascade that matches the line (empty when none
matches). -/
def cascadeMatch (message : String) : List String :=
  if FindStringSubmatch withDbPattern message ≠ [] then FindStringSubmatch withDbPattern message
  else if FindStringSubmatch withoutDbPattern message ≠ [] then
    FindStringSubmatch withoutDbPattern message
  else FindStringSubmatch flexiblePattern message

/-- The database name the cascade reports: the trimmed capture of the database-present
pattern, the sentinel for the database-absent pattern, and for the generic pattern the trimmed
capture, or the sentinel when that is empty. -/
def cascadeDatabase (message : String) : String :=
  if FindStringSubmatch withDbPattern message ≠ [] then
    TrimSpace ((FindStringSubmatch withDbPattern message).getD 4 "")
  else if FindStringSubmatch withoutDbPattern message ≠ [] then "指定なし"
  else if TrimSpace ((FindStringSubmatch flexiblePattern message).getD 4 "") = "" then "指定なし"
  else TrimSpace ((FindStringSubmatch flexiblePattern message).getD 4 "")

/-- The database-present scenario line with the month 13. -/
def badMonthLine : String :=
  "2025-13-07T06:41:11.701820Z\t  252 Connect\ttest28@10.0.139.222 on appdb using TCP/IP"

/-- The database-absent scenario line with five fractional digits. -/
def shortFractionLine : String :=
  "2025-09-07T06:40:32.16089Z\t  249 Connect\ttest28@10.0.139.222 on  using TCP/IP"

end MySQL

namespace PostgreSQL

/-- A structured line with a space between the address and its port annotation. -/
def spacedPortLine : String :=
  "2025-08-31 06:31:53 UTC:10.0.128.64 (35340):yuta@postgres:[2599]:LOG:  connection authorized: user=yuta database=postgres"

/-- The structured scenario line, dated in the Japanese summer time of 1950. -/
def summerLine : String :=
  "1950-07-01 06:31:53 UTC:10.0.128.64(35340):yuta@postgres:[2599]:LOG:  connection authorized: user=yuta database=postgres"

/-- The captures of the pattern that produces the event: the structured pattern when it
matches the line, the fallback pattern otherwise. -/
def cascadeMatch (message : String) : List String :=
  if FindStringSubmatch logPattern message ≠ [] then FindStringSubmatch logPattern message
  else FindStringSubmatch simplePattern message

end PostgreSQL

/-! ## `time`: calendar reading and `Format` -/

/-- The calendar reading of a time in its location (`Time.Date` and `Time.Clock`). -/
structure Civil where
  year : Int
  month : Nat
  day : Nat
  hour : Nat
  min : Nat
  sec : Nat
deriving DecidableEq, Repr

def daysInYear (y : Nat) : Nat := if isLeap y then 366 else 365

/-- From the first day of year `y`, with `d` whole days to go: the year reached and the days
left in it. -/
def yearWalk : Nat → Nat → Nat → Nat × Nat
  | 0, y, d => (y, d)
  | fuel + 1, y, d =>
    if d < daysInYear y then (y, d) else yearWalk fuel (y + 1) (d - daysInYear y)

/-- From the first day of month `m` of year `y`, with `d` whole days to go: the month reached
and the day of the month. -/
def monthWalk (y : Nat) : Nat → Nat → Nat → Nat × Nat
  | 0, m, d => (m, d + 1)
  | fuel + 1, m, d =>
    if d < daysIn m y then (m, d + 1) else monthWalk y fuel (m + 1) (d - daysIn m y)

/-- Year, month, day, hour, minute and second of a time, read in its location. The days are
counted from 0000-01-01 and split into 400-year cycles of 146097 days. -/
def Time.civil (t : Time) : Civil :=
  let abs : Int := t.sec + t.offset + 719528 * 86400
  let days : Int := abs / 86400
  let rem : Nat := (abs % 86400).toNat
  let yd := yearWalk 400 0 (days % 146097).toNat
  let md := monthWalk yd.1 12 1 yd.2
  { year := 400 * (days / 146097) + yd.1
    month := md.1
    day := md.2
    hour := rem / 3600
    min := rem % 3600 / 60
    sec := rem % 60 }

/-- `Time.Unix`: seconds since the Unix epoch. -/
def Time.Unix (t : Time) : Int := t.sec

def digitChar (n : Nat) : Char := Char.ofNat (48 + n)

/-- `appendInt`: a minus sign for a negative number, then its decimal digits padded with zeros
to `width`. -/
def appendInt (x : Int) (width : Nat) : List Char :=
  let u := x.natAbs
  let sign : List Char := if x < 0 then ['-'] else []
  if width = 2 ∧ u < 100 then sign ++ [digitChar (u / 10), digitChar (u % 10)]
  else if width = 4 ∧ u < 10000 then
    sign ++ [digitChar (u / 1000), digitChar (u / 100 % 10), digitChar (u / 10 % 10),
      digitChar (u % 10)]
  else sign ++ List.replicate (width - (Nat.toDigits 10 u).length) '0' ++ Nat.toDigits 10 u

/-- One layout element of `Time.Format`. -/
def formatStd (c : Civil) (nsec : Nat) : Std → List Char
  | .longYear => appendInt c.year 4
  | .zeroMonth => appendInt c.month 2
  | .zeroDay => appendInt c.day 2
  | .hour => appendInt c.hour 2
  | .zeroMinute => appendInt c.min 2
  | .zeroSecond => appendInt c.sec 2
  | .fracSecond0 n => '.' :: (appendInt nsec 9).take n
  | .text p => p

/-- `Time.Format`. -/
def Time.Format (t : Time) (layout : List Std) : String :=
  String.mk (layout.flatMap (formatStd t.civil t.nsec))

/-- The date and time-of-day fields written by the digits of a captured timestamp. -/
def fieldsOf (y1 y2 y3 y4 m1 m2 d1 d2 h1 h2 n1 n2 s1 s2 : Char) : Civil :=
  { year := (((digitVal y1 * 10 + digitVal y2) * 10 + digitVal y3) * 10 + digitVal y4 : Nat)
    month := digitVal m1 * 10 + digitVal m2
    day := digitVal d1 * 10 + digitVal d2
    hour := digitVal h1 * 10 + digitVal h2
    min := digitVal n1 * 10 + digitVal n2
    sec := digitVal s1 * 10 + digitVal s2 }

/-- The layout `"2006-01-02 15:04:05 JST"`: the letters `JST` are literal text. -/
def layoutDateTimeJST : List Std := layoutDateTime ++ [.text " JST".data]

/-! ## Notification: `sendSlackNotification` and `handler` -/

/-- `Field` (Slackメッセージのフィールド). -/
structure Field where
  Title : String
  Value : String
  Short : Bool
deriving DecidableEq, Repr

/-- `Attachment` (Slackメッセージの添付ファイル). -/
structure Attachment where
  Color : String
  Title : String
  Text : String
  Fields : List Field
  Timestamp : Int
deriving DecidableEq, Repr

/-- `SlackMessage` (Slackメッセージの構造体). -/
structure SlackMessage where
  Text : String
  Username : String
  IconEmoji : String
  Attachments : List Attachment
deriving DecidableEq, Repr

/-- What `http.Post` gives back: an error, or a response with its status code. -/
inductive PostResult where
  | failed : PostResult
  | response : Nat → PostResult
deriving DecidableEq, Repr

/-- The errors of `sendSlackNotification`: the webhook URL is not set, the JSON encoding failed,
the POST request failed, the endpoint answered with a status other than 200. -/
inductive SendError where
  | missingWebhook : SendError
  | encode : SendError
  | post : SendError
  | status : Nat → SendError
deriving DecidableEq, Repr

/-- What the programs reach outside themselves, over a state `σ` of the outside world:
`os.Getenv` (the empty string for an unset variable), `time.Now`, `json.Marshal` and
`http.Post(url, "application/json", body)`. -/
structure Runtime (σ : Type) where
  getenv : String → String
  now : σ → Time
  marshal : SlackMessage → Option String
  post : String → String → σ → PostResult × σ

/-- One call of `sendSlackNotification` by `handler`, with the error it returned. -/
structure Attempt where
  connInfo : ConnectionInfo
  err : Option SendError
deriving DecidableEq, Repr

/-- The loop of `handler` over the decoded log events: each message is parsed; a non-nil
result is sent; an error of the send is logged and the loop continues. The result lists the
sends in order, with the final state of the outside world. -/
def forEachLogEvent {σ : Type} (parse : Time → String → Option ConnectionInfo)
    (send : ConnectionInfo → σ → Option SendError × σ) (now : σ → Time) :
    List String → σ → List Attempt × σ
  | [], w => ([], w)
  | message :: rest, w =>
    match parse (now w) message with
    | none => forEachLogEvent parse send now rest w
    | some connectionInfo =>
      let r := send connectionInfo w
      let rs := forEachLogEvent parse send now rest r.2
      ({ connInfo := connectionInfo, err := r.1 } :: rs.1, rs.2)

/-- One send for each event of the list, in list order: every send starts from the outside
world the send before it left, and its result is recorded whether it is nil or an error. -/
def sendEach {σ : Type} (send : ConnectionInfo → σ → Option SendError × σ) :
    List ConnectionInfo → σ → List Attempt × σ
  | [], w => ([], w)
  | connInfo :: rest, w =>
    let r := send connInfo w
    let rs := sendEach send rest r.2
    ({ connInfo := connInfo, err := r.1 } :: rs.1, rs.2)

namespace PostgreSQL

/-- The message `sendSlackNotification` builds. -/
def slackMessage (connInfo : ConnectionInfo) (clusterID : String) : SlackMessage :=
  { Username := "Aurora DB Monitor"
    IconEmoji := ":shark:"
    Text := "🔗 Aurora PostgreSQLへの新しい接続が検出されました"
    Attachments :=
      [{ Color := "good"
         Title := "データベース接続情報"
         Text := ""
         Fields :=
           [{ Title := "ユーザー名", Value := connInfo.UserName, Short := true },
            { Title := "データベース名", Value := connInfo.DatabaseName, Short := true },
            { Title := "クライアントIP", Value := connInfo.ClientIP, Short := true },
            { Title := "クラスターID", Value := clusterID, Short := true },
            { Title := "接続時刻", Value := connInfo.Timestamp.Format layoutDateTimeJST,
              Short := false }]
         Timestamp := connInfo.Timestamp.Unix }] }

/-- `sendSlackNotification` (Slackに通知を送信). -/
def sendSlackNotification {σ : Type} (rt : Runtime σ) (connInfo : ConnectionInfo) (w : σ) :
    Option SendError × σ :=
  let webhookURL := rt.getenv "SLACK_WEBHOOK_URL"
  if webhookURL = "" then (some .missingWebhook, w)
  else
    let clusterID := rt.getenv "AURORA_CLUSTER_ID"
    let clusterID := if clusterID = "" then "不明" else clusterID
    let message := slackMessage connInfo clusterID
    match rt.marshal message with
    | none => (some .encode, w)
    | some jsonData =>
      match rt.post webhookURL jsonData w with
      | (.failed, w1) => (some .post, w1)
      | (.response statusCode, w1) =>
        if statusCode ≠ 200 then (some (.status statusCode), w1) else (none, w1)

/-- `handler`: a batch that does not decode is returned as an error; otherwise every log event
is processed and the result is nil. -/
def handler {σ : Type} (rt : Runtime σ) (jst : Location) (data : Except String (List String))
    (w : σ) : Option String × List Attempt × σ :=
  match data with
  | .error err => (some err, [], w)
  | .ok logEvents =>
    let r := forEachLogEvent (fun now message => parseConnectionLog now jst message)
      (sendSlackNotification rt) rt.now logEvents w
    (none, r.1, r.2)

end PostgreSQL

namespace MySQL

/-- The message `sendSlackNotification` builds. -/
def slackMessage (connInfo : ConnectionInfo) (clusterID : String) : SlackMessage :=
  { Username := "Aurora MySQL Monitor"
    IconEmoji := ":dolphin:"
    Text := "🔗 Aurora MySQLへの新しい接続が検出されました"
    Attachments :=
      [{ Color := "#FF6B35"
         Title := "データベース接続情報"
         Text := ""
         Fields :=
           [{ Title := "ユーザー名", Value := connInfo.UserName, Short := true },
            { Title := "データベース名", Value := connInfo.DatabaseName, Short := true },
            { Title := "クライアントIP", Value := connInfo.ClientIP, Short := true },
            { Title := "クラスターID", Value := clusterID, Short := true },
            { Title := "接続時刻", Value := connInfo.Timestamp.Format layoutDateTimeJST,
              Short := false }]
         Timestamp := connInfo.Timestamp.Unix }] }

/-- `sendSlackNotification` (Slackに通知を送信). -/
def sendSlackNotification {σ : Type} (rt : Runtime σ) (connInfo : ConnectionInfo) (w : σ) :
    Option SendError × σ :=
  let webhookURL := rt.getenv "SLACK_WEBHOOK_URL"
  if webhookURL = "" then (some .missingWebhook, w)
  else
    let clusterID := rt.getenv "AURORA_CLUSTER_ID"
    let clusterID := if clusterID = "" then "不明" else clusterID
    let message := slackMessage connInfo clusterID
    match rt.marshal message with
    | none => (some .encode, w)
    | some jsonData =>
      match rt.post webhookURL jsonData w with
      | (.failed, w1) => (some .post, w1)
      | (.response statusCode, w1) =>
        if statusCode ≠ 200 then (some (.status statusCode), w1) else (none, w1)

/-- `handler`: a batch that does not decode is returned as an error; otherwise every log event
is processed and the result is nil. -/
def handler {σ : Type} (rt : Runtime σ) (data : Except String (List String)) (w : σ) :
    Option String × List Attempt × σ :=
  match data with
  | .error err => (some err, [], w)
  | .ok logEvents =>
    let r := forEachLogEvent (fun now message => parseConnectionLog now message)
      (sendSlackNotification rt) rt.now logEvents w
    (none, r.1, r.2)

end MySQL

/-- An outside world without webhook URL: the environment is empty, the clock stands at the
epoch, and a POST, if one were made, would be answered with status 200. -/
def bareRuntime : Runtime Nat :=
  { getenv := fun _ => ""
    now := fun _ => epoch
    marshal := fun _ => some ""
    post := fun _ _ w => (.response 200, w + 1) }

/-- An event of user test28 on appdb from 10.0.139.222 at 2025-09-07 06:41:11 UTC. -/
def sampleEvent : ConnectionInfo :=
  { Timestamp := { sec := 1757227271, nsec := 701820000, offset := 0 }
    UserName := "test28"
    DatabaseName := "appdb"
    ClientIP := "10.0.139.222"
    LogMessage := "" }

/-- An outside world with a webhook URL and a cluster identifier, in which the POST requests
are answered in turn with 200, a failure, and 200 from then on. The state counts the
requests. -/
def sampleRuntime : Runtime Nat :=
  { getenv := fun name =>
      if name = "SLACK_WEBHOOK_URL" then "https://hooks.example/T"
      else if name = "AURORA_CLUSTER_ID" then "cluster-1" else ""
    now := fun _ => epoch
    marshal := fun _ => some ""
    post := fun _ _ w => (if w = 1 then .failed else .response 200, w + 1) }

/-! ## The matcher against the declarative reading -/

set_option maxRecDepth 100000

theorem derives_lang {r : Regex} {pos : Nat} {w : List Char} {c c1 : Caps}
    (h : Derives r pos w c c1) : Lang r pos w := by
  induction r generalizing pos w c c1 with
  | empty => exact h.1
  | bol => exact ⟨h.1, h.2.1⟩
  | cls p => obtain ⟨a, h1, h2, _⟩ := h; exact ⟨a, h1, h2⟩
  | star p => exact h.1
  | cat a b iha ihb =>
    obtain ⟨w1, w2, c2, h1, h2, h3⟩ := h
    exact ⟨w1, w2, h1, iha h2, ihb h3⟩
  | alt a b iha ihb =>
    rcases h with h | h
    · exact Or.inl (iha h)
    · exact Or.inr (ihb h)
  | cap i r ih =>
    obtain ⟨c2, h1, _⟩ := h
    exact ih h1

theorem lang_derives {r : Regex} {pos : Nat} {w : List Char}
    (h : Lang r pos w) (c : Caps) : ∃ c1, Derives r pos w c c1 := by
  induction r generalizing pos w c with
  | empty => exact ⟨c, h, rfl⟩
  | bol => exact ⟨c, h.1, h.2, rfl⟩
  | cls p => obtain ⟨a, h1, h2⟩ := h; exact ⟨c, a, h1, h2, rfl⟩
  | star p => exact ⟨c, h, rfl⟩
  | cat a b iha ihb =>
    obtain ⟨w1, w2, h1, h2, h3⟩ := h
    obtain ⟨c2, h4⟩ := iha h2 c
    obtain ⟨c3, h5⟩ := ihb h3 c2
    exact ⟨c3, w1, w2, c2, h1, h4, h5⟩
  | alt a b iha ihb =>
    rcases h with h | h
    · obtain ⟨c2, h4⟩ := iha h c
      exact ⟨c2, Or.inl h4⟩
    · obtain ⟨c2, h4⟩ := ihb h c
      exact ⟨c2, Or.inr h4⟩
  | cap i r ih =>
    obtain ⟨c2, h4⟩ := ih h c
    exact ⟨_, c2, h4, rfl⟩

theorem starK_sound {α : Type} {p : Char → Bool} {k : Nat → List Char → Option α}
    {pos : Nat} {s : List Char} {res : α} (h : starK p pos s k = some res) :
    ∃ w s1, s = w ++ s1 ∧ (∀ a ∈ w, p a = true) ∧ k (pos + w.length) s1 = some res := by
  induction s generalizing pos with
  | nil => exact ⟨[], [], rfl, by simp, by simpa [starK] using h⟩
  | cons a t ih =>
    simp only [starK] at h
    split at h
    · rename_i hp
      split at h
      · rename_i r hr
        cases h
        obtain ⟨w, s1, h1, h2, h3⟩ := ih hr
        refine ⟨a :: w, s1, by simp [h1], ?_, ?_⟩
        · intro x hx
          rcases List.mem_cons.mp hx with rfl | hx
          · exact hp
          · exact h2 x hx
        · simpa [Nat.add_assoc, Nat.add_comm 1] using h3
      · exact ⟨[], a :: t, rfl, by simp, by simpa using h⟩
    · exact ⟨[], a :: t, rfl, by simp, by simpa using h⟩

theorem starK_complete {α : Type} {p : Char → Bool} {k : Nat → List Char → Option α}
    {pos : Nat} {w s1 : List Char} (hw : ∀ a ∈ w, p a = true)
    (hk : (k (pos + w.length) s1).isSome = true) : (starK p pos (w ++ s1) k).isSome = true := by
  induction w generalizing pos with
  | nil =>
    cases s1 with
    | nil => simpa [starK] using hk
    | cons a t =>
      simp only [List.nil_append, starK]
      split
      · split
        · rfl
        · simpa using hk
      · simpa using hk
  | cons a t ih =>
    have hp : p a = true := hw a (List.mem_cons_self _ _)
    have ht : ∀ x ∈ t, p x = true := fun x hx => hw x (List.mem_cons_of_mem _ hx)
    have h1 : (starK p (pos + 1) (t ++ s1) k).isSome = true := by
      apply ih ht
      simpa [Nat.add_assoc, Nat.add_comm 1] using hk
    have h2 : starK p pos (a :: (t ++ s1)) k =
        match starK p (pos + 1) (t ++ s1) k with
        | some r => some r
        | none => k pos (a :: (t ++ s1)) := by
      simp [starK, hp]
    rw [List.cons_append, h2]
    cases hn : starK p (pos + 1) (t ++ s1) k with
    | none => rw [hn] at h1; simp at h1
    | some r => rfl

theorem matchK_sound {r : Regex} {pos : Nat} {s : List Char} {c res : Caps}
    {k : Nat → List Char → Caps → Option Caps} (h : matchK r pos s c k = some res) :
    ∃ w s1 c1, s = w ++ s1 ∧ Derives r pos w c c1 ∧ k (pos + w.length) s1 c1 = some res := by
  induction r generalizing pos s c k with
  | empty => exact ⟨[], s, c, rfl, ⟨rfl, rfl⟩, by simpa [matchK] using h⟩
  | bol =>
    simp only [matchK] at h
    split at h
    · rename_i hp
      exact ⟨[], s, c, rfl, ⟨hp, rfl, rfl⟩, by simpa using h⟩
    · cases h
  | cls p =>
    cases s with
    | nil => simp [matchK] at h
    | cons a t =>
      simp only [matchK] at h
      split at h
      · rename_i hp
        exact ⟨[a], t, c, rfl, ⟨a, rfl, hp, rfl⟩, by simpa using h⟩
      · cases h
  | star p =>
    simp only [matchK] at h
    obtain ⟨w, s1, h1, h2, h3⟩ := starK_sound h
    exact ⟨w, s1, c, h1, ⟨h2, rfl⟩, h3⟩
  | cat a b iha ihb =>
    simp only [matchK] at h
    obtain ⟨w1, s1, c1, h1, h2, h3⟩ := iha h
    obtain ⟨w2, s2, c2, h4, h5, h6⟩ := ihb h3
    refine ⟨w1 ++ w2, s2, c2, by simp [h1, h4], ⟨w1, w2, c1, rfl, h2, h5⟩, ?_⟩
    simpa [Nat.add_assoc] using h6
  | alt a b iha ihb =>
    simp only [matchK] at h
    split at h
    · rename_i r hr
      cases h
      obtain ⟨w, s1, c1, h1, h2, h3⟩ := iha hr
      exact ⟨w, s1, c1, h1, Or.inl h2, h3⟩
    · obtain ⟨w, s1, c1, h1, h2, h3⟩ := ihb h
      exact ⟨w, s1, c1, h1, Or.inr h2, h3⟩
  | cap i r ih =>
    simp only [matchK] at h
    obtain ⟨w, s1, c1, h1, h2, h3⟩ := ih h
    refine ⟨w, s1, Function.update c1 i w, h1, ⟨c1, h2, rfl⟩, ?_⟩
    simpa [h1] using h3

theorem matchK_complete {r : Regex} {pos : Nat} {w s1 : List Char} {c c1 : Caps}
    {k : Nat → List Char → Caps → Option Caps} (hd : Derives r pos w c c1)
    (hk : (k (pos + w.length) s1 c1).isSome = true) :
    (matchK r pos (w ++ s1) c k).isSome = true := by
  induction r generalizing pos w s1 c c1 k with
  | empty =>
    obtain ⟨rfl, rfl⟩ := hd
    simpa [matchK] using hk
  | bol =>
    obtain ⟨rfl, rfl, rfl⟩ := hd
    simpa [matchK] using hk
  | cls p =>
    obtain ⟨a, rfl, hp, rfl⟩ := hd
    simpa [matchK, hp] using hk
  | star p =>
    obtain ⟨hw, rfl⟩ := hd
    simp only [matchK]
    exact starK_complete hw hk
  | cat a b iha ihb =>
    obtain ⟨w1, w2, c2, rfl, h2, h3⟩ := hd
    simp only [matchK, List.append_assoc]
    apply iha h2
    apply ihb h3
    simpa [Nat.add_assoc] using hk
  | alt a b iha ihb =>
    simp only [matchK]
    cases hn : matchK a pos (w ++ s1) c k with
    | some r => rfl
    | none =>
      rcases hd with hd | hd
      · have := iha hd hk
        rw [hn] at this
        simp at this
      · exact ihb hd hk
  | cap i r ih =>
    obtain ⟨c2, h2, rfl⟩ := hd
    simp only [matchK]
    apply ih h2
    simpa using hk

theorem matchAt_sound {r : Regex} {pos : Nat} {s : List Char} {c : Caps}
    (h : matchAt r pos s = some c) :
    ∃ w s1 c1, s = w ++ s1 ∧ Derives r pos w (fun _ => []) c1 ∧ c = Function.update c1 0 w := by
  obtain ⟨w, s1, c1, h1, ⟨c2, h2, h3⟩, h4⟩ := matchK_sound h
  refine ⟨w, s1, c2, h1, h2, ?_⟩
  simp only [Option.some.injEq] at h4
  rw [← h4, h3]

theorem matchAt_complete {r : Regex} {pos : Nat} {w s1 : List Char} (h : Lang r pos w) :
    (matchAt r pos (w ++ s1)).isSome = true := by
  obtain ⟨c1, h1⟩ := lang_derives h (fun _ => [])
  exact matchK_complete (r := .cap 0 r) ⟨c1, h1, rfl⟩ rfl

theorem search_sound {r : Regex} {pos : Nat} {s : List Char} {c : Caps}
    (h : search r pos s = some c) :
    ∃ u w s1 c1, s = u ++ (w ++ s1) ∧ Derives r (pos + u.length) w (fun _ => []) c1
      ∧ c = Function.update c1 0 w := by
  induction s generalizing pos with
  | nil =>
    obtain ⟨w, s1, c1, h1, h2, h3⟩ := matchAt_sound (by simpa [search] using h)
    exact ⟨[], w, s1, c1, by simpa using h1, by simpa using h2, h3⟩
  | cons a t ih =>
    simp only [search] at h
    split at h
    · rename_i c2 hc
      cases h
      obtain ⟨w, s1, c1, h1, h2, h3⟩ := matchAt_sound hc
      exact ⟨[], w, s1, c1, by simpa using h1, by simpa using h2, h3⟩
    · obtain ⟨u, w, s1, c1, h1, h2, h3⟩ := ih h
      refine ⟨a :: u, w, s1, c1, by simp [h1], ?_, h3⟩
      simpa [Nat.add_assoc, Nat.add_comm 1] using h2

theorem search_complete {r : Regex} {pos : Nat} {u w s1 : List Char}
    (h : Lang r (pos + u.length) w) : (search r pos (u ++ (w ++ s1))).isSome = true := by
  induction u generalizing pos with
  | nil =>
    have h1 : (matchAt r pos (w ++ s1)).isSome = true := matchAt_complete (by simpa using h)
    cases hs : w ++ s1 with
    | nil => rw [hs] at h1; simpa [search] using h1
    | cons a t =>
      rw [hs] at h1
      simp only [List.nil_append, search]
      cases hm : matchAt r pos (a :: t) with
      | some c => rfl
      | none => rw [hm] at h1; simp at h1
  | cons a t ih =>
    simp only [List.cons_append, search]
    cases hm : matchAt r pos (a :: (t ++ (w ++ s1))) with
    | some c => rfl
    | none =>
      apply ih
      simpa [Nat.add_assoc, Nat.add_comm 1] using h

/-- A match succeeds somewhere in the text exactly when some factor of the text is in the
language of the pattern. -/
theorem search_isSome_iff {r : Regex} {s : List Char} :
    (search r 0 s).isSome = true ↔ ∃ u w s1, s = u ++ (w ++ s1) ∧ Lang r u.length w := by
  constructor
  · intro h
    obtain ⟨c, hc⟩ := Option.isSome_iff_exists.mp h
    obtain ⟨u, w, s1, c1, h1, h2, _⟩ := search_sound hc
    exact ⟨u, w, s1, h1, by simpa using derives_lang h2⟩
  · rintro ⟨u, w, s1, rfl, h⟩
    exact search_complete (by simpa using h)

theorem derives_frame {r : Regex} {pos : Nat} {w : List Char} {c c1 : Caps} {i : Nat}
    (h : Derives r pos w c c1) (hi : i ∉ r.groups) : c1 i = c i := by
  induction r generalizing pos w c c1 with
  | empty => rw [h.2]
  | bol => rw [h.2.2]
  | cls p => obtain ⟨a, _, _, h3⟩ := h; rw [h3]
  | star p => rw [h.2]
  | cat a b iha ihb =>
    obtain ⟨w1, w2, c2, _, h2, h3⟩ := h
    simp only [Regex.groups, List.mem_append, not_or] at hi
    rw [ihb h3 hi.2, iha h2 hi.1]
  | alt a b iha ihb =>
    simp only [Regex.groups, List.mem_append, not_or] at hi
    rcases h with h | h
    · exact iha h hi.1
    · exact ihb h hi.2
  | cap j r ih =>
    obtain ⟨c2, h2, h3⟩ := h
    simp only [Regex.groups, List.mem_cons, not_or] at hi
    rw [h3, Function.update_noteq hi.1, ih h2 hi.2]

theorem derives_sub {r q : Regex} {pos : Nat} {w : List Char} {c c1 : Caps} {i : Nat}
    (h : Derives r pos w c c1) (hq : r.sub i = some q) : ∃ n, Lang q n (c1 i) := by
  induction r generalizing pos w c c1 with
  | empty => simp [Regex.sub] at hq
  | bol => simp [Regex.sub] at hq
  | cls p => simp [Regex.sub] at hq
  | star p => simp [Regex.sub] at hq
  | alt a b _ _ => simp [Regex.sub] at hq
  | cat a b iha ihb =>
    obtain ⟨w1, w2, c2, _, h2, h3⟩ := h
    simp only [Regex.sub] at hq
    split at hq
    · exact ihb h3 hq
    · rename_i hi
      rw [derives_frame h3 hi]
      exact iha h2 hq
  | cap j r ih =>
    obtain ⟨c2, h2, h3⟩ := h
    simp only [Regex.sub] at hq
    split at hq
    · rename_i hj
      cases hq
      subst hj
      rw [h3, Function.update_same]
      exact ⟨pos, derives_lang h2⟩
    · rename_i hj
      rw [h3, Function.update_noteq (Ne.symm hj)]
      exact ih h2 hq

/-! ## Languages of the pattern combinators; `strings` lemmas -/

theorem starK_greedy {α : Type} {p : Char → Bool} {k : Nat → List Char → Option α}
    {pos : Nat} {s : List Char}
    (h : (k (pos + (s.takeWhile p).length) (s.dropWhile p)).isSome = true) :
    starK p pos s k = k (pos + (s.takeWhile p).length) (s.dropWhile p) := by
  induction s generalizing pos with
  | nil => rfl
  | cons a t ih =>
    by_cases hp : p a = true
    · have h1 : (k (pos + 1 + (t.takeWhile p).length) (t.dropWhile p)).isSome = true := by
        simpa [List.takeWhile, List.dropWhile, hp, Nat.add_assoc, Nat.add_comm 1] using h
      have h2 := ih h1
      obtain ⟨r, hr⟩ := Option.isSome_iff_exists.mp h1
      simp [starK, hp, List.takeWhile, List.dropWhile, h2, hr, Nat.add_assoc, Nat.add_comm 1]
        at hr ⊢
      rw [hr]
    · simp [starK, hp, List.takeWhile, List.dropWhile]

theorem lang_lit {l w : List Char} {n : Nat} : Lang (.lit l) n w ↔ w = l := by
  induction l generalizing w n with
  | nil => simp [Regex.lit, Lang]
  | cons a t ih =>
    simp only [Regex.lit, Lang, ih]
    constructor
    · rintro ⟨w1, w2, rfl, ⟨x, rfl, hx⟩, rfl⟩
      simpa using hx
    · rintro rfl
      exact ⟨[a], t, rfl, ⟨a, rfl, by simp⟩, rfl⟩

theorem lang_plus {p : Char → Bool} {w : List Char} {n : Nat} :
    Lang (.plus p) n w ↔ w ≠ [] ∧ ∀ a ∈ w, p a = true := by
  simp only [Regex.plus, Lang]
  constructor
  · rintro ⟨w1, w2, rfl, ⟨x, rfl, hx⟩, h2⟩
    refine ⟨by simp, ?_⟩
    intro a ha
    rcases List.mem_cons.mp (by simpa using ha) with rfl | ha
    · exact hx
    · exact h2 a ha
  · rintro ⟨h1, h2⟩
    cases w with
    | nil => exact absurd rfl h1
    | cons a t =>
      exact ⟨[a], t, rfl, ⟨a, rfl, h2 a (List.mem_cons_self _ _)⟩,
        fun x hx => h2 x (List.mem_cons_of_mem _ hx)⟩

theorem lang_seq_append {xs ys : List Regex} {w : List Char} {n : Nat} :
    Lang (.seq (xs ++ ys)) n w ↔
      ∃ w1 w2, w = w1 ++ w2 ∧ Lang (.seq xs) n w1 ∧ Lang (.seq ys) (n + w1.length) w2 := by
  induction xs generalizing w n with
  | nil =>
    simp only [List.nil_append, Regex.seq, Lang]
    constructor
    · intro h
      exact ⟨[], w, rfl, rfl, by simpa using h⟩
    · rintro ⟨w1, w2, rfl, rfl, h⟩
      simpa using h
  | cons r rs ih =>
    show Lang (.cat r (.seq (rs ++ ys))) n w ↔ _
    simp only [Regex.seq, Lang]
    constructor
    · rintro ⟨w1, w2, rfl, h1, h⟩
      obtain ⟨w3, w4, rfl, h2, h3⟩ := ih.mp h
      refine ⟨w1 ++ w3, w4, by simp, ⟨w1, w3, rfl, h1, h2⟩, ?_⟩
      simpa [Nat.add_assoc] using h3
    · rintro ⟨w1, w2, rfl, ⟨w3, w4, rfl, h1, h2⟩, h3⟩
      refine ⟨w3, w4 ++ w2, by simp, h1, ih.mpr ⟨w4, w2, rfl, h2, ?_⟩⟩
      simpa [Nat.add_assoc] using h3

/-- Every factor of a concatenation matches a factor of the text. -/
theorem lang_seq_factor {xs ys zs : List Regex} {w : List Char} {n : Nat}
    (h : Lang (.seq (xs ++ (ys ++ zs))) n w) :
    ∃ m x g y, w = x ++ (g ++ y) ∧ Lang (.seq ys) m g := by
  obtain ⟨w1, w2, rfl, _, h2⟩ := lang_seq_append.mp h
  obtain ⟨w3, w4, rfl, h3, _⟩ := lang_seq_append.mp h2
  exact ⟨_, w1, w3, w4, rfl, h3⟩

theorem containsList_iff {s sub : List Char} : containsList s sub = true ↔ sub <:+: s := by
  induction s with
  | nil =>
    simp only [containsList, List.isEmpty_iff]
    constructor
    · rintro rfl
      exact List.nil_infix
    · intro h
      exact List.eq_nil_of_infix_nil h
  | cons a t ih =>
    simp only [containsList, Bool.or_eq_true, ih, List.isPrefixOf_iff_prefix]
    rw [List.infix_cons_iff]

theorem trimSpaceList_eq_self {u : List Char} (h : ∀ a ∈ u, isSpace a = false) :
    trimSpaceList u = u := by
  have h1 : ∀ v : List Char, (∀ a ∈ v, isSpace a = false) → v.dropWhile isSpace = v := by
    intro v hv
    cases v with
    | nil => rfl
    | cons a t => simp [List.dropWhile, hv a (List.mem_cons_self _ _)]
  unfold trimSpaceList
  rw [h1 u h, h1 u.reverse (fun a ha => h a (List.mem_reverse.mp ha)), List.reverse_reverse]

theorem trimSpaceList_subset {u : List Char} {a : Char} (h : a ∈ trimSpaceList u) : a ∈ u := by
  unfold trimSpaceList at h
  have h1 := (List.dropWhile_sublist isSpace (l := (u.dropWhile isSpace).reverse)).subset
    (List.mem_reverse.mp h)
  exact (List.dropWhile_sublist isSpace).subset (List.mem_reverse.mp h1)

theorem isSpace_of_reWord {a : Char} (h : reWord a = true) : isSpace a = false := by
  simp only [reWord, reDigit, Bool.or_eq_true, Bool.and_eq_true, decide_eq_true_eq] at h
  simp only [isSpace, Bool.or_eq_false_iff, Bool.and_eq_false_iff, decide_eq_false_iff_not]
  omega

theorem trimSpaceList_eq_rdropWhile (u : List Char) :
    trimSpaceList u = (u.dropWhile isSpace).rdropWhile isSpace := rfl

/-- Trimming twice is trimming once: a trimmed text has no white space at either end. -/
theorem trimSpaceList_idem (u : List Char) :
    trimSpaceList (trimSpaceList u) = trimSpaceList u := by
  have h1 : (trimSpaceList u).dropWhile isSpace = trimSpaceList u := by
    obtain ⟨t, ht⟩ : trimSpaceList u <+: u.dropWhile isSpace := by
      rw [trimSpaceList_eq_rdropWhile]
      exact List.rdropWhile_prefix _ _
    cases hw : trimSpaceList u with
    | nil => rfl
    | cons a w =>
      rw [hw] at ht
      have h2 := List.head?_dropWhile_not isSpace u
      rw [← ht] at h2
      simp only [List.cons_append, List.head?_cons] at h2
      simp [List.dropWhile, h2]
  rw [trimSpaceList_eq_rdropWhile (trimSpaceList u), h1, trimSpaceList_eq_rdropWhile u,
    List.rdropWhile_idempotent]

/-! ## Results of `FindStringSubmatch`; the address clean-up -/

theorem findSub_eq_nil {r : Regex} {s : String} (h : search r 0 s.data = none) :
    FindStringSubmatch r s = [] := by
  simp [FindStringSubmatch, h]

theorem findSub_length {r : Regex} {s : String} {c : Caps} (h : search r 0 s.data = some c) :
    (FindStringSubmatch r s).length = r.numSubexp + 1 := by
  simp [FindStringSubmatch, h]

theorem findSub_getD {r : Regex} {s : String} {c : Caps} {i : Nat}
    (h : search r 0 s.data = some c) (hi : i ≤ r.numSubexp) :
    (FindStringSubmatch r s).getD i "" = String.mk (c i) := by
  have hi1 : i < r.numSubexp + 1 := Nat.lt_succ_of_le hi
  simp [FindStringSubmatch, h, List.getD_eq_getElem?_getD, List.getElem?_map,
    List.getElem?_range hi1]

/-- A non-empty result of `FindStringSubmatch` comes from a successful search. -/
theorem findSub_pos {r : Regex} {s : String} (h : 0 < (FindStringSubmatch r s).length) :
    ∃ c, search r 0 s.data = some c := by
  cases hs : search r 0 s.data with
  | none => rw [findSub_eq_nil hs] at h; simp at h
  | some c => exact ⟨c, rfl⟩

theorem search_lang {r : Regex} {s : List Char} {c : Caps} (h : search r 0 s = some c) :
    ∃ u w s1, s = u ++ (w ++ s1) ∧ Lang r u.length w :=
  search_isSome_iff.mp (by simp [h])

theorem search_group {r q : Regex} {s : List Char} {c : Caps} {i : Nat}
    (h : search r 0 s = some c) (hq : r.sub i = some q) (hi : i ≠ 0) :
    ∃ n, Lang q n (c i) := by
  obtain ⟨u, w, s1, c1, _, h2, h3⟩ := search_sound h
  rw [h3, Function.update_noteq hi]
  exact derives_sub h2 hq

theorem take_length_takeWhile (p : Char → Bool) (l : List Char) :
    l.take (l.takeWhile p).length = l.takeWhile p := by
  induction l with
  | nil => rfl
  | cons a t ih =>
    by_cases hp : p a = true
    · simp [List.takeWhile, hp, ih]
    · simp [List.takeWhile, hp]

theorem starK_total {α : Type} {p : Char → Bool} {k : Nat → List Char → Option α}
    {pos : Nat} {s : List Char} (hk : ∀ n s1, (k n s1).isSome = true) :
    starK p pos s k = k (pos + (s.takeWhile p).length) (s.dropWhile p) :=
  starK_greedy (hk _ _)

namespace PostgreSQL

theorem matchAt_ipPattern_succ (pos : Nat) (s : List Char) :
    matchAt ipPattern (pos + 1) s = none := by
  simp [matchAt, matchK, ipPattern, Regex.seq]

theorem search_ipPattern_succ (pos : Nat) (s : List Char) :
    search ipPattern (pos + 1) s = none := by
  induction s generalizing pos with
  | nil => simp [search, matchAt_ipPattern_succ]
  | cons a t ih => simp [search, matchAt_ipPattern_succ, ih]

theorem mk_cons_ne_empty (a : Char) (l : List Char) : (String.mk (a :: l)) ≠ "" := by
  intro h
  have h1 := congrArg String.data h
  simp at h1

/-- What the address clean-up of `parseConnectionLog` computes: the text before the first `(`,
or the sentinel when that text is empty. -/
theorem ip_eq (addr : String) :
    (if (FindStringSubmatch ipPattern addr).length > 1
      then (FindStringSubmatch ipPattern addr).getD 1 "" else "不明")
      = if cutPort addr = "" then "不明" else cutPort addr := by
  obtain ⟨l⟩ := addr
  cases l with
  | nil =>
    have h : search ipPattern 0 [] = none := by
      simp [search, matchAt, matchK, ipPattern, Regex.seq, Regex.plus]
    simp [findSub_eq_nil (s := ⟨[]⟩) h, cutPort]
  | cons a t =>
    by_cases hp : reNot '(' a = true
    · have h : search ipPattern 0 (a :: t) = some (Function.update (Function.update
          (fun _ => []) 1 ((a :: t).takeWhile (reNot '('))) 0 ((a :: t).takeWhile (reNot '('))) := by
        simp only [search, matchAt, matchK, ipPattern, Regex.seq, Regex.plus, hp, if_true]
        rw [starK_total]
        · simp [List.takeWhile, hp, Nat.add_comm 1, take_length_takeWhile]
        · intro n s1
          rfl
      have h1 : (1 : Nat) ≤ ipPattern.numSubexp := by decide
      rw [findSub_length (s := ⟨a :: t⟩) h, findSub_getD (s := ⟨a :: t⟩) h h1]
      have h2 : ipPattern.numSubexp + 1 > 1 := by decide
      simp [h2, cutPort, List.takeWhile, hp, mk_cons_ne_empty]
    · have h0 : matchAt ipPattern 0 (a :: t) = none := by
        simp [matchAt, matchK, ipPattern, Regex.seq, Regex.plus, hp]
      have h : search ipPattern 0 (a :: t) = none := by
        simp [search, h0, search_ipPattern_succ]
      simp [findSub_eq_nil (s := ⟨a :: t⟩) h, cutPort, List.takeWhile, hp]

end PostgreSQL

/-! ## System-account markers and the connection phrase -/

theorem contains_iff {s sub : String} : Contains s sub = true ↔ Occurs sub s :=
  containsList_iff

namespace PostgreSQL

theorem pg_sys_iff (message : String) :
    systemUsers.any (fun sysUser =>
      Contains message ("identity=\"" ++ sysUser ++ "\"")
        || Contains message ("user=" ++ sysUser)
        || Contains message (sysUser ++ "@")) = true
      ↔ ∃ mk ∈ markers, Occurs mk message := by
  have e1 : ("identity=\"" ++ "rdsadmin" ++ "\"" : String) = "identity=\"rdsadmin\"" := by decide
  have e2 : ("user=" ++ "rdsadmin" : String) = "user=rdsadmin" := by decide
  have e3 : ("rdsadmin" ++ "@" : String) = "rdsadmin@" := by decide
  have e4 : ("identity=\"" ++ "rdshm" ++ "\"" : String) = "identity=\"rdshm\"" := by decide
  have e5 : ("user=" ++ "rdshm" : String) = "user=rdshm" := by decide
  have e6 : ("rdshm" ++ "@" : String) = "rdshm@" := by decide
  simp only [systemUsers, markers, List.any_cons, List.any_nil, Bool.or_false, Bool.or_eq_true,
    contains_iff, e1, e2, e3, e4, e5, e6, List.mem_cons, List.mem_singleton, exists_eq_or_imp,
    List.not_mem_nil, false_and, exists_false, or_false, exists_eq_left, or_assoc]

theorem gate_of_lang {n : Nat} {g : List Char}
    (h : Lang (.seq [.lit "connection".data, .plus reSpace,
      .cap 6 (.alt (.lit "authorized".data) (.lit "received".data))]) n g) (m : Nat) :
    Lang connectionPattern m g := by
  simp only [connectionPattern, Regex.seq, Lang, lang_lit, lang_plus] at h ⊢
  obtain ⟨w1, w2, e1, h1, w3, w4, e2, h2, w5, w6, e3, h3, h4⟩ := h
  exact ⟨w1, w2, e1, h1, w3, w4, e2, h2, w5, w6, e3, h3.symm, h4⟩

/-- A line matched by the structured pattern passes the gate. -/
theorem gate_of_logPattern {message : String} {c : Caps}
    (h : search logPattern 0 message.data = some c) :
    MatchString connectionPattern message = true := by
  obtain ⟨u, w, s1, h1, h2⟩ := search_lang h
  have h3 : logPattern = .seq (([reTimestamp] ++ rePrefix ++
      [.lit ['['], .cap 5 (.plus reDigit), .lit "]:LOG:".data, .plus reSpace]) ++
      ([.lit "connection".data, .plus reSpace,
        .cap 6 (.alt (.lit "authorized".data) (.lit "received".data))] ++
      [.lit [':'], .plus reSpace, .lit "user=".data, .cap 7 (.plus reWord), .plus reSpace,
        .lit "database=".data, .cap 8 (.plus reWord)])) := rfl
  rw [h3] at h2
  obtain ⟨m, x, g, y, h4, h5⟩ := lang_seq_factor h2
  refine search_isSome_iff.mpr ⟨u ++ x, g, y ++ s1, ?_, gate_of_lang h5 _⟩
  rw [h1, h4]
  simp

end PostgreSQL

/-! ## PostgreSQL: the structured pattern -/

theorem trimSpace_of_word {q : String} {n : Nat} (h : Lang (.plus reWord) n q.data) :
    TrimSpace q = q := by
  obtain ⟨_, h2⟩ := lang_plus.mp h
  unfold TrimSpace
  rw [trimSpaceList_eq_self (fun a ha => isSpace_of_reWord (h2 a ha))]

theorem not_occurs_of_decide {sub s : String} (h : containsList s.data sub.data = false) :
    ¬ Occurs sub s := by
  intro h1
  rw [containsList_iff.mpr h1] at h
  cases h

namespace PostgreSQL

theorem pg_sys_false {message : String} (h : ∀ mk ∈ markers, ¬ Occurs mk message) :
    systemUsers.any (fun sysUser =>
      Contains message ("identity=\"" ++ sysUser ++ "\"")
        || Contains message ("user=" ++ sysUser)
        || Contains message (sysUser ++ "@")) = false := by
  rw [Bool.eq_false_iff]
  intro h1
  obtain ⟨mk, h2, h3⟩ := (pg_sys_iff message).mp h1
  exact h mk h2 h3

/-- C1 (amended): a line without system-account marker that the structured pattern matches
yields an event whose UserName and DatabaseName are the texts captured after `user=` and
`database=`, whose ClientIP is the captured address cut before its first `(`, or the sentinel
`不明` when nothing precedes that `(`, and whose LogMessage is the line. -/
theorem primary_fields (now : Time) (jst : Location) (message : String)
    (hsys : ∀ mk ∈ markers, ¬ Occurs mk message)
    (hm : FindStringSubmatch logPattern message ≠ []) :
    ∃ ci, parseConnectionLog now jst message = some ci
      ∧ ci.UserName = (FindStringSubmatch logPattern message).getD 7 ""
      ∧ ci.DatabaseName = (FindStringSubmatch logPattern message).getD 8 ""
      ∧ ci.ClientIP =
          (if cutPort ((FindStringSubmatch logPattern message).getD 2 "") = "" then "不明"
           else cutPort ((FindStringSubmatch logPattern message).getD 2 ""))
      ∧ ci.LogMessage = message := by
  obtain ⟨c, hc⟩ := findSub_pos (List.length_pos.mpr hm)
  have hgate : MatchString connectionPattern message = true := gate_of_logPattern hc
  have hlen : (FindStringSubmatch logPattern message).length = 9 := findSub_length hc
  have h7 : TrimSpace ((FindStringSubmatch logPattern message).getD 7 "")
      = (FindStringSubmatch logPattern message).getD 7 "" := by
    rw [findSub_getD hc (by decide)]
    obtain ⟨n, hn⟩ := search_group (i := 7) hc rfl (by decide)
    exact trimSpace_of_word hn
  have h8 : TrimSpace ((FindStringSubmatch logPattern message).getD 8 "")
      = (FindStringSubmatch logPattern message).getD 8 "" := by
    rw [findSub_getD hc (by decide)]
    obtain ⟨n, hn⟩ := search_group (i := 8) hc rfl (by decide)
    exact trimSpace_of_word hn
  have hp : parseConnectionLog now jst message = some
      { Timestamp :=
          match Parse layoutDateTime ((FindStringSubmatch logPattern message).getD 1 "") with
          | none => now
          | some t => t.In jst
        UserName := TrimSpace ((FindStringSubmatch logPattern message).getD 7 "")
        DatabaseName := TrimSpace ((FindStringSubmatch logPattern message).getD 8 "")
        ClientIP :=
          if (FindStringSubmatch ipPattern
              ((FindStringSubmatch logPattern message).getD 2 "")).length > 1
          then (FindStringSubmatch ipPattern
              ((FindStringSubmatch logPattern message).getD 2 "")).getD 1 ""
          else "不明"
        LogMessage := message } := by
    simp [parseConnectionLog, hgate, pg_sys_false hsys, hlen]
  exact ⟨_, hp, h7, h8, ip_eq _, rfl⟩

end PostgreSQL

theorem forall_not_occurs {l : List String} {s : String}
    (h : l.all (fun mk => !containsList s.data mk.data) = true) :
    ∀ mk ∈ l, ¬ Occurs mk s := by
  intro mk hmk
  have h1 := List.all_eq_true.mp h mk hmk
  exact not_occurs_of_decide (by simpa using h1)

theorem field_of_map {α : Type} {f : ConnectionInfo → α} {o : Option ConnectionInfo}
    {ci : ConnectionInfo} {v : α} (h : o.map f = some v) (h1 : o = some ci) : f ci = v := by
  rw [h1] at h
  exact Option.some.inj h

namespace PostgreSQL

/-- C1, witness: the scenario line yields yuta / postgres / 10.0.128.64. -/
theorem primary_fields_witness :
    (∀ mk ∈ markers, ¬ Occurs mk scenarioLine)
      ∧ FindStringSubmatch logPattern scenarioLine ≠ []
      ∧ ∃ ci, parseConnectionLog epoch fixedJST scenarioLine = some ci
          ∧ ci.UserName = "yuta" ∧ ci.DatabaseName = "postgres"
          ∧ ci.ClientIP = "10.0.128.64" ∧ ci.LogMessage = scenarioLine := by
  have h1 : ∀ mk ∈ markers, ¬ Occurs mk scenarioLine := forall_not_occurs (by decide)
  have h2 : FindStringSubmatch logPattern scenarioLine ≠ [] := by decide
  obtain ⟨ci, h3, h4, h5, h6, h7⟩ := primary_fields epoch fixedJST scenarioLine h1 h2
  have e7 : (FindStringSubmatch logPattern scenarioLine).getD 7 "" = "yuta" := by decide
  have e8 : (FindStringSubmatch logPattern scenarioLine).getD 8 "" = "postgres" := by decide
  have e2 : (if cutPort ((FindStringSubmatch logPattern scenarioLine).getD 2 "") = "" then "不明"
      else cutPort ((FindStringSubmatch logPattern scenarioLine).getD 2 "")) = "10.0.128.64" := by
    decide
  exact ⟨h1, h2, ci, h3, h4.trans e7, h5.trans e8, h6.trans e2, h7⟩

/-- C1, counterexample: on a structured line without marker whose captured address is
`(35340)`, the event's ClientIP is the sentinel `不明`, not the (empty) text before the first
`(` of the address. -/
theorem primary_clientIP_counterexample :
    (∀ mk ∈ markers, ¬ Occurs mk portOnlyLine)
      ∧ (FindStringSubmatch logPattern portOnlyLine).getD 2 "" = "(35340)"
      ∧ (parseConnectionLog epoch fixedJST portOnlyLine).map (fun ci => ci.ClientIP)
          = some "不明"
      ∧ ¬ ∃ ci, parseConnectionLog epoch fixedJST portOnlyLine = some ci
          ∧ ci.ClientIP = cutPort ((FindStringSubmatch logPattern portOnlyLine).getD 2 "") := by
  have h1 : (parseConnectionLog epoch fixedJST portOnlyLine).map (fun ci => ci.ClientIP)
      = some "不明" := by decide
  have h2 : cutPort ((FindStringSubmatch logPattern portOnlyLine).getD 2 "") ≠ "不明" := by
    decide
  refine ⟨forall_not_occurs (by decide), by decide, h1, ?_⟩
  rintro ⟨ci, h3, h4⟩
  exact h2 (h4.symm.trans (field_of_map h1 h3))

end PostgreSQL

/-! ## MySQL: the database-present and database-absent patterns -/

namespace MySQL

theorem my_sys_iff (message : String) :
    systemUsers.any (fun sysUser => Contains message (sysUser ++ "@")) = true
      ↔ ∃ mk ∈ markers, Occurs mk message := by
  have e1 : ("rdsadmin" ++ "@" : String) = "rdsadmin@" := by decide
  have e2 : ("mysql.session" ++ "@" : String) = "mysql.session@" := by decide
  have e3 : ("mysql.sys" ++ "@" : String) = "mysql.sys@" := by decide
  have e4 : ("root" ++ "@" : String) = "root@" := by decide
  simp only [systemUsers, markers, List.any_cons, List.any_nil, Bool.or_false, Bool.or_eq_true,
    contains_iff, e1, e2, e3, e4, List.mem_cons, List.mem_singleton, exists_eq_or_imp,
    List.not_mem_nil, false_and, exists_false, or_false, exists_eq_left, or_assoc]

theorem my_sys_false {message : String} (h : ∀ mk ∈ markers, ¬ Occurs mk message) :
    systemUsers.any (fun sysUser => Contains message (sysUser ++ "@")) = false := by
  rw [Bool.eq_false_iff]
  intro h1
  obtain ⟨mk, h2, h3⟩ := (my_sys_iff message).mp h1
  exact h mk h2 h3

/-- The gate is the pattern `Connect`: it accepts the lines in which that text occurs. -/
theorem my_gate_iff (message : String) :
    MatchString connectPattern message = true ↔ Occurs "Connect" message := by
  unfold MatchString connectPattern Occurs
  rw [search_isSome_iff]
  constructor
  · rintro ⟨u, w, s1, h1, h2⟩
    rw [lang_lit.mp h2] at h1
    exact ⟨u, s1, by rw [h1]; simp⟩
  · rintro ⟨u, s1, h⟩
    exact ⟨u, "Connect".data, s1, by rw [← h]; simp, lang_lit.mpr rfl⟩

/-- A line matched by any of the three patterns passes the gate. -/
theorem gate_of_head {t : List Regex} {message : String} {c : Caps}
    (h : search (.seq (reHead ++ t)) 0 message.data = some c) :
    MatchString connectPattern message = true := by
  obtain ⟨u, w, s1, h1, h2⟩ := search_lang h
  have h3 : reHead ++ t =
      [.cap 1 (.seq (reDate ++ [.lit ['T']] ++ reClock
          ++ [.lit ['.'], .plus reDigit, .lit ['Z']])),
        .plus reSpace, .plus reDigit, .plus reSpace] ++
      ([.lit "Connect".data] ++
      ([.plus reSpace, .cap 2 (.plus (reNot '@')), .lit ['@'],
        .cap 3 (.plus (fun c => !reSpace c)), .plus reSpace, .lit "on".data] ++ t)) := rfl
  rw [h3] at h2
  obtain ⟨m, x, g, y, h4, h5⟩ := lang_seq_factor h2
  have h6 : g = "Connect".data := by
    have h7 : Lang (.cat (.lit "Connect".data) .empty) m g := h5
    obtain ⟨w1, w2, rfl, hw1, hw2⟩ := h7
    have hw3 : w2 = [] := hw2
    rw [lang_lit.mp hw1, hw3]
    simp
  refine (my_gate_iff message).mpr ⟨u ++ x, y ++ s1, ?_⟩
  rw [h1, h4, h6]
  simp

/-- C2 (amended): a line without system-account marker that the database-present pattern
matches yields an event whose UserName is the captured user trimmed of white space, whose
DatabaseName is the captured database, whose ClientIP is the captured address trimmed of
white space, and whose LogMessage is the line. -/
theorem withDb_fields (now : Time) (message : String)
    (hsys : ∀ mk ∈ markers, ¬ Occurs mk message)
    (hm : FindStringSubmatch withDbPattern message ≠ []) :
    ∃ ci, parseConnectionLog now message = some ci
      ∧ ci.UserName = TrimSpace ((FindStringSubmatch withDbPattern message).getD 2 "")
      ∧ ci.DatabaseName = (FindStringSubmatch withDbPattern message).getD 4 ""
      ∧ ci.ClientIP = TrimSpace ((FindStringSubmatch withDbPattern message).getD 3 "")
      ∧ ci.LogMessage = message := by
  obtain ⟨c, hc⟩ := findSub_pos (List.length_pos.mpr hm)
  have hgate : MatchString connectPattern message = true := gate_of_head hc
  have hlen : (FindStringSubmatch withDbPattern message).length = 5 := findSub_length hc
  have h4 : TrimSpace ((FindStringSubmatch withDbPattern message).getD 4 "")
      = (FindStringSubmatch withDbPattern message).getD 4 "" := by
    rw [findSub_getD hc (by decide)]
    obtain ⟨n, hn⟩ := search_group (i := 4) hc rfl (by decide)
    exact trimSpace_of_word hn
  have hp : parseConnectionLog now message = some
      { Timestamp :=
          match Parse layoutMicroZ ((FindStringSubmatch withDbPattern message).getD 1 "") with
          | none => now
          | some t => t
        UserName := TrimSpace ((FindStringSubmatch withDbPattern message).getD 2 "")
        DatabaseName := TrimSpace ((FindStringSubmatch withDbPattern message).getD 4 "")
        ClientIP := TrimSpace ((FindStringSubmatch withDbPattern message).getD 3 "")
        LogMessage := message } := by
    simp [parseConnectionLog, hgate, my_sys_false hsys, hlen]
  exact ⟨_, hp, rfl, h4, rfl, rfl⟩

/-- C2, witness: the database-present scenario line yields test28 / appdb / 10.0.139.222. -/
theorem withDb_fields_witness :
    (∀ mk ∈ markers, ¬ Occurs mk withDbLine)
      ∧ FindStringSubmatch withDbPattern withDbLine ≠ []
      ∧ ∃ ci, parseConnectionLog epoch withDbLine = some ci
          ∧ ci.UserName = "test28" ∧ ci.DatabaseName = "appdb"
          ∧ ci.ClientIP = "10.0.139.222" ∧ ci.LogMessage = withDbLine := by
  have h1 : ∀ mk ∈ markers, ¬ Occurs mk withDbLine := forall_not_occurs (by decide)
  have h2 : FindStringSubmatch withDbPattern withDbLine ≠ [] := by decide
  obtain ⟨ci, h3, h4, h5, h6, h7⟩ := withDb_fields epoch withDbLine h1 h2
  have e2 : TrimSpace ((FindStringSubmatch withDbPattern withDbLine).getD 2 "") = "test28" := by
    decide
  have e4 : (FindStringSubmatch withDbPattern withDbLine).getD 4 "" = "appdb" := by decide
  have e3 : TrimSpace ((FindStringSubmatch withDbPattern withDbLine).getD 3 "")
      = "10.0.139.222" := by decide
  exact ⟨h1, h2, ci, h3, h4.trans e2, h5.trans e4, h6.trans e3, h7⟩

/-- C2, counterexample: on a database-present line without marker whose captured address ends
with a vertical tab, the event's ClientIP is not the captured address: the vertical tab is
trimmed away. -/
theorem withDb_clientIP_counterexample :
    (∀ mk ∈ markers, ¬ Occurs mk withDbTabLine)
      ∧ (FindStringSubmatch withDbPattern withDbTabLine).getD 3 "" = "10.0.139.222\x0b"
      ∧ (parseConnectionLog epoch withDbTabLine).map (fun ci => ci.ClientIP)
          = some "10.0.139.222"
      ∧ ¬ ∃ ci, parseConnectionLog epoch withDbTabLine = some ci
          ∧ ci.ClientIP = (FindStringSubmatch withDbPattern withDbTabLine).getD 3 "" := by
  have h1 : (parseConnectionLog epoch withDbTabLine).map (fun ci => ci.ClientIP)
      = some "10.0.139.222" := by decide
  have h2 : (FindStringSubmatch withDbPattern withDbTabLine).getD 3 "" ≠ "10.0.139.222" := by
    decide
  refine ⟨forall_not_occurs (by decide), by decide, h1, ?_⟩
  rintro ⟨ci, h3, h4⟩
  exact h2 (h4.symm.trans (field_of_map h1 h3))

/-- C3 (amended): a line without system-account marker that the database-present pattern does
not match and the database-absent pattern matches yields an event whose DatabaseName is the
sentinel `指定なし`, whose UserName is the captured user trimmed of white space and whose
ClientIP is the captured address trimmed of white space. -/
theorem withoutDb_fields (now : Time) (message : String)
    (hsys : ∀ mk ∈ markers, ¬ Occurs mk message)
    (h1 : FindStringSubmatch withDbPattern message = [])
    (h2 : FindStringSubmatch withoutDbPattern message ≠ []) :
    ∃ ci, parseConnectionLog now message = some ci
      ∧ ci.DatabaseName = "指定なし"
      ∧ ci.UserName = TrimSpace ((FindStringSubmatch withoutDbPattern message).getD 2 "")
      ∧ ci.ClientIP = TrimSpace ((FindStringSubmatch withoutDbPattern message).getD 3 "")
      ∧ ci.LogMessage = message := by
  obtain ⟨c, hc⟩ := findSub_pos (List.length_pos.mpr h2)
  have hgate : MatchString connectPattern message = true := gate_of_head hc
  have hlen : (FindStringSubmatch withoutDbPattern message).length = 4 := findSub_length hc
  have hp : parseConnectionLog now message = some
      { Timestamp :=
          match Parse layoutMicroZ ((FindStringSubmatch withoutDbPattern message).getD 1 "") with
          | none => now
          | some t => t
        UserName := TrimSpace ((FindStringSubmatch withoutDbPattern message).getD 2 "")
        DatabaseName := "指定なし"
        ClientIP := TrimSpace ((FindStringSubmatch withoutDbPattern message).getD 3 "")
        LogMessage := message } := by
    simp [parseConnectionLog, hgate, my_sys_false hsys, h1, hlen]
  exact ⟨_, hp, rfl, rfl, rfl, rfl⟩

/-- C3, witness: the database-absent scenario line yields test28 / 指定なし / 10.0.139.222. -/
theorem withoutDb_fields_witness :
    (∀ mk ∈ markers, ¬ Occurs mk withoutDbLine)
      ∧ FindStringSubmatch withDbPattern withoutDbLine = []
      ∧ FindStringSubmatch withoutDbPattern withoutDbLine ≠ []
      ∧ ∃ ci, parseConnectionLog epoch withoutDbLine = some ci
          ∧ ci.DatabaseName = "指定なし" ∧ ci.UserName = "test28"
          ∧ ci.ClientIP = "10.0.139.222" ∧ ci.LogMessage = withoutDbLine := by
  have h0 : ∀ mk ∈ markers, ¬ Occurs mk withoutDbLine := forall_not_occurs (by decide)
  have h1 : FindStringSubmatch withDbPattern withoutDbLine = [] := by decide
  have h2 : FindStringSubmatch withoutDbPattern withoutDbLine ≠ [] := by decide
  obtain ⟨ci, h3, h4, h5, h6, h7⟩ := withoutDb_fields epoch withoutDbLine h0 h1 h2
  have e2 : TrimSpace ((FindStringSubmatch withoutDbPattern withoutDbLine).getD 2 "")
      = "test28" := by decide
  have e3 : TrimSpace ((FindStringSubmatch withoutDbPattern withoutDbLine).getD 3 "")
      = "10.0.139.222" := by decide
  exact ⟨h0, h1, h2, ci, h3, h4, h5.trans e2, h6.trans e3, h7⟩

/-- C3, counterexample: on a database-absent line without marker whose captured address ends
with a vertical tab, the event's ClientIP is not the captured address: the vertical tab is
trimmed away. -/
theorem withoutDb_clientIP_counterexample :
    (∀ mk ∈ markers, ¬ Occurs mk withoutDbTabLine)
      ∧ FindStringSubmatch withDbPattern withoutDbTabLine = []
      ∧ (FindStringSubmatch withoutDbPattern withoutDbTabLine).getD 3 "" = "10.0.139.222\x0b"
      ∧ (parseConnectionLog epoch withoutDbTabLine).map (fun ci => ci.ClientIP)
          = some "10.0.139.222"
      ∧ ¬ ∃ ci, parseConnectionLog epoch withoutDbTabLine = some ci
          ∧ ci.ClientIP = (FindStringSubmatch withoutDbPattern withoutDbTabLine).getD 3 "" := by
  have h1 : (parseConnectionLog epoch withoutDbTabLine).map (fun ci => ci.ClientIP)
      = some "10.0.139.222" := by decide
  have h2 : (FindStringSubmatch withoutDbPattern withoutDbTabLine).getD 3 ""
      ≠ "10.0.139.222" := by decide
  refine ⟨forall_not_occurs (by decide), by decide, by decide, h1, ?_⟩
  rintro ⟨ci, h3, h4⟩
  exact h2 (h4.symm.trans (field_of_map h1 h3))

end MySQL

/-! ## Rejections: the connection phrase and the system accounts -/

namespace PostgreSQL

/-- The gate accepts the lines that have `connection`, white space, then `received` or
`authorized`. -/
theorem pg_gate_iff (message : String) :
    MatchString connectionPattern message = true ↔ HasConnectionPhrase message := by
  unfold MatchString HasConnectionPhrase
  rw [search_isSome_iff]
  constructor
  · rintro ⟨u, w, s1, h1, h2⟩
    have h3 : Lang (.cat (.lit "connection".data) (.cat (.plus reSpace)
        (.cat (.cap 1 (.alt (.lit "received".data) (.lit "authorized".data))) .empty)))
        u.length w := h2
    obtain ⟨w1, w2, rfl, hw1, w3, w4, rfl, hw3, w5, w6, rfl, hw5, hw6⟩ := h3
    have hw7 : w6 = [] := hw6
    have hw8 : w5 = "received".data ∨ w5 = "authorized".data := by
      rcases hw5 with h | h
      · exact Or.inl (lang_lit.mp h)
      · exact Or.inr (lang_lit.mp h)
    obtain ⟨h4, h5⟩ := lang_plus.mp hw3
    refine ⟨u, w3, w5, s1, ?_, h4, h5, hw8⟩
    rw [h1, lang_lit.mp hw1, hw7]
    simp
  · rintro ⟨u, ws, kw, v, h1, h2, h3, h4⟩
    refine ⟨u, "connection".data ++ (ws ++ kw), v, by rw [h1]; simp, ?_⟩
    have h5 : Lang (.cat (.lit "connection".data) (.cat (.plus reSpace)
        (.cat (.cap 1 (.alt (.lit "received".data) (.lit "authorized".data))) .empty)))
        u.length ("connection".data ++ (ws ++ kw)) := by
      refine ⟨_, _, rfl, lang_lit.mpr rfl, ws, kw, rfl, lang_plus.mpr ⟨h2, h3⟩, kw, [],
        by simp, ?_, rfl⟩
      rcases h4 with h | h
      · exact Or.inl (lang_lit.mpr h)
      · exact Or.inr (lang_lit.mpr h)
    exact h5

end PostgreSQL

/-- C4: a line in which `Connect` does not occur gives nil in the MySQL extractor, and a line
without `connection`, white space, `received` or `authorized` gives nil in the PostgreSQL
extractor. -/
theorem gate_rejection (now : Time) (jst : Location) (message : String) :
    (¬ Occurs "Connect" message → MySQL.parseConnectionLog now message = none)
      ∧ (¬ PostgreSQL.HasConnectionPhrase message →
          PostgreSQL.parseConnectionLog now jst message = none) := by
  constructor
  · intro h
    have h1 : MatchString MySQL.connectPattern message = false := by
      rw [Bool.eq_false_iff]
      exact fun h2 => h ((MySQL.my_gate_iff message).mp h2)
    simp [MySQL.parseConnectionLog, h1]
  · intro h
    have h1 : MatchString PostgreSQL.connectionPattern message = false := by
      rw [Bool.eq_false_iff]
      exact fun h2 => h ((PostgreSQL.pg_gate_iff message).mp h2)
    simp [PostgreSQL.parseConnectionLog, h1]

/-- C4, witness: the MySQL Query line and the PostgreSQL line `some other log message` give
nil. -/
theorem gate_rejection_witness :
    (¬ Occurs "Connect" MySQL.queryLine ∧ MySQL.parseConnectionLog epoch MySQL.queryLine = none)
      ∧ (¬ PostgreSQL.HasConnectionPhrase PostgreSQL.otherLine
          ∧ PostgreSQL.parseConnectionLog epoch fixedJST PostgreSQL.otherLine = none) := by
  have h1 : ¬ Occurs "Connect" MySQL.queryLine := not_occurs_of_decide (by decide)
  have h2 : ¬ PostgreSQL.HasConnectionPhrase PostgreSQL.otherLine := by
    intro h
    have h3 := (PostgreSQL.pg_gate_iff PostgreSQL.otherLine).mpr h
    exact absurd h3 (by decide)
  exact ⟨⟨h1, (gate_rejection epoch fixedJST MySQL.queryLine).1 h1⟩,
    ⟨h2, (gate_rejection epoch fixedJST PostgreSQL.otherLine).2 h2⟩⟩

namespace MySQL

/-- C5: a line in which one of `rdsadmin@`, `mysql.session@`, `mysql.sys@`, `root@` occurs
gives nil, whatever else the line holds. -/
theorem my_system_account_excluded (now : Time) (message : String)
    (h : ∃ mk ∈ markers, Occurs mk message) : parseConnectionLog now message = none := by
  have h1 := (my_sys_iff message).mpr h
  simp only [parseConnectionLog, h1, if_true]
  split <;> rfl

/-- C5, witness: the `rdsadmin@localhost` line, which the database-present pattern matches,
gives nil. -/
theorem my_system_account_excluded_witness :
    (∃ mk ∈ markers, Occurs mk rdsadminLine)
      ∧ FindStringSubmatch withDbPattern rdsadminLine ≠ []
      ∧ parseConnectionLog epoch rdsadminLine = none := by
  have h1 : ∃ mk ∈ markers, Occurs mk rdsadminLine :=
    ⟨"rdsadmin@", by simp [markers], containsList_iff.mp (by decide)⟩
  exact ⟨h1, by decide, my_system_account_excluded epoch rdsadminLine h1⟩

end MySQL

namespace PostgreSQL

/-- C6: a line in which one of `identity="X"`, `user=X`, `X@` occurs, for X `rdsadmin` or
`rdshm`, gives nil, whatever else the line holds. -/
theorem pg_system_account_excluded (now : Time) (jst : Location) (message : String)
    (h : ∃ mk ∈ markers, Occurs mk message) : parseConnectionLog now jst message = none := by
  have h1 := (pg_sys_iff message).mpr h
  simp only [parseConnectionLog, h1, if_true]
  split <;> rfl

/-- C6, witness: a line of user `yuta` that the structured pattern matches, with `rdsadmin@`
in the text after `database=`, gives nil. -/
theorem pg_system_account_excluded_witness :
    (∃ mk ∈ markers, Occurs mk markerLine)
      ∧ (FindStringSubmatch logPattern markerLine).getD 7 "" = "yuta"
      ∧ parseConnectionLog epoch fixedJST markerLine = none := by
  have h1 : ∃ mk ∈ markers, Occurs mk markerLine :=
    ⟨"rdsadmin@", by simp [markers], containsList_iff.mp (by decide)⟩
  exact ⟨h1, by decide, pg_system_account_excluded epoch fixedJST markerLine h1⟩

end PostgreSQL

/-! ## PostgreSQL: the fallback pattern -/

namespace PostgreSQL

/-- C7 (amended): a line that passes the gate, has no system-account marker, and that the
structured pattern does not match but the coarse pattern does, yields an event whose UserName and
DatabaseName are the captured user and database trimmed of white space and whose ClientIP is the
captured address cut before its first `(`, or the sentinel `不明` when nothing precedes that `(`;
a line that passes the gate and that neither pattern matches gives nil. -/
theorem fallback_fields (now : Time) (jst : Location) (message : String)
    (hgate : HasConnectionPhrase message)
    (h1 : FindStringSubmatch logPattern message = []) :
    ((∀ mk ∈ markers, ¬ Occurs mk message) →
      FindStringSubmatch simplePattern message ≠ [] →
        ∃ ci, parseConnectionLog now jst message = some ci
          ∧ ci.UserName = TrimSpace ((FindStringSubmatch simplePattern message).getD 3 "")
          ∧ ci.DatabaseName = TrimSpace ((FindStringSubmatch simplePattern message).getD 4 "")
          ∧ ci.ClientIP =
              (if cutPort ((FindStringSubmatch simplePattern message).getD 2 "") = "" then "不明"
               else cutPort ((FindStringSubmatch simplePattern message).getD 2 ""))
          ∧ ci.LogMessage = message)
      ∧ (FindStringSubmatch simplePattern message = [] →
          parseConnectionLog now jst message = none) := by
  have hg : MatchString connectionPattern message = true := (pg_gate_iff message).mpr hgate
  constructor
  · intro hsys h2
    obtain ⟨c, hc⟩ := findSub_pos (List.length_pos.mpr h2)
    have hlen : (FindStringSubmatch simplePattern message).length = 5 := findSub_length hc
    have hp : parseConnectionLog now jst message = some
        { Timestamp :=
            match Parse layoutDateTime
              ((FindStringSubmatch simplePattern message).getD 1 "") with
            | none => now
            | some t => t.In jst
          UserName := TrimSpace ((FindStringSubmatch simplePattern message).getD 3 "")
          DatabaseName := TrimSpace ((FindStringSubmatch simplePattern message).getD 4 "")
          ClientIP :=
            if (FindStringSubmatch ipPattern
                ((FindStringSubmatch simplePattern message).getD 2 "")).length > 1
            then (FindStringSubmatch ipPattern
                ((FindStringSubmatch simplePattern message).getD 2 "")).getD 1 ""
            else "不明"
          LogMessage := message } := by
      simp [parseConnectionLog, hg, pg_sys_false hsys, h1, hlen]
    exact ⟨_, hp, rfl, rfl, ip_eq _, rfl⟩
  · intro h2
    simp [parseConnectionLog, hg, h1, h2]

/-- C7, witness: the fallback line of the test yields admin / postgres / 10.0.1.50, and the
line `connection authorized` gives nil. -/
theorem fallback_fields_witness :
    (HasConnectionPhrase fallbackLine ∧ FindStringSubmatch logPattern fallbackLine = []
      ∧ (∀ mk ∈ markers, ¬ Occurs mk fallbackLine)
      ∧ FindStringSubmatch simplePattern fallbackLine ≠ []
      ∧ ∃ ci, parseConnectionLog epoch fixedJST fallbackLine = some ci
          ∧ ci.UserName = "admin" ∧ ci.DatabaseName = "postgres" ∧ ci.ClientIP = "10.0.1.50"
          ∧ ci.LogMessage = fallbackLine)
      ∧ (HasConnectionPhrase bareLine ∧ FindStringSubmatch logPattern bareLine = []
          ∧ FindStringSubmatch simplePattern bareLine = []
          ∧ parseConnectionLog epoch fixedJST bareLine = none) := by
  have g1 : HasConnectionPhrase fallbackLine := (pg_gate_iff fallbackLine).mp (by decide)
  have a1 : FindStringSubmatch logPattern fallbackLine = [] := by decide
  have s1 : ∀ mk ∈ markers, ¬ Occurs mk fallbackLine := forall_not_occurs (by decide)
  have b1 : FindStringSubmatch simplePattern fallbackLine ≠ [] := by decide
  have g2 : HasConnectionPhrase bareLine := (pg_gate_iff bareLine).mp (by decide)
  have a2 : FindStringSubmatch logPattern bareLine = [] := by decide
  have b2 : FindStringSubmatch simplePattern bareLine = [] := by decide
  obtain ⟨ci, h3, h4, h5, h6, h7⟩ := (fallback_fields epoch fixedJST fallbackLine g1 a1).1 s1 b1
  have e3 : TrimSpace ((FindStringSubmatch simplePattern fallbackLine).getD 3 "") = "admin" := by
    decide
  have e4 : TrimSpace ((FindStringSubmatch simplePattern fallbackLine).getD 4 "")
      = "postgres" := by decide
  have e2 : (if cutPort ((FindStringSubmatch simplePattern fallbackLine).getD 2 "") = ""
      then "不明" else cutPort ((FindStringSubmatch simplePattern fallbackLine).getD 2 ""))
      = "10.0.1.50" := by decide
  exact ⟨⟨g1, a1, s1, b1, ci, h3, h4.trans e3, h5.trans e4, h6.trans e2, h7⟩,
    ⟨g2, a2, b2, (fallback_fields epoch fixedJST bareLine g2 a2).2 b2⟩⟩

/-- C7, counterexample: on a fallback line without marker whose captured address is `(54321)`,
the event's ClientIP is the sentinel `不明`, not the (empty) text before the first `(` of the
address. -/
theorem fallback_clientIP_counterexample :
    HasConnectionPhrase fallbackPortOnlyLine
      ∧ (∀ mk ∈ markers, ¬ Occurs mk fallbackPortOnlyLine)
      ∧ FindStringSubmatch logPattern fallbackPortOnlyLine = []
      ∧ (FindStringSubmatch simplePattern fallbackPortOnlyLine).getD 2 "" = "(54321)"
      ∧ (parseConnectionLog epoch fixedJST fallbackPortOnlyLine).map (fun ci => ci.ClientIP)
          = some "不明"
      ∧ ¬ ∃ ci, parseConnectionLog epoch fixedJST fallbackPortOnlyLine = some ci
          ∧ ci.ClientIP
            = cutPort ((FindStringSubmatch simplePattern fallbackPortOnlyLine).getD 2 "") := by
  have h1 : (parseConnectionLog epoch fixedJST fallbackPortOnlyLine).map
      (fun ci => ci.ClientIP) = some "不明" := by decide
  have h2 : cutPort ((FindStringSubmatch simplePattern fallbackPortOnlyLine).getD 2 "")
      ≠ "不明" := by decide
  refine ⟨(pg_gate_iff fallbackPortOnlyLine).mp (by decide), forall_not_occurs (by decide),
    by decide, by decide, h1, ?_⟩
  rintro ⟨ci, h3, h4⟩
  exact h2 (h4.symm.trans (field_of_map h1 h3))

end PostgreSQL

/-! ## Invariants of the emitted events -/

theorem reSpace_of_reWord {a : Char} (h : reWord a = true) : reSpace a = false := by
  simp only [reWord, reDigit, Bool.or_eq_true, Bool.and_eq_true, decide_eq_true_eq] at h
  simp only [reSpace, Bool.or_eq_false_iff, decide_eq_false_iff_not]
  omega

theorem mk_ne_empty {l : List Char} (h : l ≠ []) : String.mk l ≠ "" := by
  cases l with
  | nil => exact absurd rfl h
  | cons a t =>
    intro h1
    have h2 := congrArg String.data h1
    simp at h2

namespace MySQL

/-- C8, the code at the failing input: the line `... Connect root @localhost on mysql using
TCP/IP` holds none of the four markers and yields an event whose UserName is `root`. -/
theorem root_event_emitted :
    (∀ mk ∈ markers, ¬ Occurs mk rootLine)
      ∧ (FindStringSubmatch withDbPattern rootLine).getD 2 "" = "root "
      ∧ (parseConnectionLog epoch rootLine).map (fun ci => ci.UserName) = some "root" :=
  ⟨forall_not_occurs (by decide), by decide, by decide⟩

/-- C9 (amended): the DatabaseName of an event is never the empty string; it is either the
sentinel `指定なし` or a non-empty string without any character of the pattern class `\s` (tab,
newline, form feed, carriage return, space); in both cases it has no white space at either
end. -/
theorem databaseName_nonempty (now : Time) (message : String) (ci : ConnectionInfo)
    (h : parseConnectionLog now message = some ci) :
    ci.DatabaseName ≠ ""
      ∧ (ci.DatabaseName = "指定なし" ∨ ∀ a ∈ ci.DatabaseName.data, reSpace a = false)
      ∧ TrimSpace ci.DatabaseName = ci.DatabaseName := by
  unfold parseConnectionLog at h
  split at h
  · cases h
  split at h
  · cases h
  simp only [] at h
  split at h
  · rename_i h5
    obtain ⟨c, hc⟩ := findSub_pos (r := withDbPattern) (s := message) (by omega)
    obtain ⟨n, hn⟩ := search_group (i := 4) hc rfl (by decide)
    obtain ⟨hne, hw⟩ := lang_plus.mp hn
    have e4 : TrimSpace ((FindStringSubmatch withDbPattern message).getD 4 "")
        = String.mk (c 4) := by
      rw [findSub_getD hc (by decide)]
      exact trimSpace_of_word (q := String.mk (c 4)) hn
    simp only [Option.some.injEq] at h
    subst h
    simp only [e4]
    exact ⟨mk_ne_empty hne, Or.inr (fun a ha => reSpace_of_reWord (hw a ha)),
      trimSpace_of_word (q := String.mk (c 4)) hn⟩
  split at h
  · simp only [Option.some.injEq] at h
    subst h
    exact ⟨(by decide : ("指定なし" : String) ≠ ""), Or.inl rfl,
      (by decide : TrimSpace "指定なし" = "指定なし")⟩
  split at h
  · rename_i h5
    obtain ⟨c, hc⟩ := findSub_pos (r := flexiblePattern) (s := message) (by omega)
    obtain ⟨n, hn⟩ := search_group (i := 4) hc rfl (by decide)
    have hw : ∀ a ∈ c 4, (!reSpace a) = true := hn
    simp only [Option.some.injEq] at h
    subst h
    simp only []
    split
    · exact ⟨(by decide : ("指定なし" : String) ≠ ""), Or.inl rfl,
        (by decide : TrimSpace "指定なし" = "指定なし")⟩
    · rename_i hne
      refine ⟨hne, Or.inr ?_, congrArg String.mk (trimSpaceList_idem _)⟩
      intro a ha
      rw [findSub_getD hc (by decide)] at ha
      have h6 := hw a (trimSpaceList_subset ha)
      simpa using h6
  · cases h

/-- C9, witness: the event of the database-present scenario line. -/
theorem databaseName_nonempty_witness :
    ∃ ci, parseConnectionLog epoch withDbLine = some ci ∧ ci.DatabaseName = "appdb"
      ∧ ci.DatabaseName ≠ ""
      ∧ (ci.DatabaseName = "指定なし" ∨ ∀ a ∈ ci.DatabaseName.data, reSpace a = false)
      ∧ TrimSpace ci.DatabaseName = ci.DatabaseName := by
  have h : (parseConnectionLog epoch withDbLine).isSome = true := by decide
  obtain ⟨ci, hci⟩ := Option.isSome_iff_exists.mp h
  have h1 : (parseConnectionLog epoch withDbLine).map (fun x => x.DatabaseName)
      = some "appdb" := by decide
  rw [hci] at h1
  have h2 := databaseName_nonempty epoch withDbLine ci hci
  exact ⟨ci, hci, by simpa using h1, h2.1, h2.2.1, h2.2.2⟩

/-- C9, counterexample: on a line whose database field is `a`, a vertical tab, `b`, the event's
DatabaseName is neither the sentinel nor free of white space: it holds the vertical tab. -/
theorem databaseName_whitespace_counterexample :
    (parseConnectionLog epoch tabDbLine).map (fun ci => ci.DatabaseName) = some "a\x0bb"
      ∧ ∃ ci, parseConnectionLog epoch tabDbLine = some ci
          ∧ ci.DatabaseName ≠ "指定なし"
          ∧ ∃ a ∈ ci.DatabaseName.data, isSpace a = true := by
  have h1 : (parseConnectionLog epoch tabDbLine).map (fun ci => ci.DatabaseName)
      = some "a\x0bb" := by decide
  have h2 : (parseConnectionLog epoch tabDbLine).isSome = true := by decide
  obtain ⟨ci, hci⟩ := Option.isSome_iff_exists.mp h2
  have h3 : ci.DatabaseName = "a\x0bb" := field_of_map h1 hci
  refine ⟨h1, ci, hci, ?_, Char.ofNat 11, ?_, by decide⟩
  · rw [h3]
    decide
  · rw [h3]
    decide

end MySQL

namespace PostgreSQL

/-- C10, the code at the failing input: a fallback line whose database field is a single space
yields an event with an empty DatabaseName. -/
theorem blank_database_event :
    MatchString connectionPattern blankDbLine = true
      ∧ (∀ mk ∈ markers, ¬ Occurs mk blankDbLine)
      ∧ (FindStringSubmatch simplePattern blankDbLine).getD 4 "" = " "
      ∧ (parseConnectionLog epoch fixedJST blankDbLine).map (fun ci => ci.DatabaseName)
          = some "" :=
  ⟨by decide, forall_not_occurs (by decide), by decide, by decide⟩

end PostgreSQL

/-! ## The cascades, case by case -/

theorem findSub_length_of_ne {r : Regex} {s : String} (h : FindStringSubmatch r s ≠ []) :
    (FindStringSubmatch r s).length = r.numSubexp + 1 := by
  obtain ⟨c, hc⟩ := findSub_pos (List.length_pos.mpr h)
  exact findSub_length hc

theorem findSub_ne_of_length {r : Regex} {s : String} {n : Nat}
    (h : (FindStringSubmatch r s).length ≥ n + 1) : FindStringSubmatch r s ≠ [] := by
  intro h1
  rw [h1] at h
  simp at h

namespace MySQL

/-- The event of the database-present pattern. -/
theorem my_parse_withDb (now : Time) {message : String}
    (hsys : ∀ mk ∈ markers, ¬ Occurs mk message)
    (hm : FindStringSubmatch withDbPattern message ≠ []) :
    parseConnectionLog now message = some
      { Timestamp :=
          match Parse layoutMicroZ ((FindStringSubmatch withDbPattern message).getD 1 "") with
          | none => now
          | some t => t
        UserName := TrimSpace ((FindStringSubmatch withDbPattern message).getD 2 "")
        DatabaseName := TrimSpace ((FindStringSubmatch withDbPattern message).getD 4 "")
        ClientIP := TrimSpace ((FindStringSubmatch withDbPattern message).getD 3 "")
        LogMessage := message } := by
  obtain ⟨c, hc⟩ := findSub_pos (List.length_pos.mpr hm)
  have hgate : MatchString connectPattern message = true := gate_of_head hc
  have hlen : (FindStringSubmatch withDbPattern message).length = 5 := findSub_length hc
  simp [parseConnectionLog, hgate, my_sys_false hsys, hlen]

/-- The event of the database-absent pattern. -/
theorem my_parse_withoutDb (now : Time) {message : String}
    (hsys : ∀ mk ∈ markers, ¬ Occurs mk message)
    (h1 : FindStringSubmatch withDbPattern message = [])
    (h2 : FindStringSubmatch withoutDbPattern message ≠ []) :
    parseConnectionLog now message = some
      { Timestamp :=
          match Parse layoutMicroZ ((FindStringSubmatch withoutDbPattern message).getD 1 "") with
          | none => now
          | some t => t
        UserName := TrimSpace ((FindStringSubmatch withoutDbPattern message).getD 2 "")
        DatabaseName := "指定なし"
        ClientIP := TrimSpace ((FindStringSubmatch withoutDbPattern message).getD 3 "")
        LogMessage := message } := by
  obtain ⟨c, hc⟩ := findSub_pos (List.length_pos.mpr h2)
  have hgate : MatchString connectPattern message = true := gate_of_head hc
  have hlen : (FindStringSubmatch withoutDbPattern message).length = 4 := findSub_length hc
  simp [parseConnectionLog, hgate, my_sys_false hsys, h1, hlen]

/-- The event of the generic pattern. -/
theorem my_parse_flexible (now : Time) {message : String}
    (hsys : ∀ mk ∈ markers, ¬ Occurs mk message)
    (h1 : FindStringSubmatch withDbPattern message = [])
    (h2 : FindStringSubmatch withoutDbPattern message = [])
    (h3 : FindStringSubmatch flexiblePattern message ≠ []) :
    parseConnectionLog now message = some
      { Timestamp :=
          match Parse layoutMicroZ ((FindStringSubmatch flexiblePattern message).getD 1 "") with
          | none => now
          | some t => t
        UserName := TrimSpace ((FindStringSubmatch flexiblePattern message).getD 2 "")
        DatabaseName :=
          if TrimSpace ((FindStringSubmatch flexiblePattern message).getD 4 "") = ""
          then "指定なし" else TrimSpace ((FindStringSubmatch flexiblePattern message).getD 4 "")
        ClientIP := TrimSpace ((FindStringSubmatch flexiblePattern message).getD 3 "")
        LogMessage := message } := by
  obtain ⟨c, hc⟩ := findSub_pos (List.length_pos.mpr h3)
  have hgate : MatchString connectPattern message = true := gate_of_head hc
  have hlen : (FindStringSubmatch flexiblePattern message).length = 5 := findSub_length hc
  simp [parseConnectionLog, hgate, my_sys_false hsys, h1, h2, hlen]

/-- The pattern that produced an event: the first of the cascade that matches. -/
theorem my_parse_cases {now : Time} {message : String} {ci : ConnectionInfo}
    (h : parseConnectionLog now message = some ci) :
    (∀ mk ∈ markers, ¬ Occurs mk message)
      ∧ (FindStringSubmatch withDbPattern message ≠ []
        ∨ (FindStringSubmatch withDbPattern message = []
            ∧ FindStringSubmatch withoutDbPattern message ≠ [])
        ∨ (FindStringSubmatch withDbPattern message = []
            ∧ FindStringSubmatch withoutDbPattern message = []
            ∧ FindStringSubmatch flexiblePattern message ≠ [])) := by
  have hsys : ∀ mk ∈ markers, ¬ Occurs mk message := by
    intro mk hmk hocc
    have h1 := (my_sys_iff message).mpr ⟨mk, hmk, hocc⟩
    simp only [parseConnectionLog, h1, if_true] at h
    split at h <;> cases h
  refine ⟨hsys, ?_⟩
  by_cases h1 : FindStringSubmatch withDbPattern message = []
  · by_cases h2 : FindStringSubmatch withoutDbPattern message = []
    · by_cases h3 : FindStringSubmatch flexiblePattern message = []
      · simp [parseConnectionLog, h1, h2, h3] at h
      · exact Or.inr (Or.inr ⟨h1, h2, h3⟩)
    · exact Or.inr (Or.inl ⟨h1, h2⟩)
  · exact Or.inl h1

end MySQL

/-! ## User name and client address of the emitted events -/

theorem trimSpaceList_eq_nil_iff {u : List Char} :
    trimSpaceList u = [] ↔ ∀ a ∈ u, isSpace a = true := by
  rw [trimSpaceList_eq_rdropWhile, List.rdropWhile_eq_nil_iff]
  constructor
  · intro h
    have h1 : u.dropWhile isSpace = [] := by
      cases hd : u.dropWhile isSpace with
      | nil => rfl
      | cons a t =>
        have h2 := List.head?_dropWhile_not isSpace u
        rw [hd] at h2 h
        simp only [List.head?_cons] at h2
        have h3 := h a (List.mem_cons_self _ _)
        rw [h2] at h3
        cases h3
    exact List.dropWhile_eq_nil_iff.mp h1
  · intro h x hx
    exact h x ((List.dropWhile_sublist isSpace).subset hx)

theorem mk_eq_empty_iff {l : List Char} : String.mk l = "" ↔ l = [] := by
  constructor
  · intro h
    have h1 := congrArg String.data h
    simpa using h1
  · rintro rfl
    rfl

namespace MySQL

/-- The user capture of a pattern of the cascade is not empty and holds no `@`. -/
theorem userName_aux {r : Regex} {message : String}
    (hm : FindStringSubmatch r message ≠ []) (hsub : r.sub 2 = some (.plus (reNot '@')))
    (hn : 2 ≤ r.numSubexp) :
    ((FindStringSubmatch r message).getD 2 "").data ≠ []
      ∧ ∀ a ∈ ((FindStringSubmatch r message).getD 2 "").data, a ≠ '@' := by
  obtain ⟨c, hc⟩ := findSub_pos (List.length_pos.mpr hm)
  obtain ⟨n, hl⟩ := search_group (i := 2) hc hsub (by decide)
  obtain ⟨hne, hw⟩ := lang_plus.mp hl
  rw [findSub_getD hc hn]
  refine ⟨hne, ?_⟩
  intro a ha
  have h1 := hw a ha
  simpa [reNot] using h1

/-- C11, the code at the failing input: on a line without marker whose user field is a single
space, the database-present pattern captures that space as the user, and the event is
returned with the empty string as UserName. -/
theorem blank_userName_event :
    (∀ mk ∈ markers, ¬ Occurs mk blankUserLine)
      ∧ (FindStringSubmatch withDbPattern blankUserLine).getD 2 "" = " "
      ∧ (parseConnectionLog epoch blankUserLine).map
          (fun ci => (ci.UserName, ci.DatabaseName, ci.ClientIP))
          = some ("", "mysql", "localhost") :=
  ⟨forall_not_occurs (by decide), by decide, by decide⟩

end MySQL

namespace PostgreSQL

/-- C12, the code at the failing input: on a structured line with a space between the address
and its port annotation, the event's ClientIP ends with that space. -/
theorem clientIP_untrimmed :
    (∀ mk ∈ markers, ¬ Occurs mk spacedPortLine)
      ∧ (FindStringSubmatch logPattern spacedPortLine).getD 2 "" = "10.0.128.64 (35340)"
      ∧ (parseConnectionLog epoch fixedJST spacedPortLine).map (fun ci => ci.ClientIP)
          = some "10.0.128.64 "
      ∧ TrimSpace "10.0.128.64 " ≠ "10.0.128.64 " :=
  ⟨forall_not_occurs (by decide), by decide, by decide, by decide⟩

end PostgreSQL

/-! ## MySQL: what the cascade accepts -/

theorem findSub_ne_nil_iff {r : Regex} {s : String} :
    FindStringSubmatch r s ≠ [] ↔ (search r 0 s.data).isSome = true := by
  constructor
  · intro h
    obtain ⟨c, hc⟩ := findSub_pos (List.length_pos.mpr h)
    simp [hc]
  · intro h
    obtain ⟨c, hc⟩ := Option.isSome_iff_exists.mp h
    have h1 := findSub_length (r := r) (s := s) hc
    intro h2
    rw [h2] at h1
    simp at h1

theorem matchString_iff_findSub {r : Regex} {s : String} :
    MatchString r s = true ↔ FindStringSubmatch r s ≠ [] :=
  findSub_ne_nil_iff.symm

namespace MySQL

theorem lang_tail_withDb {m : Nat} {w : List Char}
    (h : Lang (.seq [.plus reSpace, .cap 4 (.plus reWord), .plus reSpace, .lit "using".data])
      m w) :
    Lang (.seq [.plus reSpace, .cap 4 (.star (fun c => !reSpace c)), .star reSpace,
      .lit "using".data]) m w := by
  have h1 : Lang (.cat (.plus reSpace) (.cat (.cap 4 (.plus reWord)) (.cat (.plus reSpace)
      (.cat (.lit "using".data) .empty)))) m w := h
  obtain ⟨w1, w2, e1, h2, w3, w4, e2, h3, w5, w6, e3, h4, h5⟩ := h1
  have h6 : Lang (.plus reWord) (m + w1.length) w3 := h3
  have h7 : ∀ a ∈ w3, (!reSpace a) = true := by
    intro a ha
    rw [reSpace_of_reWord ((lang_plus.mp h6).2 a ha)]
    rfl
  have h8 : ∀ a ∈ w5, reSpace a = true := (lang_plus.mp h4).2
  exact ⟨w1, w2, e1, h2, w3, w4, e2, h7, w5, w6, e3, h8, h5⟩

theorem lang_tail_withoutDb {m : Nat} {w : List Char}
    (h : Lang (.seq [.plus reSpace, .plus reSpace, .lit "using".data]) m w) :
    Lang (.seq [.plus reSpace, .cap 4 (.star (fun c => !reSpace c)), .star reSpace,
      .lit "using".data]) m w := by
  have h1 : Lang (.cat (.plus reSpace) (.cat (.plus reSpace)
      (.cat (.lit "using".data) .empty))) m w := h
  obtain ⟨w1, w2, e1, h2, w3, w4, e2, h3, h4⟩ := h1
  have h8 : ∀ a ∈ w3, reSpace a = true := (lang_plus.mp h3).2
  have h9 : Lang (.cat (.lit "using".data) .empty) (m + w1.length + w3.length) w4 := h4
  refine ⟨w1, w2, e1, h2, [], w2, by simp, ?_, w3, w4, e2, h8, ?_⟩
  · intro a ha
    cases ha
  · simpa using h9

/-- A line that one of the first two patterns matches is matched by the generic pattern. -/
theorem flexible_of_tail {t : List Regex} {message : String}
    (ht : ∀ m w, Lang (.seq t) m w →
      Lang (.seq [.plus reSpace, .cap 4 (.star (fun c => !reSpace c)), .star reSpace,
        .lit "using".data]) m w)
    (h : FindStringSubmatch (.seq (reHead ++ t)) message ≠ []) :
    FindStringSubmatch flexiblePattern message ≠ [] := by
  rw [findSub_ne_nil_iff, search_isSome_iff] at h ⊢
  obtain ⟨u, w, s1, h1, h2⟩ := h
  obtain ⟨w1, w2, e1, h3, h4⟩ := lang_seq_append.mp h2
  exact ⟨u, w, s1, h1, lang_seq_append.mpr ⟨w1, w2, e1, h3, ht _ _ h4⟩⟩

/-- C20: the extractor returns an event exactly for the lines that hold none of the four
system-account markers and that the third, generic pattern matches; the `Connect` gate and the
first two patterns do not change which lines are accepted. -/
theorem cascade_accepts_iff (now : Time) (message : String) :
    (parseConnectionLog now message).isSome = true
      ↔ (∀ mk ∈ markers, ¬ Occurs mk message)
        ∧ MatchString flexiblePattern message = true := by
  constructor
  · intro h
    obtain ⟨ci, hci⟩ := Option.isSome_iff_exists.mp h
    obtain ⟨hsys, hcase⟩ := my_parse_cases hci
    refine ⟨hsys, matchString_iff_findSub.mpr ?_⟩
    rcases hcase with h1 | ⟨_, h2⟩ | ⟨_, _, h3⟩
    · exact flexible_of_tail (fun _ _ => lang_tail_withDb) h1
    · exact flexible_of_tail (fun _ _ => lang_tail_withoutDb) h2
    · exact h3
  · rintro ⟨hsys, h⟩
    have h3 := matchString_iff_findSub.mp h
    by_cases h1 : FindStringSubmatch withDbPattern message = []
    · by_cases h2 : FindStringSubmatch withoutDbPattern message = []
      · rw [my_parse_flexible now hsys h1 h2 h3]
        rfl
      · rw [my_parse_withoutDb now hsys h1 h2]
        rfl
    · rw [my_parse_withDb now hsys h1]
      rfl

/-- Every event of the cascade, in terms of the captures of the pattern that produced it. -/
theorem my_parse_eq (now : Time) {message : String}
    (hsys : ∀ mk ∈ markers, ¬ Occurs mk message) (hm : cascadeMatch message ≠ []) :
    parseConnectionLog now message = some
      { Timestamp :=
          match Parse layoutMicroZ ((cascadeMatch message).getD 1 "") with
          | none => now
          | some t => t
        UserName := TrimSpace ((cascadeMatch message).getD 2 "")
        DatabaseName := cascadeDatabase message
        ClientIP := TrimSpace ((cascadeMatch message).getD 3 "")
        LogMessage := message } := by
  by_cases h1 : FindStringSubmatch withDbPattern message = []
  · by_cases h2 : FindStringSubmatch withoutDbPattern message = []
    · have h3 : FindStringSubmatch flexiblePattern message ≠ [] := by
        simpa [cascadeMatch, h1, h2] using hm
      rw [my_parse_flexible now hsys h1 h2 h3]
      simp [cascadeMatch, cascadeDatabase, h1, h2]
    · rw [my_parse_withoutDb now hsys h1 h2]
      simp [cascadeMatch, cascadeDatabase, h1, h2]
  · rw [my_parse_withDb now hsys h1]
    simp [cascadeMatch, cascadeDatabase, h1]

theorem cascadeMatch_ne_of_event {now : Time} {message : String} {ci : ConnectionInfo}
    (h : parseConnectionLog now message = some ci) :
    (∀ mk ∈ markers, ¬ Occurs mk message) ∧ cascadeMatch message ≠ [] := by
  obtain ⟨hsys, hcase⟩ := my_parse_cases h
  refine ⟨hsys, ?_⟩
  rcases hcase with h1 | ⟨h1, h2⟩ | ⟨h1, h2, h3⟩
  · simp [cascadeMatch, h1]
  · simp [cascadeMatch, h1, h2]
  · simp [cascadeMatch, h1, h2, h3]

/-- C16: on a line without system-account marker that a pattern of the cascade matches and whose
captured timestamp does not parse, the extractor still returns an event; its Timestamp is the
current time it was given, and its UserName, DatabaseName and ClientIP are computed from the
other captures alone, so they are the ones every call on this line returns. -/
theorem timestamp_failure_recovered (now : Time) (message : String)
    (hsys : ∀ mk ∈ markers, ¬ Occurs mk message) (hm : cascadeMatch message ≠ [])
    (hp : Parse layoutMicroZ ((cascadeMatch message).getD 1 "") = none) :
    ∃ ci, parseConnectionLog now message = some ci
      ∧ ci.Timestamp = now
      ∧ ci.UserName = TrimSpace ((cascadeMatch message).getD 2 "")
      ∧ ci.DatabaseName = cascadeDatabase message
      ∧ ci.ClientIP = TrimSpace ((cascadeMatch message).getD 3 "")
      ∧ ci.LogMessage = message
      ∧ ∀ clock ci1, parseConnectionLog clock message = some ci1 →
          ci1.UserName = ci.UserName ∧ ci1.DatabaseName = ci.DatabaseName
            ∧ ci1.ClientIP = ci.ClientIP := by
  have h := my_parse_eq now hsys hm
  rw [hp] at h
  refine ⟨_, h, rfl, rfl, rfl, rfl, rfl, ?_⟩
  intro clock ci1 h1
  rw [my_parse_eq clock hsys hm] at h1
  cases h1
  exact ⟨rfl, rfl, rfl⟩

/-- C16, witness: the scenario lines with the month 13 and with five fractional digits yield
test28 / appdb / 10.0.139.222 and test28 / 指定なし / 10.0.139.222 at the current time. -/
theorem timestamp_failure_recovered_witness :
    ((∀ mk ∈ markers, ¬ Occurs mk badMonthLine) ∧ cascadeMatch badMonthLine ≠ []
      ∧ Parse layoutMicroZ ((cascadeMatch badMonthLine).getD 1 "") = none
      ∧ ∃ ci, parseConnectionLog epoch badMonthLine = some ci ∧ ci.Timestamp = epoch
          ∧ ci.UserName = "test28" ∧ ci.DatabaseName = "appdb" ∧ ci.ClientIP = "10.0.139.222")
    ∧ ((∀ mk ∈ markers, ¬ Occurs mk shortFractionLine) ∧ cascadeMatch shortFractionLine ≠ []
      ∧ Parse layoutMicroZ ((cascadeMatch shortFractionLine).getD 1 "") = none
      ∧ ∃ ci, parseConnectionLog epoch shortFractionLine = some ci ∧ ci.Timestamp = epoch
          ∧ ci.UserName = "test28" ∧ ci.DatabaseName = "指定なし"
          ∧ ci.ClientIP = "10.0.139.222") := by
  have a1 : ∀ mk ∈ markers, ¬ Occurs mk badMonthLine := forall_not_occurs (by decide)
  have a2 : cascadeMatch badMonthLine ≠ [] := by decide
  have a3 : Parse layoutMicroZ ((cascadeMatch badMonthLine).getD 1 "") = none := by decide
  have b1 : ∀ mk ∈ markers, ¬ Occurs mk shortFractionLine := forall_not_occurs (by decide)
  have b2 : cascadeMatch shortFractionLine ≠ [] := by decide
  have b3 : Parse layoutMicroZ ((cascadeMatch shortFractionLine).getD 1 "") = none := by decide
  obtain ⟨ci, c1, c2, c3, c4, c5, _⟩ := timestamp_failure_recovered epoch badMonthLine a1 a2 a3
  obtain ⟨cj, d1, d2, d3, d4, d5, _⟩ :=
    timestamp_failure_recovered epoch shortFractionLine b1 b2 b3
  have e1 : TrimSpace ((cascadeMatch badMonthLine).getD 2 "") = "test28" := by decide
  have e2 : cascadeDatabase badMonthLine = "appdb" := by decide
  have e3 : TrimSpace ((cascadeMatch badMonthLine).getD 3 "") = "10.0.139.222" := by decide
  have f1 : TrimSpace ((cascadeMatch shortFractionLine).getD 2 "") = "test28" := by decide
  have f2 : cascadeDatabase shortFractionLine = "指定なし" := by decide
  have f3 : TrimSpace ((cascadeMatch shortFractionLine).getD 3 "") = "10.0.139.222" := by
    decide
  exact ⟨⟨a1, a2, a3, ci, c1, c2, c3.trans e1, c4.trans e2, c5.trans e3⟩,
    ⟨b1, b2, b3, cj, d1, d2, d3.trans f1, d4.trans f2, d5.trans f3⟩⟩

theorem cascadeMatch_user {message : String} (hm : cascadeMatch message ≠ []) :
    ((cascadeMatch message).getD 2 "").data ≠ []
      ∧ ∀ a ∈ ((cascadeMatch message).getD 2 "").data, a ≠ '@' := by
  unfold cascadeMatch at hm ⊢
  by_cases h1 : FindStringSubmatch withDbPattern message ≠ []
  · rw [if_pos h1]
    exact userName_aux h1 rfl (by decide)
  · rw [if_neg h1] at hm ⊢
    by_cases h2 : FindStringSubmatch withoutDbPattern message ≠ []
    · rw [if_pos h2]
      exact userName_aux h2 rfl (by decide)
    · rw [if_neg h2] at hm ⊢
      exact userName_aux hm rfl (by decide)

/-- The UserName of every event is the white-space-trimmed user capture of the pattern that
produced the event, a non-empty text without `@`; no path checks the trimmed text, so the
UserName is the empty string exactly when the capture is white space only. -/
theorem my_userName_empty_iff {now : Time} {message : String} {ci : ConnectionInfo}
    (h : parseConnectionLog now message = some ci) :
    ci.UserName = TrimSpace ((cascadeMatch message).getD 2 "")
      ∧ ((cascadeMatch message).getD 2 "").data ≠ []
      ∧ (∀ a ∈ ((cascadeMatch message).getD 2 "").data, a ≠ '@')
      ∧ (ci.UserName = ""
          ↔ ∀ a ∈ ((cascadeMatch message).getD 2 "").data, isSpace a = true) := by
  obtain ⟨hsys, hm⟩ := cascadeMatch_ne_of_event h
  rw [my_parse_eq now hsys hm] at h
  cases h
  obtain ⟨h1, h2⟩ := cascadeMatch_user hm
  refine ⟨rfl, h1, h2, ?_⟩
  show TrimSpace ((cascadeMatch message).getD 2 "") = "" ↔ _
  unfold TrimSpace
  rw [mk_eq_empty_iff, trimSpaceList_eq_nil_iff]

end MySQL

/-! ## The calendar: `Date` and the calendar reading are inverse -/

theorem isLeap_iff (y : Nat) :
    isLeap y = true ↔ y % 4 = 0 ∧ (y % 100 ≠ 0 ∨ y % 400 = 0) := by
  simp [isLeap]

theorem daysInYear_eq (y : Nat) :
    daysInYear y = if y % 4 = 0 ∧ (y % 100 ≠ 0 ∨ y % 400 = 0) then 366 else 365 := by
  unfold daysInYear
  by_cases h : isLeap y = true
  · rw [if_pos h, if_pos ((isLeap_iff y).mp h)]
  · rw [if_neg h, if_neg (fun h1 => h ((isLeap_iff y).mpr h1))]

theorem daysBeforeYear_succ (y : Nat) :
    daysBeforeYear (y + 1) = daysBeforeYear y + daysInYear y := by
  have h1 : (y + 1 + 3) / 4 = (y + 3) / 4 + (if y % 4 = 0 then 1 else 0) := by split <;> omega
  have h2 : (y + 1 + 99) / 100 = (y + 99) / 100 + (if y % 100 = 0 then 1 else 0) := by
    split <;> omega
  have h3 : (y + 1 + 399) / 400 = (y + 399) / 400 + (if y % 400 = 0 then 1 else 0) := by
    split <;> omega
  have h4 : (y + 99) / 100 ≤ (y + 3) / 4 := by omega
  have h5 : y % 400 = 0 → y % 100 = 0 := by omega
  have h6 : y % 100 = 0 → y % 4 = 0 := by omega
  rw [daysInYear_eq]
  unfold daysBeforeYear
  rw [h1, h2, h3]
  generalize (y + 3) / 4 = a at h4 ⊢
  generalize (y + 99) / 100 = b at h4 ⊢
  generalize (y + 399) / 400 = c
  by_cases c4 : y % 4 = 0 <;> by_cases c100 : y % 100 = 0 <;> by_cases c400 : y % 400 = 0 <;>
    simp only [c4, c100, c400, if_true, if_false, true_and, false_and, not_true_eq_false,
      not_false_eq_true, or_true, or_false, true_or, ne_eq, false_or] <;>
    omega

theorem daysBeforeYear_cycle (y : Nat) :
    daysBeforeYear y = 146097 * (y / 400) + daysBeforeYear (y % 400) := by
  have h1 : (y + 3) / 4 = 100 * (y / 400) + (y % 400 + 3) / 4 := by omega
  have h2 : (y + 99) / 100 = 4 * (y / 400) + (y % 400 + 99) / 100 := by omega
  have h3 : (y + 399) / 400 = (y / 400) + (y % 400 + 399) / 400 := by omega
  have h4 : (y % 400 + 99) / 100 ≤ (y % 400 + 3) / 4 := by omega
  have h5 : y = 400 * (y / 400) + y % 400 := by omega
  unfold daysBeforeYear
  rw [h1, h2, h3]
  generalize (y % 400 + 3) / 4 = a at h4 ⊢
  generalize (y % 400 + 99) / 100 = b at h4 ⊢
  generalize (y % 400 + 399) / 400 = c
  generalize y / 400 = q at h5 ⊢
  generalize y % 400 = r at h5 ⊢
  omega

theorem isLeap_mod (y : Nat) : isLeap (y % 400) = isLeap y := by
  unfold isLeap
  have h1 : y % 400 % 4 = y % 4 := by omega
  have h2 : y % 400 % 100 = y % 100 := by omega
  have h3 : y % 400 % 400 = y % 400 := by omega
  rw [h1, h2, h3]

theorem daysBeforeYear_mono {a b : Nat} (h : a ≤ b) : daysBeforeYear a ≤ daysBeforeYear b := by
  induction h with
  | refl => exact Nat.le_refl _
  | step _ ih => exact Nat.le_trans ih (by rw [daysBeforeYear_succ]; exact Nat.le_add_right _ _)

theorem yearWalk_spec (k : Nat) : ∀ (fuel y doy : Nat), k ≤ fuel → doy < daysInYear (y + k) →
    yearWalk fuel y (daysBeforeYear (y + k) - daysBeforeYear y + doy) = (y + k, doy) := by
  induction k with
  | zero =>
    intro fuel y doy _ hd
    cases fuel with
    | zero => simp [yearWalk]
    | succ f =>
      have hd1 : doy < daysInYear y := hd
      simp [yearWalk, hd1]
  | succ k ih =>
    intro fuel y doy hf hd
    cases fuel with
    | zero => omega
    | succ f =>
      have h1 : daysBeforeYear (y + 1) ≤ daysBeforeYear (y + (k + 1)) :=
        daysBeforeYear_mono (by omega)
      have h2 := daysBeforeYear_succ y
      have h3 : ¬ (daysBeforeYear (y + (k + 1)) - daysBeforeYear y + doy < daysInYear y) := by
        omega
      have h4 : daysBeforeYear (y + (k + 1)) - daysBeforeYear y + doy - daysInYear y
          = daysBeforeYear (y + 1 + k) - daysBeforeYear (y + 1) + doy := by
        have h5 : y + (k + 1) = y + 1 + k := by omega
        rw [h5] at h1 ⊢
        omega
      have h6 : doy < daysInYear (y + 1 + k) := by
        have h5 : y + (k + 1) = y + 1 + k := by omega
        rw [← h5]
        exact hd
      rw [yearWalk, if_neg h3, h4, ih f (y + 1) doy (by omega) h6]
      congr 1
      omega

theorem daysBeforeMonth_succ (y m : Nat) (h1 : 1 ≤ m) (h2 : m ≤ 11) :
    daysBeforeMonth (m + 1) y = daysBeforeMonth m y + daysIn m y := by
  interval_cases m <;> cases h : isLeap y <;> simp [daysBeforeMonth, daysIn, h]

theorem daysBeforeMonth_mono (y : Nat) {a b : Nat} (h1 : 1 ≤ a) (h : a ≤ b) (h2 : b ≤ 12) :
    daysBeforeMonth a y ≤ daysBeforeMonth b y := by
  induction h with
  | refl => exact Nat.le_refl _
  | step hab ih =>
    rename_i c
    have h3 : a ≤ c := hab
    exact Nat.le_trans (ih (by omega))
      (by rw [daysBeforeMonth_succ y c (by omega) (by omega)]; exact Nat.le_add_right _ _)

theorem monthWalk_spec (y k : Nat) : ∀ (fuel m doy : Nat), k ≤ fuel → 1 ≤ m → m + k ≤ 12 →
    doy < daysIn (m + k) y →
    monthWalk y fuel m (daysBeforeMonth (m + k) y - daysBeforeMonth m y + doy)
      = (m + k, doy + 1) := by
  induction k with
  | zero =>
    intro fuel m doy _ _ _ hd
    cases fuel with
    | zero => simp [monthWalk]
    | succ f =>
      have hd1 : doy < daysIn m y := hd
      simp [monthWalk, hd1]
  | succ k ih =>
    intro fuel m doy hf hm hk hd
    cases fuel with
    | zero => omega
    | succ f =>
      have h1 : daysBeforeMonth (m + 1) y ≤ daysBeforeMonth (m + (k + 1)) y :=
        daysBeforeMonth_mono y (by omega) (by omega) hk
      have h2 := daysBeforeMonth_succ y m hm (by omega)
      have h3 : ¬ (daysBeforeMonth (m + (k + 1)) y - daysBeforeMonth m y + doy
          < daysIn m y) := by omega
      have h5 : m + (k + 1) = m + 1 + k := by omega
      have h4 : daysBeforeMonth (m + (k + 1)) y - daysBeforeMonth m y + doy - daysIn m y
          = daysBeforeMonth (m + 1 + k) y - daysBeforeMonth (m + 1) y + doy := by
        rw [h5] at h1 ⊢
        omega
      have h6 : doy < daysIn (m + 1 + k) y := by
        rw [← h5]
        exact hd
      rw [monthWalk, if_neg h3, h4, ih f (m + 1) doy (by omega) (by omega) (by omega) h6]
      congr 1
      omega

theorem daysBeforeMonth_one (y : Nat) : daysBeforeMonth 1 y = 0 := by
  simp [daysBeforeMonth]

/-- The days of a valid date before its year's end. -/
theorem dayOfYear_lt (y m d : Nat) (h1 : 1 ≤ m) (h2 : m ≤ 12) (h3 : d ≤ daysIn m y) (h4 : 1 ≤ d) :
    daysBeforeMonth m y + (d - 1) < daysInYear y := by
  unfold daysInYear
  interval_cases m <;> cases h : isLeap y <;> simp [daysBeforeMonth, daysIn, h] at h3 ⊢ <;> omega

theorem daysBeforeYear_zero : daysBeforeYear 0 = 0 := by decide

theorem daysBeforeYear_400 : daysBeforeYear 400 = 146097 := by decide

theorem daysIn_mod (m y : Nat) : daysIn m (y % 400) = daysIn m y := by
  unfold daysIn
  rw [isLeap_mod]

theorem daysBeforeMonth_mod (m y : Nat) : daysBeforeMonth m (y % 400) = daysBeforeMonth m y := by
  unfold daysBeforeMonth
  rw [isLeap_mod]

theorem daysInYear_mod (y : Nat) : daysInYear (y % 400) = daysInYear y := by
  unfold daysInYear
  rw [isLeap_mod]

/-- The calendar reading of a time from the count of its days and the second of the day. -/
theorem civil_of_days (t : Time) (q r doy tod : Nat)
    (habs : t.sec + t.offset + 719528 * 86400
      = (((146097 * q + daysBeforeYear r + doy) * 86400 + tod : Nat) : Int))
    (hr : r < 400) (hdoy : doy < daysInYear r) (htod : tod < 86400) :
    t.civil = { year := 400 * (q : Int) + r
                month := (monthWalk r 12 1 doy).1
                day := (monthWalk r 12 1 doy).2
                hour := tod / 3600
                min := tod % 3600 / 60
                sec := tod % 60 } := by
  have h1 : daysBeforeYear r + doy < 146097 := by
    have h2 : daysBeforeYear (r + 1) ≤ daysBeforeYear 400 := daysBeforeYear_mono (by omega)
    rw [daysBeforeYear_succ, daysBeforeYear_400] at h2
    omega
  have hdays : (t.sec + t.offset + 719528 * 86400) / 86400
      = ((146097 * q + (daysBeforeYear r + doy) : Nat) : Int) := by
    rw [habs]
    push_cast
    omega
  have hrem : ((t.sec + t.offset + 719528 * 86400) % 86400).toNat = tod := by
    rw [habs]
    push_cast
    omega
  have hcyc : ((146097 * q + (daysBeforeYear r + doy) : Nat) : Int) / 146097 = (q : Int) := by
    push_cast
    omega
  have hdic : (((146097 * q + (daysBeforeYear r + doy) : Nat) : Int) % 146097).toNat
      = daysBeforeYear r + doy := by
    push_cast
    omega
  have hy : yearWalk 400 0 (daysBeforeYear r + doy) = (r, doy) := by
    have h3 := yearWalk_spec r 400 0 doy (by omega) (by simpa using hdoy)
    simpa [daysBeforeYear_zero] using h3
  unfold Time.civil
  simp only [hdays, hrem, hcyc, hdic, hy]

/-- Reading the time built by `Date` gives back the date and the time of day. -/
theorem civil_Date (y m d h mi s ns : Nat) (hm1 : 1 ≤ m) (hm2 : m ≤ 12) (hd1 : 1 ≤ d)
    (hd2 : d ≤ daysIn m y) (hh : h < 24) (hmi : mi < 60) (hs : s < 60) :
    (Date y m d h mi s ns).civil
      = { year := y, month := m, day := d, hour := h, min := mi, sec := s } := by
  have hdoy : daysBeforeMonth m y + (d - 1) < daysInYear (y % 400) := by
    rw [daysInYear_mod]
    exact dayOfYear_lt y m d hm1 hm2 hd2 hd1
  have hcyc := daysBeforeYear_cycle y
  have habs : (Date y m d h mi s ns).sec + (Date y m d h mi s ns).offset + 719528 * 86400
      = (((146097 * (y / 400) + daysBeforeYear (y % 400) + (daysBeforeMonth m y + (d - 1)))
          * 86400 + (h * 3600 + mi * 60 + s) : Nat) : Int) := by
    simp only [Date]
    rw [hcyc]
    push_cast
    ring
  have hmw : monthWalk (y % 400) 12 1 (daysBeforeMonth m y + (d - 1)) = (m, d) := by
    have h1 := monthWalk_spec (y % 400) (m - 1) 12 1 (d - 1) (by omega) (by omega) (by omega)
      (by
        have h2 : 1 + (m - 1) = m := by omega
        rw [h2, daysIn_mod]
        omega)
    have h2 : 1 + (m - 1) = m := by omega
    have h3 : d - 1 + 1 = d := by omega
    rw [h2, h3, daysBeforeMonth_mod, daysBeforeMonth_mod, daysBeforeMonth_one] at h1
    simpa using h1
  rw [civil_of_days _ (y / 400) (y % 400) (daysBeforeMonth m y + (d - 1))
    (h * 3600 + mi * 60 + s) habs (Nat.mod_lt _ (by decide)) hdoy (by omega), hmw]
  have e1 : (400 * ((y / 400 : Nat) : Int) + ((y % 400 : Nat) : Int)) = (y : Int) := by
    omega
  have e2 : (h * 3600 + mi * 60 + s) / 3600 = h := by omega
  have e3 : (h * 3600 + mi * 60 + s) % 3600 / 60 = mi := by omega
  have e4 : (h * 3600 + mi * 60 + s) % 60 = s := by omega
  rw [e1, e2, e3, e4]

/-! ## `time.Parse` on the captured timestamps -/

theorem lang_reDate {k : Nat} {w : List Char} (h : Lang (.seq reDate) k w) :
    ∃ y1 y2 y3 y4 m1 m2 d1 d2 : Char,
      w = [y1, y2, y3, y4, '-', m1, m2, '-', d1, d2]
      ∧ reDigit y1 = true ∧ reDigit y2 = true ∧ reDigit y3 = true ∧ reDigit y4 = true
      ∧ reDigit m1 = true ∧ reDigit m2 = true ∧ reDigit d1 = true ∧ reDigit d2 = true := by
  simp only [reDate, Regex.seq, Regex.times, Regex.lit, Lang] at h
  obtain ⟨_, _, rfl, ⟨_, _, rfl, ⟨y1, rfl, hy1⟩, _, _, rfl, ⟨y2, rfl, hy2⟩, _, _, rfl,
    ⟨y3, rfl, hy3⟩, _, _, rfl, ⟨y4, rfl, hy4⟩, rfl⟩,
    _, _, rfl, ⟨_, _, rfl, ⟨c1, rfl, hc1⟩, rfl⟩,
    _, _, rfl, ⟨_, _, rfl, ⟨m1, rfl, hm1⟩, _, _, rfl, ⟨m2, rfl, hm2⟩, rfl⟩,
    _, _, rfl, ⟨_, _, rfl, ⟨c2, rfl, hc2⟩, rfl⟩,
    _, _, rfl, ⟨_, _, rfl, ⟨d1, rfl, hd1⟩, _, _, rfl, ⟨d2, rfl, hd2⟩, rfl⟩, rfl⟩ := h
  simp only [decide_eq_true_eq] at hc1 hc2
  subst hc1 hc2
  exact ⟨y1, y2, y3, y4, m1, m2, d1, d2, by simp, hy1, hy2, hy3, hy4, hm1, hm2, hd1, hd2⟩

theorem lang_reClock {k : Nat} {w : List Char} (h : Lang (.seq reClock) k w) :
    ∃ h1 h2 n1 n2 s1 s2 : Char,
      w = [h1, h2, ':', n1, n2, ':', s1, s2]
      ∧ reDigit h1 = true ∧ reDigit h2 = true ∧ reDigit n1 = true ∧ reDigit n2 = true
      ∧ reDigit s1 = true ∧ reDigit s2 = true := by
  simp only [reClock, Regex.seq, Regex.times, Regex.lit, Lang] at h
  obtain ⟨_, _, rfl, ⟨_, _, rfl, ⟨h1, rfl, hh1⟩, _, _, rfl, ⟨h2, rfl, hh2⟩, rfl⟩,
    _, _, rfl, ⟨_, _, rfl, ⟨c1, rfl, hc1⟩, rfl⟩,
    _, _, rfl, ⟨_, _, rfl, ⟨n1, rfl, hn1⟩, _, _, rfl, ⟨n2, rfl, hn2⟩, rfl⟩,
    _, _, rfl, ⟨_, _, rfl, ⟨c2, rfl, hc2⟩, rfl⟩,
    _, _, rfl, ⟨_, _, rfl, ⟨s1, rfl, hs1⟩, _, _, rfl, ⟨s2, rfl, hs2⟩, rfl⟩, rfl⟩ := h
  simp only [decide_eq_true_eq] at hc1 hc2
  subst hc1 hc2
  exact ⟨h1, h2, n1, n2, s1, s2, by simp, hh1, hh2, hn1, hn2, hs1, hs2⟩

theorem getnum_two {a b : Char} (rest : List Char) (fixed : Bool)
    (ha : reDigit a = true) (hb : reDigit b = true) :
    getnum (a :: b :: rest) fixed = some (digitVal a * 10 + digitVal b, rest) := by
  simp [getnum, ha, hb]

theorem digitsVal_four {a b c d : Char} (ha : reDigit a = true) (hb : reDigit b = true)
    (hc : reDigit c = true) (hd : reDigit d = true) :
    digitsVal [a, b, c, d] 0
      = some (((digitVal a * 10 + digitVal b) * 10 + digitVal c) * 10 + digitVal d) := by
  simp [digitsVal, ha, hb, hc, hd]

theorem skip_char (c : Char) (rest : List Char) (hc : c ≠ ' ') :
    skip (c :: rest) [c] = some rest := by
  simp [skip, skipAux, hc]

theorem parseStd_year {a b c d : Char} (f : Parsed) (fn : Bool) (rest : List Char)
    (ha : reDigit a = true) (hb : reDigit b = true) (hc : reDigit c = true)
    (hd : reDigit d = true) :
    parseStd .longYear fn f (a :: b :: c :: d :: rest)
      = some ({ f with
          year := (((digitVal a * 10 + digitVal b) * 10 + digitVal c) * 10 + digitVal d) },
        rest) := by
  simp [parseStd, digitsVal_four ha hb hc hd]

theorem parseStd_text (c : Char) (f : Parsed) (fn : Bool) (rest : List Char) (hc : c ≠ ' ') :
    parseStd (.text [c]) fn f (c :: rest) = some (f, rest) := by
  simp [parseStd, skip_char c rest hc]

theorem parseStd_second_frac {a b : Char} (f : Parsed) (rest : List Char)
    (ha : reDigit a = true) (hb : reDigit b = true) :
    parseStd .zeroSecond true f (a :: b :: rest)
      = if 60 ≤ digitVal a * 10 + digitVal b then none
        else some ({ f with sec := digitVal a * 10 + digitVal b }, rest) := by
  simp only [parseStd, getnum_two rest true ha hb]
  split
  · rfl
  · rcases rest with _ | ⟨c, _ | ⟨d, t⟩⟩ <;> simp

theorem parseStd_second_end {a b : Char} (f : Parsed) (fn : Bool)
    (ha : reDigit a = true) (hb : reDigit b = true) :
    parseStd .zeroSecond fn f [a, b]
      = if 60 ≤ digitVal a * 10 + digitVal b then none
        else some ({ f with sec := digitVal a * 10 + digitVal b }, []) := by
  simp only [parseStd, getnum_two [] true ha hb]

/-- The fractional second and the final `Z` leave the date and time-of-day fields alone. -/
theorem parseLayout_frac_tail {f g : Parsed} {v : List Char}
    (h : parseLayout [.fracSecond0 6, .text ['Z']] f v = some g) :
    g.year = f.year ∧ g.month = f.month ∧ g.day = f.day ∧ g.hour = f.hour ∧ g.min = f.min
      ∧ g.sec = f.sec := by
  simp only [parseLayout, parseStd, fracNext] at h
  split at h
  · rename_i f1 v1 h1
    split at h1
    · cases h1
    · cases hp : parseNanoseconds v (1 + 6) with
      | none => rw [hp] at h1; cases h1
      | some ns =>
        rw [hp] at h1
        simp only [Option.map_some', Option.some.injEq, Prod.mk.injEq] at h1
        obtain ⟨rfl, rfl⟩ := h1
        split at h
        · rename_i f2 v2 h2
          cases hs : skip (List.drop (1 + 6) v) ['Z'] with
          | none => rw [hs] at h2; cases h2
          | some v3 =>
            rw [hs] at h2
            simp only [Option.map_some', Option.some.injEq, Prod.mk.injEq] at h2
            obtain ⟨rfl, rfl⟩ := h2
            split at h
            · cases h
              exact ⟨rfl, rfl, rfl, rfl, rfl, rfl⟩
            · cases h
        · cases h
  · cases h

/-! ## `time.Parse` and `Time.Format` on the written digits -/

theorem parseLayout_some {std : Std} {rest : List Std} {f f1 g : Parsed} {v v1 : List Char}
    (hs : parseStd std (fracNext rest) f v = some (f1, v1))
    (h : parseLayout (std :: rest) f v = some g) : parseLayout rest f1 v1 = some g := by
  simpa only [parseLayout, hs] using h

theorem parseLayout_if {std : Std} {rest : List Std} {f f1 g : Parsed} {v v1 : List Char}
    {c : Prop} [Decidable c]
    (hs : parseStd std (fracNext rest) f v = if c then none else some (f1, v1))
    (h : parseLayout (std :: rest) f v = some g) : ¬ c ∧ parseLayout rest f1 v1 = some g := by
  by_cases hc : c
  · simp [parseLayout, hs, hc] at h
  · exact ⟨hc, by simpa [parseLayout, hs, hc] using h⟩

theorem parseStd_month {a b : Char} (f : Parsed) (fn : Bool) (rest : List Char)
    (ha : reDigit a = true) (hb : reDigit b = true) :
    parseStd .zeroMonth fn f (a :: b :: rest)
      = if digitVal a * 10 + digitVal b = 0 ∨ 12 < digitVal a * 10 + digitVal b then none
        else some ({ f with month := digitVal a * 10 + digitVal b }, rest) := by
  simp only [parseStd, getnum_two rest true ha hb]

theorem parseStd_day {a b : Char} (f : Parsed) (fn : Bool) (rest : List Char)
    (ha : reDigit a = true) (hb : reDigit b = true) :
    parseStd .zeroDay fn f (a :: b :: rest)
      = some ({ f with day := digitVal a * 10 + digitVal b }, rest) := by
  simp only [parseStd, getnum_two rest true ha hb, Option.map_some']

theorem parseStd_hour {a b : Char} (f : Parsed) (fn : Bool) (rest : List Char)
    (ha : reDigit a = true) (hb : reDigit b = true) :
    parseStd .hour fn f (a :: b :: rest)
      = if 24 ≤ digitVal a * 10 + digitVal b then none
        else some ({ f with hour := digitVal a * 10 + digitVal b }, rest) := by
  simp only [parseStd, getnum_two rest false ha hb]

theorem parseStd_minute {a b : Char} (f : Parsed) (fn : Bool) (rest : List Char)
    (ha : reDigit a = true) (hb : reDigit b = true) :
    parseStd .zeroMinute fn f (a :: b :: rest)
      = if 60 ≤ digitVal a * 10 + digitVal b then none
        else some ({ f with min := digitVal a * 10 + digitVal b }, rest) := by
  simp only [parseStd, getnum_two rest true ha hb]

/-- The date part of both layouts applied to ten characters `YYYY-MM-DD`. -/
theorem parse_date_steps {y1 y2 y3 y4 m1 m2 d1 d2 : Char} {L : List Std} {f g : Parsed}
    {v : List Char}
    (hy1 : reDigit y1 = true) (hy2 : reDigit y2 = true) (hy3 : reDigit y3 = true)
    (hy4 : reDigit y4 = true) (hm1 : reDigit m1 = true) (hm2 : reDigit m2 = true)
    (hd1 : reDigit d1 = true) (hd2 : reDigit d2 = true)
    (h : parseLayout (.longYear :: .text ['-'] :: .zeroMonth :: .text ['-'] :: .zeroDay :: L) f
      (y1 :: y2 :: y3 :: y4 :: '-' :: m1 :: m2 :: '-' :: d1 :: d2 :: v) = some g) :
    ¬ (digitVal m1 * 10 + digitVal m2 = 0 ∨ 12 < digitVal m1 * 10 + digitVal m2)
      ∧ parseLayout L
        { f with
          year := (((digitVal y1 * 10 + digitVal y2) * 10 + digitVal y3) * 10 + digitVal y4)
          month := digitVal m1 * 10 + digitVal m2
          day := digitVal d1 * 10 + digitVal d2 } v = some g := by
  have a1 := parseLayout_some (parseStd_year f _ _ hy1 hy2 hy3 hy4) h
  have a2 := parseLayout_some (parseStd_text '-' _ _ _ (by decide)) a1
  obtain ⟨c3, a3⟩ := parseLayout_if (parseStd_month _ _ _ hm1 hm2) a2
  have a4 := parseLayout_some (parseStd_text '-' _ _ _ (by decide)) a3
  have a5 := parseLayout_some (parseStd_day _ _ _ hd1 hd2) a4
  exact ⟨c3, a5⟩

/-- The hour and minute part of both layouts applied to `HH:MM:`. -/
theorem parse_clock_steps {h1 h2 n1 n2 : Char} {L : List Std} {f g : Parsed} {v : List Char}
    (hh1 : reDigit h1 = true) (hh2 : reDigit h2 = true) (hn1 : reDigit n1 = true)
    (hn2 : reDigit n2 = true)
    (h : parseLayout (.hour :: .text [':'] :: .zeroMinute :: .text [':'] :: L) f
      (h1 :: h2 :: ':' :: n1 :: n2 :: ':' :: v) = some g) :
    ¬ 24 ≤ digitVal h1 * 10 + digitVal h2 ∧ ¬ 60 ≤ digitVal n1 * 10 + digitVal n2
      ∧ parseLayout L
        { f with
          hour := digitVal h1 * 10 + digitVal h2
          min := digitVal n1 * 10 + digitVal n2 } v = some g := by
  obtain ⟨c1, a1⟩ := parseLayout_if (parseStd_hour _ _ _ hh1 hh2) h
  have a2 := parseLayout_some (parseStd_text ':' _ _ _ (by decide)) a1
  obtain ⟨c3, a3⟩ := parseLayout_if (parseStd_minute _ _ _ hn1 hn2) a2
  have a4 := parseLayout_some (parseStd_text ':' _ _ _ (by decide)) a3
  exact ⟨c1, c3, a4⟩

theorem civil_of_parsed {f : Parsed} (hm : ¬ (f.month = 0 ∨ 12 < f.month))
    (hd : ¬ (f.day < 1 ∨ daysIn f.month f.year < f.day)) (hh : ¬ 24 ≤ f.hour)
    (hn : ¬ 60 ≤ f.min) (hs : ¬ 60 ≤ f.sec) :
    (Date f.year f.month f.day f.hour f.min f.sec f.nsec).civil
      = { year := f.year, month := f.month, day := f.day, hour := f.hour, min := f.min,
          sec := f.sec } :=
  civil_Date _ _ _ _ _ _ _ (by omega) (by omega) (by omega) (by omega) (by omega) (by omega)
    (by omega)

theorem parse_microZ_civil {y1 y2 y3 y4 m1 m2 d1 d2 h1 h2 n1 n2 s1 s2 : Char}
    {rest : List Char} {t : Time}
    (hy1 : reDigit y1 = true) (hy2 : reDigit y2 = true) (hy3 : reDigit y3 = true)
    (hy4 : reDigit y4 = true) (hm1 : reDigit m1 = true) (hm2 : reDigit m2 = true)
    (hd1 : reDigit d1 = true) (hd2 : reDigit d2 = true) (hh1 : reDigit h1 = true)
    (hh2 : reDigit h2 = true) (hn1 : reDigit n1 = true) (hn2 : reDigit n2 = true)
    (hs1 : reDigit s1 = true) (hs2 : reDigit s2 = true)
    (h : Parse layoutMicroZ (String.mk (y1 :: y2 :: y3 :: y4 :: '-' :: m1 :: m2 :: '-' :: d1
      :: d2 :: 'T' :: h1 :: h2 :: ':' :: n1 :: n2 :: ':' :: s1 :: s2 :: rest)) = some t) :
    t.civil = fieldsOf y1 y2 y3 y4 m1 m2 d1 d2 h1 h2 n1 n2 s1 s2 ∧ t.offset = 0 := by
  unfold Parse at h
  split at h
  · rename_i g hg
    split at h
    · cases h
    · rename_i hday
      simp only [Option.some.injEq] at h
      subst h
      obtain ⟨c1, b1⟩ := parse_date_steps hy1 hy2 hy3 hy4 hm1 hm2 hd1 hd2 hg
      have b2 := parseLayout_some (parseStd_text 'T' _ _ _ (by decide)) b1
      obtain ⟨c2, c3, b3⟩ := parse_clock_steps hh1 hh2 hn1 hn2 b2
      obtain ⟨c4, b4⟩ := parseLayout_if (parseStd_second_frac _ _ hs1 hs2) b3
      obtain ⟨e1, e2, e3, e4, e5, e6⟩ := parseLayout_frac_tail b4
      simp only at e1 e2 e3 e4 e5 e6
      refine ⟨?_, rfl⟩
      rw [civil_of_parsed (by rw [e2]; exact c1) hday (by rw [e4]; exact c2)
        (by rw [e5]; exact c3) (by rw [e6]; exact c4), e1, e2, e3, e4, e5, e6]
      rfl
  · cases h

theorem digitVal_le {a : Char} (h : reDigit a = true) : digitVal a ≤ 9 := by
  simp only [reDigit, Bool.and_eq_true, decide_eq_true_eq] at h
  unfold digitVal
  omega

theorem digitChar_digitVal {a : Char} (h : reDigit a = true) : digitChar (digitVal a) = a := by
  simp only [reDigit, Bool.and_eq_true, decide_eq_true_eq] at h
  unfold digitChar digitVal
  have h1 : 48 + (a.toNat - 48) = a.toNat := by omega
  rw [h1]
  exact Char.ofNat_toNat a

theorem appendInt_two {a b : Char} (ha : reDigit a = true) (hb : reDigit b = true) :
    appendInt ((digitVal a * 10 + digitVal b : Nat) : Int) 2 = [a, b] := by
  have h1 := digitVal_le ha
  have h2 := digitVal_le hb
  have h3 : (digitVal a * 10 + digitVal b) / 10 = digitVal a := by omega
  have h4 : (digitVal a * 10 + digitVal b) % 10 = digitVal b := by omega
  have h5 : digitVal a * 10 + digitVal b < 100 := by omega
  have h6 : ¬ (((digitVal a * 10 + digitVal b : Nat) : Int) < 0) := by omega
  simp only [appendInt, Int.natAbs_ofNat, h5, h6, and_self, if_true, if_false, List.nil_append,
    h3, h4, digitChar_digitVal ha, digitChar_digitVal hb]

theorem appendInt_four {a b c d : Char} (ha : reDigit a = true) (hb : reDigit b = true)
    (hc : reDigit c = true) (hd : reDigit d = true) :
    appendInt ((((digitVal a * 10 + digitVal b) * 10 + digitVal c) * 10 + digitVal d : Nat) : Int)
      4 = [a, b, c, d] := by
  have h1 := digitVal_le ha
  have h2 := digitVal_le hb
  have h3 := digitVal_le hc
  have h4 := digitVal_le hd
  generalize hn : ((digitVal a * 10 + digitVal b) * 10 + digitVal c) * 10 + digitVal d = n
  have e1 : n / 1000 = digitVal a := by omega
  have e2 : n / 100 % 10 = digitVal b := by omega
  have e3 : n / 10 % 10 = digitVal c := by omega
  have e4 : n % 10 = digitVal d := by omega
  have e5 : n < 10000 := by omega
  have e6 : ¬ ((n : Int) < 0) := by omega
  have e7 : ¬ ((4 : Nat) = 2 ∧ n < 100) := by omega
  simp only [appendInt, Int.natAbs_ofNat, e5, e6, e7, and_self, if_true, if_false,
    List.nil_append, e1, e2, e3, e4, digitChar_digitVal ha, digitChar_digitVal hb,
    digitChar_digitVal hc, digitChar_digitVal hd]

/-- Formatting a time whose reading is the written fields gives back the written digits. -/
theorem format_fieldsOf {y1 y2 y3 y4 m1 m2 d1 d2 h1 h2 n1 n2 s1 s2 : Char} {t : Time}
    (hy1 : reDigit y1 = true) (hy2 : reDigit y2 = true) (hy3 : reDigit y3 = true)
    (hy4 : reDigit y4 = true) (hm1 : reDigit m1 = true) (hm2 : reDigit m2 = true)
    (hd1 : reDigit d1 = true) (hd2 : reDigit d2 = true) (hh1 : reDigit h1 = true)
    (hh2 : reDigit h2 = true) (hn1 : reDigit n1 = true) (hn2 : reDigit n2 = true)
    (hs1 : reDigit s1 = true) (hs2 : reDigit s2 = true)
    (h : t.civil = fieldsOf y1 y2 y3 y4 m1 m2 d1 d2 h1 h2 n1 n2 s1 s2) :
    t.Format layoutDateTime = String.mk [y1, y2, y3, y4, '-', m1, m2, '-', d1, d2, ' ',
      h1, h2, ':', n1, n2, ':', s1, s2] := by
  unfold Time.Format
  rw [h]
  simp only [layoutDateTime, List.flatMap_cons, List.flatMap_nil, formatStd, fieldsOf,
    appendInt_four hy1 hy2 hy3 hy4, appendInt_two hm1 hm2, appendInt_two hd1 hd2,
    appendInt_two hh1 hh2, appendInt_two hn1 hn2, appendInt_two hs1 hs2, List.cons_append,
    List.nil_append, List.append_nil]

theorem reDigit_of_reSpace {a : Char} (h : reSpace a = true) : reDigit a = false := by
  simp only [reSpace, Bool.or_eq_true, decide_eq_true_eq] at h
  simp only [reDigit, Bool.and_eq_false_iff, decide_eq_false_iff_not]
  omega

theorem ne_space_of_reDigit {a : Char} (h : reDigit a = true) : a ≠ ' ' := by
  rintro rfl
  exact absurd h (by decide)

theorem getnum_nondigit {x : Char} (rest : List Char) (fixed : Bool) (hx : reDigit x = false) :
    getnum (x :: rest) fixed = none := by
  cases rest <;> simp [getnum, hx]

theorem parseStd_space (f : Parsed) (fn : Bool) (x : Char) (v : List Char) :
    parseStd (.text [' ']) fn f (x :: v)
      = if ¬ x = ' ' then none else some (f, (x :: v).dropWhile (fun c => c = ' ')) := by
  by_cases hx : x = ' ' <;> simp [parseStd, skip, skipAux, hx]

/-- After the space of the layout has cut the spaces of the value, the hour can only be read
when the whole white-space run of the capture was made of spaces. -/
theorem hour_after_spaces {ws tl : List Char} {h1 : Char} {L : List Std} {f g : Parsed}
    (hws : ∀ a ∈ ws, reSpace a = true) (hh1 : reDigit h1 = true)
    (hs : parseLayout (.hour :: L) f ((ws ++ h1 :: tl).dropWhile (fun c => c = ' ')) = some g) :
    (ws ++ h1 :: tl).dropWhile (fun c => c = ' ') = h1 :: tl ∧ ∀ a ∈ ws, a = ' ' := by
  induction ws with
  | nil =>
    have h2 : h1 ≠ ' ' := ne_space_of_reDigit hh1
    simp [List.dropWhile, h2]
  | cons x ws0 ih =>
    rw [List.cons_append] at hs ⊢
    by_cases hx : x = ' '
    · have e : (x :: (ws0 ++ h1 :: tl)).dropWhile (fun c => c = ' ')
          = (ws0 ++ h1 :: tl).dropWhile (fun c => c = ' ') := by
        simp [List.dropWhile, hx]
      rw [e] at hs
      obtain ⟨a1, a2⟩ := ih (fun a ha => hws a (List.mem_cons_of_mem _ ha)) hs
      rw [e]
      refine ⟨a1, ?_⟩
      intro a ha
      rcases List.mem_cons.mp ha with rfl | ha
      · exact hx
      · exact a2 a ha
    · have e : (x :: (ws0 ++ h1 :: tl)).dropWhile (fun c => c = ' ')
          = x :: (ws0 ++ h1 :: tl) := by
        simp [List.dropWhile, hx]
      rw [e] at hs
      have h3 := reDigit_of_reSpace (hws x (List.mem_cons_self _ _))
      simp [parseLayout, parseStd, getnum_nondigit _ _ h3] at hs

theorem parse_dateTime_civil {y1 y2 y3 y4 m1 m2 d1 d2 h1 h2 n1 n2 s1 s2 : Char}
    {ws : List Char} {t : Time}
    (hy1 : reDigit y1 = true) (hy2 : reDigit y2 = true) (hy3 : reDigit y3 = true)
    (hy4 : reDigit y4 = true) (hm1 : reDigit m1 = true) (hm2 : reDigit m2 = true)
    (hd1 : reDigit d1 = true) (hd2 : reDigit d2 = true) (hh1 : reDigit h1 = true)
    (hh2 : reDigit h2 = true) (hn1 : reDigit n1 = true) (hn2 : reDigit n2 = true)
    (hs1 : reDigit s1 = true) (hs2 : reDigit s2 = true)
    (hne : ws ≠ []) (hws : ∀ a ∈ ws, reSpace a = true)
    (h : Parse layoutDateTime (String.mk (y1 :: y2 :: y3 :: y4 :: '-' :: m1 :: m2 :: '-' :: d1
      :: d2 :: (ws ++ [h1, h2, ':', n1, n2, ':', s1, s2]))) = some t) :
    t.civil = fieldsOf y1 y2 y3 y4 m1 m2 d1 d2 h1 h2 n1 n2 s1 s2 ∧ t.offset = 0
      ∧ ∀ a ∈ ws, a = ' ' := by
  unfold Parse at h
  split at h
  · rename_i g hg
    split at h
    · cases h
    · rename_i hday
      simp only [Option.some.injEq] at h
      subst h
      obtain ⟨c1, b1⟩ := parse_date_steps hy1 hy2 hy3 hy4 hm1 hm2 hd1 hd2 hg
      cases ws with
      | nil => exact absurd rfl hne
      | cons x ws0 =>
        rw [List.cons_append] at b1
        obtain ⟨cx, b2⟩ := parseLayout_if (parseStd_space _ _ x _) b1
        rw [← List.cons_append] at b2
        obtain ⟨e1, e2⟩ := hour_after_spaces hws hh1 b2
        rw [e1] at b2
        obtain ⟨c2, c3, b3⟩ := parse_clock_steps hh1 hh2 hn1 hn2 b2
        obtain ⟨c4, b4⟩ := parseLayout_if (parseStd_second_end _ _ hs1 hs2) b3
        simp only [parseLayout, List.isEmpty_nil, if_true, Option.some.injEq] at b4
        subst b4
        refine ⟨?_, rfl, e2⟩
        rw [civil_of_parsed c1 hday c2 c3 c4]
        rfl
  · cases h

/-! ## Timestamps of the emitted events -/

namespace MySQL

/-- The captured timestamp of a pattern of the cascade begins with `YYYY-MM-DDTHH:MM:SS`. -/
theorem stamp_shape {r : Regex} {message : String}
    (hm : FindStringSubmatch r message ≠ [])
    (hsub : r.sub 1 = some (.seq (reDate ++ [.lit ['T']] ++ reClock
      ++ [.lit ['.'], .plus reDigit, .lit ['Z']])))
    (hn : 1 ≤ r.numSubexp) :
    ∃ (y1 y2 y3 y4 m1 m2 d1 d2 h1 h2 n1 n2 s1 s2 : Char) (rest : List Char),
      (FindStringSubmatch r message).getD 1 "" = String.mk (y1 :: y2 :: y3 :: y4 :: '-' :: m1
        :: m2 :: '-' :: d1 :: d2 :: 'T' :: h1 :: h2 :: ':' :: n1 :: n2 :: ':' :: s1 :: s2
        :: rest)
      ∧ reDigit y1 = true ∧ reDigit y2 = true ∧ reDigit y3 = true ∧ reDigit y4 = true
      ∧ reDigit m1 = true ∧ reDigit m2 = true ∧ reDigit d1 = true ∧ reDigit d2 = true
      ∧ reDigit h1 = true ∧ reDigit h2 = true ∧ reDigit n1 = true ∧ reDigit n2 = true
      ∧ reDigit s1 = true ∧ reDigit s2 = true := by
  obtain ⟨c, hc⟩ := findSub_pos (List.length_pos.mpr hm)
  obtain ⟨k, hl⟩ := search_group (i := 1) hc hsub (by decide)
  rw [findSub_getD hc hn]
  obtain ⟨w1, w2, e1, a1, _⟩ := lang_seq_append.mp hl
  obtain ⟨w3, w4, e2, a2, a3⟩ := lang_seq_append.mp a1
  obtain ⟨w5, w6, e3, a4, a5⟩ := lang_seq_append.mp a2
  obtain ⟨y1, y2, y3, y4, m1, m2, d1, d2, e4, hy1, hy2, hy3, hy4, hm1, hm2, hd1, hd2⟩ :=
    lang_reDate a4
  obtain ⟨h1, h2, n1, n2, s1, s2, e5, hh1, hh2, hn1, hn2, hs1, hs2⟩ := lang_reClock a3
  have a6 : Lang (.cat (.lit ['T']) .empty) (k + w5.length) w6 := a5
  obtain ⟨w7, w8, e6, a7, a8⟩ := a6
  have e7 : w8 = [] := a8
  have e8 : w7 = ['T'] := lang_lit.mp a7
  refine ⟨y1, y2, y3, y4, m1, m2, d1, d2, h1, h2, n1, n2, s1, s2, w2, ?_, hy1, hy2, hy3, hy4,
    hm1, hm2, hd1, hd2, hh1, hh2, hn1, hn2, hs1, hs2⟩
  rw [e1, e2, e3, e4, e5, e6, e7, e8]
  simp

theorem cascadeMatch_shape {message : String} (hm : cascadeMatch message ≠ []) :
    ∃ (y1 y2 y3 y4 m1 m2 d1 d2 h1 h2 n1 n2 s1 s2 : Char) (rest : List Char),
      (cascadeMatch message).getD 1 "" = String.mk (y1 :: y2 :: y3 :: y4 :: '-' :: m1
        :: m2 :: '-' :: d1 :: d2 :: 'T' :: h1 :: h2 :: ':' :: n1 :: n2 :: ':' :: s1 :: s2
        :: rest)
      ∧ reDigit y1 = true ∧ reDigit y2 = true ∧ reDigit y3 = true ∧ reDigit y4 = true
      ∧ reDigit m1 = true ∧ reDigit m2 = true ∧ reDigit d1 = true ∧ reDigit d2 = true
      ∧ reDigit h1 = true ∧ reDigit h2 = true ∧ reDigit n1 = true ∧ reDigit n2 = true
      ∧ reDigit s1 = true ∧ reDigit s2 = true := by
  unfold cascadeMatch at hm ⊢
  by_cases h1 : FindStringSubmatch withDbPattern message ≠ []
  · rw [if_pos h1]
    exact stamp_shape h1 rfl (by decide)
  · rw [if_neg h1] at hm ⊢
    by_cases h2 : FindStringSubmatch withoutDbPattern message ≠ []
    · rw [if_pos h2]
      exact stamp_shape h2 rfl (by decide)
    · rw [if_neg h2] at hm ⊢
      exact stamp_shape hm rfl (by decide)

/-- C15: when the captured timestamp of an event parses, the event's Timestamp is the parsed
UTC time, and formatted as `2006-01-02 15:04:05` it shows the date and the time of day written
in the line: the first ten characters of the capture, a space, and the eight characters that
follow the `T`. -/
theorem timestamp_as_written (now : Time) (message : String) (ci : ConnectionInfo) (t : Time)
    (h : parseConnectionLog now message = some ci)
    (hp : Parse layoutMicroZ ((cascadeMatch message).getD 1 "") = some t) :
    ci.Timestamp = t ∧ ci.Timestamp.offset = 0
      ∧ ci.Timestamp.Format layoutDateTime
          = String.mk (((cascadeMatch message).getD 1 "").data.take 10
              ++ ' ' :: (((cascadeMatch message).getD 1 "").data.drop 11).take 8) := by
  obtain ⟨hsys, hm⟩ := cascadeMatch_ne_of_event h
  rw [my_parse_eq now hsys hm, hp] at h
  cases h
  obtain ⟨y1, y2, y3, y4, m1, m2, d1, d2, h1, h2, n1, n2, s1, s2, rest, e, hy1, hy2, hy3, hy4,
    hm1, hm2, hd1, hd2, hh1, hh2, hn1, hn2, hs1, hs2⟩ := cascadeMatch_shape hm
  rw [e] at hp ⊢
  obtain ⟨hc, ho⟩ := parse_microZ_civil hy1 hy2 hy3 hy4 hm1 hm2 hd1 hd2 hh1 hh2 hn1 hn2 hs1 hs2
    hp
  refine ⟨rfl, ho, ?_⟩
  rw [format_fieldsOf hy1 hy2 hy3 hy4 hm1 hm2 hd1 hd2 hh1 hh2 hn1 hn2 hs1 hs2 hc]
  simp

end MySQL

namespace PostgreSQL

/-- The Timestamp of an event: the parsed capture moved to the location `jst`, or the current
time when the capture does not parse. -/
theorem pg_event_timestamp {now : Time} {jst : Location} {message : String}
    {ci : ConnectionInfo} (h : parseConnectionLog now jst message = some ci) :
    cascadeMatch message ≠ []
      ∧ ci.Timestamp =
          match Parse layoutDateTime ((cascadeMatch message).getD 1 "") with
          | none => now
          | some t => t.In jst := by
  unfold parseConnectionLog at h
  split at h
  · cases h
  split at h
  · cases h
  simp only [] at h
  split at h
  · rename_i h9
    split at h
    · rename_i h5
      have h1 : FindStringSubmatch logPattern message = [] := by
        by_contra hne
        rw [findSub_length_of_ne hne] at h9
        exact absurd h9 (by decide)
      have h2 : FindStringSubmatch simplePattern message ≠ [] := findSub_ne_of_length h5
      simp only [Option.some.injEq] at h
      subst h
      have e : cascadeMatch message = FindStringSubmatch simplePattern message := by
        simp [cascadeMatch, h1]
      rw [e]
      exact ⟨h2, rfl⟩
    · cases h
  · rename_i h9
    have h1 : FindStringSubmatch logPattern message ≠ [] := by
      intro h0
      rw [h0] at h9
      simp at h9
    simp only [Option.some.injEq] at h
    subst h
    have e : cascadeMatch message = FindStringSubmatch logPattern message := by
      simp [cascadeMatch, h1]
    rw [e]
    exact ⟨h1, rfl⟩

end PostgreSQL

theorem civil_congr {a b : Time} (h : a.sec + a.offset = b.sec + b.offset) :
    a.civil = b.civil := by
  unfold Time.civil
  rw [h]

namespace PostgreSQL

/-- The captured timestamp of a pattern is `YYYY-MM-DD`, white space, `HH:MM:SS`. -/
theorem pg_stamp_shape {r : Regex} {message : String}
    (hm : FindStringSubmatch r message ≠ [])
    (hsub : r.sub 1 = some (.seq (reDate ++ [.plus reSpace] ++ reClock)))
    (hn : 1 ≤ r.numSubexp) :
    ∃ (y1 y2 y3 y4 m1 m2 d1 d2 h1 h2 n1 n2 s1 s2 : Char) (ws : List Char),
      (FindStringSubmatch r message).getD 1 "" = String.mk (y1 :: y2 :: y3 :: y4 :: '-' :: m1
        :: m2 :: '-' :: d1 :: d2 :: (ws ++ [h1, h2, ':', n1, n2, ':', s1, s2]))
      ∧ ws ≠ [] ∧ (∀ a ∈ ws, reSpace a = true)
      ∧ reDigit y1 = true ∧ reDigit y2 = true ∧ reDigit y3 = true ∧ reDigit y4 = true
      ∧ reDigit m1 = true ∧ reDigit m2 = true ∧ reDigit d1 = true ∧ reDigit d2 = true
      ∧ reDigit h1 = true ∧ reDigit h2 = true ∧ reDigit n1 = true ∧ reDigit n2 = true
      ∧ reDigit s1 = true ∧ reDigit s2 = true := by
  obtain ⟨c, hc⟩ := findSub_pos (List.length_pos.mpr hm)
  obtain ⟨k, hl⟩ := search_group (i := 1) hc hsub (by decide)
  rw [findSub_getD hc hn]
  obtain ⟨w3, w4, e2, a2, a3⟩ := lang_seq_append.mp hl
  obtain ⟨w5, w6, e3, a4, a5⟩ := lang_seq_append.mp a2
  obtain ⟨y1, y2, y3, y4, m1, m2, d1, d2, e4, hy1, hy2, hy3, hy4, hm1, hm2, hd1, hd2⟩ :=
    lang_reDate a4
  obtain ⟨h1, h2, n1, n2, s1, s2, e5, hh1, hh2, hn1, hn2, hs1, hs2⟩ := lang_reClock a3
  have a6 : Lang (.cat (.plus reSpace) .empty) (k + w5.length) w6 := a5
  obtain ⟨w7, w8, e6, a7, a8⟩ := a6
  have e7 : w8 = [] := a8
  obtain ⟨b1, b2⟩ := lang_plus.mp a7
  refine ⟨y1, y2, y3, y4, m1, m2, d1, d2, h1, h2, n1, n2, s1, s2, w7, ?_, b1, b2, hy1, hy2,
    hy3, hy4, hm1, hm2, hd1, hd2, hh1, hh2, hn1, hn2, hs1, hs2⟩
  rw [e2, e3, e4, e5, e6, e7]
  simp

theorem pg_cascadeMatch_shape {message : String} (hm : cascadeMatch message ≠ []) :
    ∃ (y1 y2 y3 y4 m1 m2 d1 d2 h1 h2 n1 n2 s1 s2 : Char) (ws : List Char),
      (cascadeMatch message).getD 1 "" = String.mk (y1 :: y2 :: y3 :: y4 :: '-' :: m1
        :: m2 :: '-' :: d1 :: d2 :: (ws ++ [h1, h2, ':', n1, n2, ':', s1, s2]))
      ∧ ws ≠ [] ∧ (∀ a ∈ ws, reSpace a = true)
      ∧ reDigit y1 = true ∧ reDigit y2 = true ∧ reDigit y3 = true ∧ reDigit y4 = true
      ∧ reDigit m1 = true ∧ reDigit m2 = true ∧ reDigit d1 = true ∧ reDigit d2 = true
      ∧ reDigit h1 = true ∧ reDigit h2 = true ∧ reDigit n1 = true ∧ reDigit n2 = true
      ∧ reDigit s1 = true ∧ reDigit s2 = true := by
  unfold cascadeMatch at hm ⊢
  by_cases h1 : FindStringSubmatch logPattern message ≠ []
  · rw [if_pos h1]
    exact pg_stamp_shape h1 rfl (by decide)
  · rw [if_neg h1] at hm ⊢
    exact pg_stamp_shape hm rfl (by decide)

theorem dropWhile_spaces_append {ws tl : List Char} {h1 : Char} (hws : ∀ a ∈ ws, a = ' ')
    (hh1 : h1 ≠ ' ') :
    (ws ++ h1 :: tl).dropWhile (fun c => c = ' ') = h1 :: tl := by
  induction ws with
  | nil => simp [List.dropWhile, hh1]
  | cons x ws0 ih =>
    have hx : x = ' ' := hws x (List.mem_cons_self _ _)
    rw [List.cons_append]
    simp only [List.dropWhile, hx, decide_True]
    exact ih (fun a ha => hws a (List.mem_cons_of_mem _ ha))

/-- From 1951-09-08 15:00 UTC on, the zone `Asia/Tokyo` is nine hours east of UTC. -/
theorem asiaTokyo_offset {s : Int} (h : -577962000 ≤ s) : asiaTokyo.offsetAt s = 32400 := by
  unfold asiaTokyo
  simp only []
  rw [if_neg (by omega), if_neg (by omega), if_neg (by omega), if_neg (by omega),
    if_neg (by omega)]

/-- C13 (amended): when the captured timestamp of an event parses, the event's Timestamp is
the instant that the captured text denotes in UTC (formatted in UTC it shows the written date,
a space and the written time of day), expressed in the location loaded for `Asia/Tokyo`: its
offset is the one the location has at that instant, and its wall-clock reading is the UTC
reading of the instant that offset later. Whenever the location is nine hours east of UTC at
that instant, the offset is +09:00 and the reading is the captured reading plus nine hours;
the zone `Asia/Tokyo` of the zone database is so at every instant from 1951-09-08 15:00 UTC
on. Both paths are covered. -/
theorem timestamp_in_jst (now : Time) (jst : Location) (message : String)
    (ci : ConnectionInfo) (t : Time)
    (h : parseConnectionLog now jst message = some ci)
    (hp : Parse layoutDateTime ((cascadeMatch message).getD 1 "") = some t) :
    ci.Timestamp.sec = t.sec ∧ ci.Timestamp.nsec = t.nsec ∧ t.offset = 0
      ∧ t.Format layoutDateTime
          = String.mk (((cascadeMatch message).getD 1 "").data.take 10
              ++ ' ' :: (((cascadeMatch message).getD 1 "").data.drop 10).dropWhile
                (fun c => c = ' '))
      ∧ ci.Timestamp.offset = jst.offsetAt t.sec
      ∧ ci.Timestamp.civil
          = ({ sec := t.sec + jst.offsetAt t.sec, nsec := t.nsec, offset := 0 } : Time).civil
      ∧ (jst.offsetAt t.sec = 32400 →
          ci.Timestamp.offset = 32400
            ∧ ci.Timestamp.civil
                = ({ sec := t.sec + 9 * 3600, nsec := t.nsec, offset := 0 } : Time).civil)
      ∧ (-577962000 ≤ t.sec → asiaTokyo.offsetAt t.sec = 32400) := by
  obtain ⟨hm, hts⟩ := pg_event_timestamp h
  rw [hp] at hts
  obtain ⟨y1, y2, y3, y4, m1, m2, d1, d2, h1, h2, n1, n2, s1, s2, ws, e, hne, hws, hy1, hy2,
    hy3, hy4, hm1, hm2, hd1, hd2, hh1, hh2, hn1, hn2, hs1, hs2⟩ := pg_cascadeMatch_shape hm
  rw [e] at hp ⊢
  obtain ⟨hc, ho, hsp⟩ := parse_dateTime_civil hy1 hy2 hy3 hy4 hm1 hm2 hd1 hd2 hh1 hh2 hn1 hn2
    hs1 hs2 hne hws hp
  have e1 : ci.Timestamp = t.In jst := hts
  have e2 : ci.Timestamp.offset = jst.offsetAt t.sec := by rw [e1]; rfl
  refine ⟨by rw [e1]; rfl, by rw [e1]; rfl, ho, ?_, e2, ?_, ?_, asiaTokyo_offset⟩
  · rw [format_fieldsOf hy1 hy2 hy3 hy4 hm1 hm2 hd1 hd2 hh1 hh2 hn1 hn2 hs1 hs2 hc]
    simp [dropWhile_spaces_append hsp (ne_space_of_reDigit hh1)]
  · apply civil_congr
    rw [e1]
    show t.sec + jst.offsetAt t.sec = t.sec + jst.offsetAt t.sec + 0
    omega
  · intro hjst
    refine ⟨e2.trans hjst, ?_⟩
    apply civil_congr
    rw [e1]
    show t.sec + jst.offsetAt t.sec = t.sec + 9 * 3600 + 0
    rw [hjst]
    omega

/-- C13, witness: in the zone `Asia/Tokyo`, the captured `2025-08-31 06:31:53` of the scenario
line gives the reading `2025-08-31 15:31:53` at offset +09:00, and the fallback line of the
test gives `2024-01-01 21:00:00`. -/
theorem timestamp_in_jst_witness :
    (∃ ci t, parseConnectionLog epoch asiaTokyo scenarioLine = some ci
      ∧ Parse layoutDateTime ((cascadeMatch scenarioLine).getD 1 "") = some t
      ∧ asiaTokyo.offsetAt t.sec = 32400
      ∧ t.Format layoutDateTime = "2025-08-31 06:31:53"
      ∧ ci.Timestamp.sec = t.sec ∧ ci.Timestamp.offset = 32400
      ∧ ci.Timestamp.civil
          = ({ sec := t.sec + 9 * 3600, nsec := t.nsec, offset := 0 } : Time).civil
      ∧ ci.Timestamp.Format layoutDateTime = "2025-08-31 15:31:53")
    ∧ (∃ ci t, parseConnectionLog epoch asiaTokyo fallbackLine = some ci
      ∧ Parse layoutDateTime ((cascadeMatch fallbackLine).getD 1 "") = some t
      ∧ asiaTokyo.offsetAt t.sec = 32400
      ∧ t.Format layoutDateTime = "2024-01-01 12:00:00"
      ∧ ci.Timestamp.sec = t.sec ∧ ci.Timestamp.offset = 32400
      ∧ ci.Timestamp.civil
          = ({ sec := t.sec + 9 * 3600, nsec := t.nsec, offset := 0 } : Time).civil
      ∧ ci.Timestamp.Format layoutDateTime = "2024-01-01 21:00:00") := by
  constructor
  · have h1 : (parseConnectionLog epoch asiaTokyo scenarioLine).isSome = true := by decide
    have h2 : (Parse layoutDateTime ((cascadeMatch scenarioLine).getD 1 "")).isSome = true := by
      decide
    obtain ⟨ci, hci⟩ := Option.isSome_iff_exists.mp h1
    obtain ⟨t, ht⟩ := Option.isSome_iff_exists.mp h2
    obtain ⟨a1, _, _, a4, a5, _, a7, _⟩ :=
      timestamp_in_jst epoch asiaTokyo scenarioLine ci t hci ht
    have e0 : (Parse layoutDateTime ((cascadeMatch scenarioLine).getD 1 "")).map
        (fun x => asiaTokyo.offsetAt x.sec) = some 32400 := by decide
    have e3 : asiaTokyo.offsetAt t.sec = 32400 := by
      rw [ht] at e0
      exact Option.some.inj e0
    have e1 : String.mk (((cascadeMatch scenarioLine).getD 1 "").data.take 10
        ++ ' ' :: (((cascadeMatch scenarioLine).getD 1 "").data.drop 10).dropWhile
          (fun c => c = ' ')) = "2025-08-31 06:31:53" := by decide
    have e2 : (parseConnectionLog epoch asiaTokyo scenarioLine).map
        (fun x => x.Timestamp.Format layoutDateTime) = some "2025-08-31 15:31:53" := by decide
    exact ⟨ci, t, hci, ht, e3, a4.trans e1, a1, (a7 e3).1, (a7 e3).2, field_of_map e2 hci⟩
  · have h1 : (parseConnectionLog epoch asiaTokyo fallbackLine).isSome = true := by decide
    have h2 : (Parse layoutDateTime ((cascadeMatch fallbackLine).getD 1 "")).isSome = true := by
      decide
    obtain ⟨ci, hci⟩ := Option.isSome_iff_exists.mp h1
    obtain ⟨t, ht⟩ := Option.isSome_iff_exists.mp h2
    obtain ⟨a1, _, _, a4, a5, _, a7, _⟩ :=
      timestamp_in_jst epoch asiaTokyo fallbackLine ci t hci ht
    have e0 : (Parse layoutDateTime ((cascadeMatch fallbackLine).getD 1 "")).map
        (fun x => asiaTokyo.offsetAt x.sec) = some 32400 := by decide
    have e3 : asiaTokyo.offsetAt t.sec = 32400 := by
      rw [ht] at e0
      exact Option.some.inj e0
    have e1 : String.mk (((cascadeMatch fallbackLine).getD 1 "").data.take 10
        ++ ' ' :: (((cascadeMatch fallbackLine).getD 1 "").data.drop 10).dropWhile
          (fun c => c = ' ')) = "2024-01-01 12:00:00" := by decide
    have e2 : (parseConnectionLog epoch asiaTokyo fallbackLine).map
        (fun x => x.Timestamp.Format layoutDateTime) = some "2024-01-01 21:00:00" := by decide
    exact ⟨ci, t, hci, ht, e3, a4.trans e1, a1, (a7 e3).1, (a7 e3).2, field_of_map e2 hci⟩

/-- C13, counterexample: the structured line dated `1950-07-01 06:31:53` has a valid captured
date-time, yet in the zone `Asia/Tokyo`, which was on summer time at that instant, the event's
Timestamp is at offset +10:00 and reads `1950-07-01 16:31:53`; the captured reading plus nine
hours is `1950-07-01 15:31:53`. -/
theorem summer_time_counterexample :
    (Parse layoutDateTime ((cascadeMatch summerLine).getD 1 "")).map
        (fun t => (t.sec, t.Format layoutDateTime))
      = some (-615490087, "1950-07-01 06:31:53")
    ∧ (parseConnectionLog epoch asiaTokyo summerLine).map
        (fun ci => (ci.Timestamp.sec, ci.Timestamp.offset,
          ci.Timestamp.Format layoutDateTime))
      = some (-615490087, 36000, "1950-07-01 16:31:53")
    ∧ ({ sec := -615490087 + 9 * 3600, nsec := 0, offset := 0 } : Time).Format layoutDateTime
      = "1950-07-01 15:31:53" :=
  ⟨by decide, by decide, by decide⟩

end PostgreSQL

namespace MySQL

/-- C15, witness: `2025-09-07T06:41:11.701820Z` gives `2025-09-07 06:41:11` and
`2025-09-07T06:40:32.160890Z` gives `2025-09-07 06:40:32`. -/
theorem timestamp_as_written_witness :
    (∃ ci t, parseConnectionLog epoch withDbLine = some ci
      ∧ Parse layoutMicroZ ((cascadeMatch withDbLine).getD 1 "") = some t
      ∧ ci.Timestamp = t ∧ ci.Timestamp.Format layoutDateTime = "2025-09-07 06:41:11")
    ∧ (∃ ci t, parseConnectionLog epoch withoutDbLine = some ci
      ∧ Parse layoutMicroZ ((cascadeMatch withoutDbLine).getD 1 "") = some t
      ∧ ci.Timestamp = t ∧ ci.Timestamp.Format layoutDateTime = "2025-09-07 06:40:32") := by
  constructor
  · have h1 : (parseConnectionLog epoch withDbLine).isSome = true := by decide
    have h2 : (Parse layoutMicroZ ((cascadeMatch withDbLine).getD 1 "")).isSome = true := by
      decide
    obtain ⟨ci, hci⟩ := Option.isSome_iff_exists.mp h1
    obtain ⟨t, ht⟩ := Option.isSome_iff_exists.mp h2
    obtain ⟨a1, _, a3⟩ := timestamp_as_written epoch withDbLine ci t hci ht
    have e1 : String.mk (((cascadeMatch withDbLine).getD 1 "").data.take 10
        ++ ' ' :: (((cascadeMatch withDbLine).getD 1 "").data.drop 11).take 8)
        = "2025-09-07 06:41:11" := by decide
    exact ⟨ci, t, hci, ht, a1, a3.trans e1⟩
  · have h1 : (parseConnectionLog epoch withoutDbLine).isSome = true := by decide
    have h2 : (Parse layoutMicroZ ((cascadeMatch withoutDbLine).getD 1 "")).isSome = true := by
      decide
    obtain ⟨ci, hci⟩ := Option.isSome_iff_exists.mp h1
    obtain ⟨t, ht⟩ := Option.isSome_iff_exists.mp h2
    obtain ⟨a1, _, a3⟩ := timestamp_as_written epoch withoutDbLine ci t hci ht
    have e1 : String.mk (((cascadeMatch withoutDbLine).getD 1 "").data.take 10
        ++ ' ' :: (((cascadeMatch withoutDbLine).getD 1 "").data.drop 11).take 8)
        = "2025-09-07 06:40:32" := by decide
    exact ⟨ci, t, hci, ht, a1, a3.trans e1⟩

end MySQL

/-! ### The notification -/

/-- The layout with the literal letters `JST` renders the date and time and appends them. -/
theorem format_JST (t : Time) :
    t.Format layoutDateTimeJST = String.mk ((t.Format layoutDateTime).data ++ " JST".data) := by
  simp [Time.Format, layoutDateTimeJST, List.flatMap_append, formatStd]

namespace MySQL

/-- The connection-time field of the notification for an event whose captured timestamp
parses: the captured date and time of day, followed by the letters `JST`. -/
theorem my_time_field {now : Time} {message : String} {ci : ConnectionInfo} {t : Time}
    (h : parseConnectionLog now message = some ci)
    (hp : Parse layoutMicroZ ((cascadeMatch message).getD 1 "") = some t) :
    ci.Timestamp.offset = 0
      ∧ ci.Timestamp.Format layoutDateTimeJST
          = String.mk (((cascadeMatch message).getD 1 "").data.take 10
              ++ ' ' :: ((((cascadeMatch message).getD 1 "").data.drop 11).take 8
                ++ " JST".data)) := by
  obtain ⟨hsys, hm⟩ := cascadeMatch_ne_of_event h
  rw [my_parse_eq now hsys hm, hp] at h
  cases h
  obtain ⟨y1, y2, y3, y4, m1, m2, d1, d2, h1, h2, n1, n2, s1, s2, rest, e, hy1, hy2, hy3, hy4,
    hm1, hm2, hd1, hd2, hh1, hh2, hn1, hn2, hs1, hs2⟩ := cascadeMatch_shape hm
  rw [e] at hp ⊢
  obtain ⟨hc, ho⟩ := parse_microZ_civil hy1 hy2 hy3 hy4 hm1 hm2 hd1 hd2 hh1 hh2 hn1 hn2 hs1 hs2
    hp
  refine ⟨ho, ?_⟩
  rw [format_JST, format_fieldsOf hy1 hy2 hy3 hy4 hm1 hm2 hd1 hd2 hh1 hh2 hn1 hn2 hs1 hs2 hc]
  simp

/-- C14: for every line with an event whose captured UTC timestamp parses, the Timestamp keeps
the offset zero, and the connection-time field of the notification, the fifth field of its
attachment, is the captured date and the captured time of day as written, followed by the
letters `JST`: the reading is the UTC one, not the UTC reading plus nine hours. -/
theorem notification_time_unshifted (now : Time) (message : String) (ci : ConnectionInfo)
    (t : Time) (clusterID : String)
    (h : parseConnectionLog now message = some ci)
    (hp : Parse layoutMicroZ ((cascadeMatch message).getD 1 "") = some t) :
    ci.Timestamp.offset = 0
      ∧ (slackMessage ci clusterID).Attachments.map (fun a => a.Fields.drop 4)
          = [[{ Title := "接続時刻"
                Value := String.mk (((cascadeMatch message).getD 1 "").data.take 10
                  ++ ' ' :: ((((cascadeMatch message).getD 1 "").data.drop 11).take 8
                    ++ " JST".data))
                Short := false }]] := by
  obtain ⟨ho, hf⟩ := my_time_field h hp
  refine ⟨ho, ?_⟩
  simp [slackMessage, hf]

/-- C14, witness: the line of 06:41:11 UTC is announced as `2025-09-07 06:41:11 JST`, while
that instant read at UTC+9 is `2025-09-07 15:41:11`. -/
theorem notification_time_unshifted_witness :
    ∃ ci t, parseConnectionLog epoch withDbLine = some ci
      ∧ Parse layoutMicroZ ((cascadeMatch withDbLine).getD 1 "") = some t
      ∧ ci.Timestamp.offset = 0
      ∧ (slackMessage ci "cluster-1").Attachments.map (fun a => a.Fields.drop 4)
          = [[{ Title := "接続時刻", Value := "2025-09-07 06:41:11 JST", Short := false }]]
      ∧ (ci.Timestamp.In fixedJST).Format layoutDateTimeJST = "2025-09-07 15:41:11 JST" := by
  have h1 : (parseConnectionLog epoch withDbLine).isSome = true := by decide
  have h2 : (Parse layoutMicroZ ((cascadeMatch withDbLine).getD 1 "")).isSome = true := by
    decide
  obtain ⟨ci, hci⟩ := Option.isSome_iff_exists.mp h1
  obtain ⟨t, ht⟩ := Option.isSome_iff_exists.mp h2
  obtain ⟨a1, a2⟩ := notification_time_unshifted epoch withDbLine ci t "cluster-1" hci ht
  have e1 : String.mk (((cascadeMatch withDbLine).getD 1 "").data.take 10
      ++ ' ' :: ((((cascadeMatch withDbLine).getD 1 "").data.drop 11).take 8 ++ " JST".data))
      = "2025-09-07 06:41:11 JST" := by decide
  have e2 : (parseConnectionLog epoch withDbLine).map
      (fun x => (x.Timestamp.In fixedJST).Format layoutDateTimeJST)
      = some "2025-09-07 15:41:11 JST" := by decide
  rw [e1] at a2
  exact ⟨ci, t, hci, ht, a1, a2, field_of_map e2 hci⟩

end MySQL

namespace PostgreSQL

/-- With a webhook URL, `sendSlackNotification` hands `slackMessage`, with the cluster
identifier of the environment or its default, to the encoder, posts the encoded body once to
the URL, and returns the error that belongs to the outcome. -/
theorem pg_send_configured {σ : Type} (rt : Runtime σ) (connInfo : ConnectionInfo) (w : σ)
    {webhookURL clusterID : String}
    (hurl : rt.getenv "SLACK_WEBHOOK_URL" = webhookURL) (hne : webhookURL ≠ "")
    (hcid : clusterID = if rt.getenv "AURORA_CLUSTER_ID" = "" then "不明"
      else rt.getenv "AURORA_CLUSTER_ID") :
    (rt.marshal (slackMessage connInfo clusterID) = none →
        sendSlackNotification rt connInfo w = (some .encode, w))
      ∧ (∀ body w1, rt.marshal (slackMessage connInfo clusterID) = some body →
          rt.post webhookURL body w = (.failed, w1) →
          sendSlackNotification rt connInfo w = (some .post, w1))
      ∧ (∀ body statusCode w1, rt.marshal (slackMessage connInfo clusterID) = some body →
          rt.post webhookURL body w = (.response statusCode, w1) →
          sendSlackNotification rt connInfo w
            = (if statusCode ≠ 200 then some (.status statusCode) else none, w1)) := by
  subst hurl hcid
  refine ⟨?_, ?_, ?_⟩
  · intro h1
    simp only [sendSlackNotification, if_neg hne, h1]
  · intro body w1 h1 h2
    simp only [sendSlackNotification, if_neg hne, h1, h2]
  · intro body statusCode w1 h1 h2
    simp only [sendSlackNotification, if_neg hne, h1, h2]
    split <;> rfl

end PostgreSQL

namespace MySQL

/-- With a webhook URL, `sendSlackNotification` hands `slackMessage`, with the cluster
identifier of the environment or its default, to the encoder, posts the encoded body once to
the URL, and returns the error that belongs to the outcome. -/
theorem my_send_configured {σ : Type} (rt : Runtime σ) (connInfo : ConnectionInfo) (w : σ)
    {webhookURL clusterID : String}
    (hurl : rt.getenv "SLACK_WEBHOOK_URL" = webhookURL) (hne : webhookURL ≠ "")
    (hcid : clusterID = if rt.getenv "AURORA_CLUSTER_ID" = "" then "不明"
      else rt.getenv "AURORA_CLUSTER_ID") :
    (rt.marshal (slackMessage connInfo clusterID) = none →
        sendSlackNotification rt connInfo w = (some .encode, w))
      ∧ (∀ body w1, rt.marshal (slackMessage connInfo clusterID) = some body →
          rt.post webhookURL body w = (.failed, w1) →
          sendSlackNotification rt connInfo w = (some .post, w1))
      ∧ (∀ body statusCode w1, rt.marshal (slackMessage connInfo clusterID) = some body →
          rt.post webhookURL body w = (.response statusCode, w1) →
          sendSlackNotification rt connInfo w
            = (if statusCode ≠ 200 then some (.status statusCode) else none, w1)) := by
  subst hurl hcid
  refine ⟨?_, ?_, ?_⟩
  · intro h1
    simp only [sendSlackNotification, if_neg hne, h1]
  · intro body w1 h1 h2
    simp only [sendSlackNotification, if_neg hne, h1, h2]
  · intro body statusCode w1 h1 h2
    simp only [sendSlackNotification, if_neg hne, h1, h2]
    split <;> rfl

end MySQL

/-- C17: in both programs, for every event, every outside world with a webhook URL and every
cluster identifier (the value of `AURORA_CLUSTER_ID`, or `不明` when it is empty), there is
one message that `sendSlackNotification` builds: it is the message the send gives to the
encoder, whose encoding it posts once to the URL, the result of the send being the error of
the encoder or of the request, or nil on status 200. That message has exactly one attachment;
its fields are exactly five, in the order user name, database name, client IP, cluster ID,
connection time, with the values UserName, DatabaseName, ClientIP, the cluster identifier and
the Timestamp rendered by the layout `2006-01-02 15:04:05 JST`, that is its date and time
followed by the letters `JST`; the first four are short and the last is not; and the
attachment's `ts` is the Timestamp's Unix seconds. Building it has no failure case. -/
theorem notification_layout {σ : Type} (rt : Runtime σ) (connInfo : ConnectionInfo) (w : σ)
    (webhookURL clusterID : String)
    (hurl : rt.getenv "SLACK_WEBHOOK_URL" = webhookURL) (hne : webhookURL ≠ "")
    (hcid : clusterID = if rt.getenv "AURORA_CLUSTER_ID" = "" then "不明"
      else rt.getenv "AURORA_CLUSTER_ID") :
    (∃ message : SlackMessage,
      message.Attachments.map (fun a => (a.Fields, a.Timestamp))
        = [([{ Title := "ユーザー名", Value := connInfo.UserName, Short := true },
             { Title := "データベース名", Value := connInfo.DatabaseName, Short := true },
             { Title := "クライアントIP", Value := connInfo.ClientIP, Short := true },
             { Title := "クラスターID", Value := clusterID, Short := true },
             { Title := "接続時刻"
               Value :=
                 String.mk ((connInfo.Timestamp.Format layoutDateTime).data ++ " JST".data)
               Short := false }],
            connInfo.Timestamp.Unix)]
      ∧ (rt.marshal message = none →
          PostgreSQL.sendSlackNotification rt connInfo w = (some .encode, w))
      ∧ (∀ body w1, rt.marshal message = some body →
          rt.post webhookURL body w = (.failed, w1) →
          PostgreSQL.sendSlackNotification rt connInfo w = (some .post, w1))
      ∧ (∀ body statusCode w1, rt.marshal message = some body →
          rt.post webhookURL body w = (.response statusCode, w1) →
          PostgreSQL.sendSlackNotification rt connInfo w
            = (if statusCode ≠ 200 then some (.status statusCode) else none, w1))
      ∧ message = PostgreSQL.slackMessage connInfo clusterID)
    ∧ (∃ message : SlackMessage,
      message.Attachments.map (fun a => (a.Fields, a.Timestamp))
        = [([{ Title := "ユーザー名", Value := connInfo.UserName, Short := true },
             { Title := "データベース名", Value := connInfo.DatabaseName, Short := true },
             { Title := "クライアントIP", Value := connInfo.ClientIP, Short := true },
             { Title := "クラスターID", Value := clusterID, Short := true },
             { Title := "接続時刻"
               Value :=
                 String.mk ((connInfo.Timestamp.Format layoutDateTime).data ++ " JST".data)
               Short := false }],
            connInfo.Timestamp.Unix)]
      ∧ (rt.marshal message = none →
          MySQL.sendSlackNotification rt connInfo w = (some .encode, w))
      ∧ (∀ body w1, rt.marshal message = some body →
          rt.post webhookURL body w = (.failed, w1) →
          MySQL.sendSlackNotification rt connInfo w = (some .post, w1))
      ∧ (∀ body statusCode w1, rt.marshal message = some body →
          rt.post webhookURL body w = (.response statusCode, w1) →
          MySQL.sendSlackNotification rt connInfo w
            = (if statusCode ≠ 200 then some (.status statusCode) else none, w1))
      ∧ message = MySQL.slackMessage connInfo clusterID) := by
  constructor
  · obtain ⟨h1, h2, h3⟩ := PostgreSQL.pg_send_configured rt connInfo w hurl hne hcid
    exact ⟨_, by simp [PostgreSQL.slackMessage, format_JST], h1, h2, h3, rfl⟩
  · obtain ⟨h1, h2, h3⟩ := MySQL.my_send_configured rt connInfo w hurl hne hcid
    exact ⟨_, by simp [MySQL.slackMessage, format_JST], h1, h2, h3, rfl⟩

/-- C17, witness: in the sample outside world the event of test28 on appdb is announced with
the fields test28, appdb, 10.0.139.222, cluster-1 and `2025-09-07 06:41:11 JST` and the `ts`
1757227271, and both sends return nil after one request. -/
theorem notification_layout_witness :
    sampleRuntime.getenv "SLACK_WEBHOOK_URL" = "https://hooks.example/T"
      ∧ "https://hooks.example/T" ≠ ""
      ∧ sampleRuntime.getenv "AURORA_CLUSTER_ID" = "cluster-1"
      ∧ String.mk ((sampleEvent.Timestamp.Format layoutDateTime).data ++ " JST".data)
          = "2025-09-07 06:41:11 JST"
      ∧ sampleEvent.Timestamp.Unix = 1757227271
      ∧ (∃ message : SlackMessage,
          message.Attachments.map (fun a => (a.Fields, a.Timestamp))
            = [([{ Title := "ユーザー名", Value := "test28", Short := true },
                 { Title := "データベース名", Value := "appdb", Short := true },
                 { Title := "クライアントIP", Value := "10.0.139.222", Short := true },
                 { Title := "クラスターID", Value := "cluster-1", Short := true },
                 { Title := "接続時刻"
                   Value := String.mk
                     ((sampleEvent.Timestamp.Format layoutDateTime).data ++ " JST".data)
                   Short := false }],
                sampleEvent.Timestamp.Unix)]
          ∧ message = PostgreSQL.slackMessage sampleEvent "cluster-1"
          ∧ PostgreSQL.sendSlackNotification sampleRuntime sampleEvent 0 = (none, 1))
      ∧ (∃ message : SlackMessage,
          message.Attachments.map (fun a => (a.Fields, a.Timestamp))
            = [([{ Title := "ユーザー名", Value := "test28", Short := true },
                 { Title := "データベース名", Value := "appdb", Short := true },
                 { Title := "クライアントIP", Value := "10.0.139.222", Short := true },
                 { Title := "クラスターID", Value := "cluster-1", Short := true },
                 { Title := "接続時刻"
                   Value := String.mk
                     ((sampleEvent.Timestamp.Format layoutDateTime).data ++ " JST".data)
                   Short := false }],
                sampleEvent.Timestamp.Unix)]
          ∧ message = MySQL.slackMessage sampleEvent "cluster-1"
          ∧ MySQL.sendSlackNotification sampleRuntime sampleEvent 0 = (none, 1)) := by
  obtain ⟨⟨m1, a1, _, _, a4, a5⟩, ⟨m2, b1, _, _, b4, b5⟩⟩ :=
    notification_layout sampleRuntime sampleEvent 0 "https://hooks.example/T" "cluster-1"
      rfl (by decide) rfl
  refine ⟨rfl, by decide, rfl, by decide, by decide, ⟨m1, a1, a5, ?_⟩, ⟨m2, b1, b5, ?_⟩⟩
  · exact a4 "" 200 1 rfl rfl
  · exact b4 "" 200 1 rfl rfl

/-! ### The loop of `handler` -/

/-- The sends of the loop, for an extractor that records its line in the event and whose
nil or non-nil result does not depend on the clock: the lines sent are the lines with a
non-nil extraction, in input order, whatever the sends return; every send is of the
extraction of its line and carries what the send returned. -/
theorem forEachLogEvent_spec {σ : Type} (parse : Time → String → Option ConnectionInfo)
    (send : ConnectionInfo → σ → Option SendError × σ) (now : σ → Time)
    (hmsg : ∀ t m ci, parse t m = some ci → ci.LogMessage = m)
    (hclk : ∀ t t1 m, (parse t m).isSome = (parse t1 m).isSome) (clock : Time)
    (logEvents : List String) (w : σ) :
    (forEachLogEvent parse send now logEvents w).1.map (fun a => a.connInfo.LogMessage)
        = logEvents.filter (fun m => (parse clock m).isSome)
      ∧ ∀ a ∈ (forEachLogEvent parse send now logEvents w).1,
          ∃ w1, parse (now w1) a.connInfo.LogMessage = some a.connInfo
            ∧ a.err = (send a.connInfo w1).1 := by
  induction logEvents generalizing w with
  | nil => simp [forEachLogEvent]
  | cons m rest ih =>
    cases hp : parse (now w) m with
    | none =>
      have hc : (parse clock m).isSome = false := by rw [hclk clock (now w) m, hp]; rfl
      simp only [forEachLogEvent, hp, List.filter_cons, hc]
      exact ih w
    | some ci =>
      have hc : (parse clock m).isSome = true := by rw [hclk clock (now w) m, hp]; rfl
      have hl := hmsg _ _ _ hp
      obtain ⟨ih1, ih2⟩ := ih (send ci w).2
      simp only [forEachLogEvent, hp, List.filter_cons, hc, List.map_cons, if_true, hl, ih1,
        List.mem_cons, true_and]
      rintro a (rfl | ha)
      · exact ⟨w, by rw [hl]; exact hp, rfl⟩
      · exact ih2 a ha

/-- The loop makes exactly the sends it records: its result, the recorded sends with the
outside world it leaves, is that of one send for each recorded event, in order, each from
the world the send before it left. -/
theorem forEachLogEvent_sendEach {σ : Type} (parse : Time → String → Option ConnectionInfo)
    (send : ConnectionInfo → σ → Option SendError × σ) (now : σ → Time)
    (logEvents : List String) (w : σ) :
    forEachLogEvent parse send now logEvents w
      = sendEach send ((forEachLogEvent parse send now logEvents w).1.map
          (fun a => a.connInfo)) w := by
  induction logEvents generalizing w with
  | nil => rfl
  | cons m rest ih =>
    cases hp : parse (now w) m with
    | none =>
      simp only [forEachLogEvent, hp]
      exact ih w
    | some ci =>
      simp only [forEachLogEvent, hp, List.map_cons, sendEach]
      rw [← ih (send ci w).2]

/-- The sends that returned nil are all the sends but those that returned an error. -/
theorem delivered_count (attempts : List Attempt) :
    (attempts.filter (fun a => a.err.isNone)).length
      = attempts.length - (attempts.filter (fun a => a.err.isSome)).length := by
  induction attempts with
  | nil => rfl
  | cons a rest ih =>
    have hle := List.length_filter_le (fun a : Attempt => a.err.isSome) rest
    cases h : a.err with
    | none => simp [List.filter_cons, h, ih]; omega
    | some e => simp [List.filter_cons, h, ih]

/-- Without webhook URL every send of the loop returns the configuration error and leaves
the outside world as it was. -/
theorem forEachLogEvent_const {σ : Type} (parse : Time → String → Option ConnectionInfo)
    (send : ConnectionInfo → σ → Option SendError × σ) (now : σ → Time) (e : SendError)
    (hsend : ∀ ci w, send ci w = (some e, w)) (logEvents : List String) (w : σ) :
    (forEachLogEvent parse send now logEvents w).2 = w
      ∧ ∀ a ∈ (forEachLogEvent parse send now logEvents w).1, a.err = some e := by
  induction logEvents with
  | nil => simp [forEachLogEvent]
  | cons m rest ih =>
    cases hp : parse (now w) m with
    | none => simpa [forEachLogEvent, hp] using ih
    | some ci => simpa [forEachLogEvent, hp, hsend] using ih

namespace MySQL

theorem my_logMessage {now : Time} {message : String} {ci : ConnectionInfo}
    (h : parseConnectionLog now message = some ci) : ci.LogMessage = message := by
  obtain ⟨hsys, hm⟩ := cascadeMatch_ne_of_event h
  rw [my_parse_eq now hsys hm] at h
  cases h
  rfl

theorem my_isSome_clock (now now1 : Time) (message : String) :
    (parseConnectionLog now message).isSome = (parseConnectionLog now1 message).isSome := by
  cases h : parseConnectionLog now message with
  | none =>
    cases h1 : parseConnectionLog now1 message with
    | none => rfl
    | some ci =>
      obtain ⟨hsys, hm⟩ := cascadeMatch_ne_of_event h1
      rw [my_parse_eq now hsys hm] at h
      cases h
  | some ci =>
    obtain ⟨hsys, hm⟩ := cascadeMatch_ne_of_event h
    rw [my_parse_eq now1 hsys hm]
    rfl

theorem my_send_unconfigured {σ : Type} (rt : Runtime σ)
    (h : rt.getenv "SLACK_WEBHOOK_URL" = "") (ci : ConnectionInfo) (w : σ) :
    sendSlackNotification rt ci w = (some .missingWebhook, w) := by
  simp [sendSlackNotification, h]

end MySQL

namespace PostgreSQL

theorem pg_logMessage {now : Time} {jst : Location} {message : String} {ci : ConnectionInfo}
    (h : parseConnectionLog now jst message = some ci) : ci.LogMessage = message := by
  unfold parseConnectionLog at h
  split at h
  · cases h
  split at h
  · cases h
  simp only [] at h
  split at h
  · split at h
    · cases h
      rfl
    · cases h
  · cases h
    rfl

theorem pg_isSome_clock (now now1 : Time) (jst : Location) (message : String) :
    (parseConnectionLog now jst message).isSome
      = (parseConnectionLog now1 jst message).isSome := by
  unfold parseConnectionLog
  split
  · rfl
  split
  · rfl
  simp only []
  split
  · split
    · rfl
    · rfl
  · rfl

theorem pg_send_unconfigured {σ : Type} (rt : Runtime σ)
    (h : rt.getenv "SLACK_WEBHOOK_URL" = "") (ci : ConnectionInfo) (w : σ) :
    sendSlackNotification rt ci w = (some .missingWebhook, w) := by
  simp [sendSlackNotification, h]

end PostgreSQL

/-- A batch of five lines in an outside world whose second request fails: the query line and
the system-account line are not sent, the three other lines are sent in order, the failure of
the second send does not stop the third, and the result is nil. -/
theorem batch_sample :
    (MySQL.handler sampleRuntime (.ok [MySQL.withDbLine, MySQL.queryLine, MySQL.withoutDbLine,
        MySQL.rdsadminLine, MySQL.withDbLine]) 0).1 = none
      ∧ (MySQL.handler sampleRuntime (.ok [MySQL.withDbLine, MySQL.queryLine,
          MySQL.withoutDbLine, MySQL.rdsadminLine, MySQL.withDbLine]) 0).2.1.map
            (fun a => (a.connInfo.LogMessage, a.err))
          = [(MySQL.withDbLine, none), (MySQL.withoutDbLine, some .post),
             (MySQL.withDbLine, none)]
      ∧ (MySQL.handler sampleRuntime (.ok [MySQL.withDbLine, MySQL.queryLine,
          MySQL.withoutDbLine, MySQL.rdsadminLine, MySQL.withDbLine]) 0).2.2 = 3 := by
  refine ⟨rfl, ?_, ?_⟩ <;> decide

/-- C18: in both programs, for every batch that decodes and whatever the sends return,
`handler` returns nil; the lines it sends are exactly the lines whose extraction is non-nil,
each once and in input order, so no line with a nil extraction is sent and no failure stops
the later sends; the sends it records and the outside world it leaves are those of exactly
one `sendSlackNotification` for each of these events, in order, each from the world the send
before it left; every send is of the extraction of its line; and the number of sends that
returned nil is the number of matched lines minus the number of sends that returned an
error. -/
theorem batch_semantics {σ : Type} (rt : Runtime σ) (jst : Location) (clock : Time)
    (logEvents : List String) (w : σ) :
    ((PostgreSQL.handler rt jst (.ok logEvents) w).1 = none
      ∧ (PostgreSQL.handler rt jst (.ok logEvents) w).2.1.map (fun a => a.connInfo.LogMessage)
          = logEvents.filter (fun m => (PostgreSQL.parseConnectionLog clock jst m).isSome)
      ∧ (PostgreSQL.handler rt jst (.ok logEvents) w).2
          = sendEach (PostgreSQL.sendSlackNotification rt)
              ((PostgreSQL.handler rt jst (.ok logEvents) w).2.1.map (fun a => a.connInfo)) w
      ∧ (∀ a ∈ (PostgreSQL.handler rt jst (.ok logEvents) w).2.1,
          ∃ w1, PostgreSQL.parseConnectionLog (rt.now w1) jst a.connInfo.LogMessage
                = some a.connInfo
            ∧ a.err = (PostgreSQL.sendSlackNotification rt a.connInfo w1).1)
      ∧ ((PostgreSQL.handler rt jst (.ok logEvents) w).2.1.filter
            (fun a => a.err.isNone)).length
          = (logEvents.filter
              (fun m => (PostgreSQL.parseConnectionLog clock jst m).isSome)).length
            - ((PostgreSQL.handler rt jst (.ok logEvents) w).2.1.filter
                (fun a => a.err.isSome)).length)
    ∧ ((MySQL.handler rt (.ok logEvents) w).1 = none
      ∧ (MySQL.handler rt (.ok logEvents) w).2.1.map (fun a => a.connInfo.LogMessage)
          = logEvents.filter (fun m => (MySQL.parseConnectionLog clock m).isSome)
      ∧ (MySQL.handler rt (.ok logEvents) w).2
          = sendEach (MySQL.sendSlackNotification rt)
              ((MySQL.handler rt (.ok logEvents) w).2.1.map (fun a => a.connInfo)) w
      ∧ (∀ a ∈ (MySQL.handler rt (.ok logEvents) w).2.1,
          ∃ w1, MySQL.parseConnectionLog (rt.now w1) a.connInfo.LogMessage = some a.connInfo
            ∧ a.err = (MySQL.sendSlackNotification rt a.connInfo w1).1)
      ∧ ((MySQL.handler rt (.ok logEvents) w).2.1.filter (fun a => a.err.isNone)).length
          = (logEvents.filter (fun m => (MySQL.parseConnectionLog clock m).isSome)).length
            - ((MySQL.handler rt (.ok logEvents) w).2.1.filter
                (fun a => a.err.isSome)).length) := by
  constructor
  · obtain ⟨h1, h2⟩ := forEachLogEvent_spec
      (fun now message => PostgreSQL.parseConnectionLog now jst message)
      (PostgreSQL.sendSlackNotification rt) rt.now
      (fun _ _ _ h => PostgreSQL.pg_logMessage h)
      (fun t t1 m => PostgreSQL.pg_isSome_clock t t1 jst m) clock logEvents w
    refine ⟨rfl, h1, ?_, h2, ?_⟩
    · exact forEachLogEvent_sendEach
        (fun now message => PostgreSQL.parseConnectionLog now jst message)
        (PostgreSQL.sendSlackNotification rt) rt.now logEvents w
    · rw [delivered_count, ← h1, List.length_map]
      rfl
  · obtain ⟨h1, h2⟩ := forEachLogEvent_spec
      (fun now message => MySQL.parseConnectionLog now message)
      (MySQL.sendSlackNotification rt) rt.now
      (fun _ _ _ h => MySQL.my_logMessage h)
      (fun t t1 m => MySQL.my_isSome_clock t t1 m) clock logEvents w
    refine ⟨rfl, h1, ?_, h2, ?_⟩
    · exact forEachLogEvent_sendEach
        (fun now message => MySQL.parseConnectionLog now message)
        (MySQL.sendSlackNotification rt) rt.now logEvents w
    · rw [delivered_count, ← h1, List.length_map]
      rfl

/-- C19, counterexample: with an empty environment, on a batch of two lines that both have
an event, `handler` sends twice, makes no request, and returns nil. -/
theorem missing_webhook_counterexample :
    bareRuntime.getenv "SLACK_WEBHOOK_URL" = ""
      ∧ (MySQL.parseConnectionLog epoch MySQL.withDbLine).isSome = true
      ∧ (MySQL.parseConnectionLog epoch MySQL.withoutDbLine).isSome = true
      ∧ (MySQL.handler bareRuntime (.ok [MySQL.withDbLine, MySQL.withoutDbLine]) 0).1 = none
      ∧ (MySQL.handler bareRuntime (.ok [MySQL.withDbLine, MySQL.withoutDbLine]) 0).2.1.map
            (fun a => (a.connInfo.LogMessage, a.err))
          = [(MySQL.withDbLine, some .missingWebhook),
             (MySQL.withoutDbLine, some .missingWebhook)]
      ∧ (MySQL.handler bareRuntime (.ok [MySQL.withDbLine, MySQL.withoutDbLine]) 0).2.2
          = 0 := by
  refine ⟨rfl, ?_, ?_, ?_, ?_, ?_⟩ <;> decide

/-- C19, amended: in both programs, when `SLACK_WEBHOOK_URL` is absent or empty, every line
whose extraction is non-nil is still sent, each send returns the configuration error before
any request is made (the outside world is left as it was), and `handler` goes on to the next
line and returns nil. -/
theorem missing_webhook_logged {σ : Type} (rt : Runtime σ) (jst : Location) (clock : Time)
    (logEvents : List String) (w : σ) (h : rt.getenv "SLACK_WEBHOOK_URL" = "") :
    ((PostgreSQL.handler rt jst (.ok logEvents) w).1 = none
      ∧ (PostgreSQL.handler rt jst (.ok logEvents) w).2.2 = w
      ∧ (PostgreSQL.handler rt jst (.ok logEvents) w).2.1.map (fun a => a.connInfo.LogMessage)
          = logEvents.filter (fun m => (PostgreSQL.parseConnectionLog clock jst m).isSome)
      ∧ ∀ a ∈ (PostgreSQL.handler rt jst (.ok logEvents) w).2.1,
          a.err = some .missingWebhook)
    ∧ ((MySQL.handler rt (.ok logEvents) w).1 = none
      ∧ (MySQL.handler rt (.ok logEvents) w).2.2 = w
      ∧ (MySQL.handler rt (.ok logEvents) w).2.1.map (fun a => a.connInfo.LogMessage)
          = logEvents.filter (fun m => (MySQL.parseConnectionLog clock m).isSome)
      ∧ ∀ a ∈ (MySQL.handler rt (.ok logEvents) w).2.1, a.err = some .missingWebhook) := by
  constructor
  · obtain ⟨h1, _⟩ := forEachLogEvent_spec
      (fun now message => PostgreSQL.parseConnectionLog now jst message)
      (PostgreSQL.sendSlackNotification rt) rt.now
      (fun _ _ _ h => PostgreSQL.pg_logMessage h)
      (fun t t1 m => PostgreSQL.pg_isSome_clock t t1 jst m) clock logEvents w
    obtain ⟨h3, h4⟩ := forEachLogEvent_const
      (fun now message => PostgreSQL.parseConnectionLog now jst message)
      (PostgreSQL.sendSlackNotification rt) rt.now .missingWebhook
      (PostgreSQL.pg_send_unconfigured rt h) logEvents w
    exact ⟨rfl, h3, h1, h4⟩
  · obtain ⟨h1, _⟩ := forEachLogEvent_spec
      (fun now message => MySQL.parseConnectionLog now message)
      (MySQL.sendSlackNotification rt) rt.now
      (fun _ _ _ h => MySQL.my_logMessage h)
      (fun t t1 m => MySQL.my_isSome_clock t t1 m) clock logEvents w
    obtain ⟨h3, h4⟩ := forEachLogEvent_const
      (fun now message => MySQL.parseConnectionLog now message)
      (MySQL.sendSlackNotification rt) rt.now .missingWebhook
      (MySQL.my_send_unconfigured rt h) logEvents w
    exact ⟨rfl, h3, h1, h4⟩

/-- C19, witness: the empty environment on a batch of the scenario line, a query line and
the fallback line, and on the corresponding MySQL batch. -/
theorem missing_webhook_logged_witness :
    bareRuntime.getenv "SLACK_WEBHOOK_URL" = ""
      ∧ ((PostgreSQL.handler bareRuntime fixedJST
            (.ok [PostgreSQL.scenarioLine, MySQL.queryLine, PostgreSQL.fallbackLine]) 0).1 = none
        ∧ (PostgreSQL.handler bareRuntime fixedJST
            (.ok [PostgreSQL.scenarioLine, MySQL.queryLine, PostgreSQL.fallbackLine]) 0).2.2 = 0
        ∧ (PostgreSQL.handler bareRuntime fixedJST
            (.ok [PostgreSQL.scenarioLine, MySQL.queryLine, PostgreSQL.fallbackLine]) 0).2.1.map
              (fun a => a.connInfo.LogMessage)
            = [PostgreSQL.scenarioLine, MySQL.queryLine, PostgreSQL.fallbackLine].filter
                (fun m => (PostgreSQL.parseConnectionLog epoch fixedJST m).isSome)
        ∧ ∀ a ∈ (PostgreSQL.handler bareRuntime fixedJST
            (.ok [PostgreSQL.scenarioLine, MySQL.queryLine, PostgreSQL.fallbackLine]) 0).2.1,
            a.err = some .missingWebhook)
      ∧ ((MySQL.handler bareRuntime
            (.ok [PostgreSQL.scenarioLine, MySQL.queryLine, PostgreSQL.fallbackLine]) 0).1 = none
        ∧ (MySQL.handler bareRuntime
            (.ok [PostgreSQL.scenarioLine, MySQL.queryLine, PostgreSQL.fallbackLine]) 0).2.2 = 0
        ∧ (MySQL.handler bareRuntime
            (.ok [PostgreSQL.scenarioLine, MySQL.queryLine, PostgreSQL.fallbackLine]) 0).2.1.map
              (fun a => a.connInfo.LogMessage)
            = [PostgreSQL.scenarioLine, MySQL.queryLine, PostgreSQL.fallbackLine].filter
                (fun m => (MySQL.parseConnectionLog epoch m).isSome)
        ∧ ∀ a ∈ (MySQL.handler bareRuntime
            (.ok [PostgreSQL.scenarioLine, MySQL.queryLine, PostgreSQL.fallbackLine]) 0).2.1,
            a.err = some .missingWebhook) :=
  ⟨rfl, missing_webhook_logged bareRuntime fixedJST epoch
    [PostgreSQL.scenarioLine, MySQL.queryLine, PostgreSQL.fallbackLine] 0 rfl⟩

end GoLambda
